import Mathlib

/-!
# DriftEngine: the 2D physics core (`ENG/objects/phyx.cpp`)

A shallow embedding of `PhyxObj2D` and `PhyxENG`.

* `double` is an arbitrary field `K`; the square root used by `glm::length` and
  `glm::normalize` is passed explicitly, so every definition is computable.
  The theorems on lengths, normals and collisions instantiate `K := ℝ` and the
  square root with `Real.sqrt`; the theorems on delegation and on kinematic
  bodies hold over every field.
* Objects live in a heap (a list of `PhyxObj2D` records); a pointer is an index.
  A dangling pointer and a cyclic parent chain make an operation return `none`:
  a recursion along the parent chain is given as many calls as the heap has
  bodies, which an acyclic chain never exceeds.
* `game.h` and `kldr.h` are not among the sources: `GameObj::Move`,
  `worldPosition2D`, `isKinematic`, `Orbiting` and the colliders are modelled
  from the specification, and the collision service is a field of the engine.
* Wall-clock time, the FPS counter, logging and sound playback do not touch the
  state of any body and are left out; the elapsed time `dd` is an argument.
-/

namespace glm

/-- Two doubles: the `glm::dvec2` of the source. -/
@[ext]
structure dvec2 (K : Type) where
  x : K
  y : K
deriving DecidableEq

section ops
variable {K : Type} [Field K]

instance : Zero (dvec2 K) := ⟨⟨0, 0⟩⟩
instance : Add (dvec2 K) := ⟨fun u v => ⟨u.x + v.x, u.y + v.y⟩⟩
instance : Sub (dvec2 K) := ⟨fun u v => ⟨u.x - v.x, u.y - v.y⟩⟩
instance : Neg (dvec2 K) := ⟨fun u => ⟨-u.x, -u.y⟩⟩
instance : HMul (dvec2 K) K (dvec2 K) := ⟨fun u s => ⟨u.x * s, u.y * s⟩⟩
instance : HDiv (dvec2 K) K (dvec2 K) := ⟨fun u s => ⟨u.x / s, u.y / s⟩⟩

/-- The scalar product `glm::dot`. -/
def dot (u v : dvec2 K) : K := u.x * v.x + u.y * v.y

/-- The Euclidean norm `glm::length`: `sqrt(dot(v, v))`. -/
def length (sqrt : K → K) (v : dvec2 K) : K := sqrt (dot v v)

/-- The reciprocal square root `glm::inversesqrt`: `1 / sqrt(x)`. -/
def inversesqrt (sqrt : K → K) (x : K) : K := 1 / sqrt x

/-- The unit vector `glm::normalize`: `v * inversesqrt(dot(v, v))`. At the zero
vector the source multiplies zero by `1 / 0` (a NaN in doubles) where a field
gives the zero vector, so the statements on a normal assume distinct centres. -/
def normalize (sqrt : K → K) (v : dvec2 K) : dvec2 K := v * inversesqrt sqrt (dot v v)

end ops
end glm

open glm

/-- The `parent` pointer of a `GameObj`: null, another `PhyxObj2D` of the heap
(the `dynamic_cast<PhyxObj2D*>` succeeds), or a game object that is not a
physics body (the cast gives null), of which only the world position matters. -/
inductive Parent (K : Type) where
  | null : Parent K
  | phyx (i : Nat) : Parent K
  | other (world : dvec2 K) : Parent K
deriving DecidableEq

/-- A physics body. `v`, `a` and `mass` are the members of `PhyxObj2D`; `position`,
`parent`, `kinematic` and `orbiting` are the state of its `GameObj` base behind
`Move`, `worldPosition2D`, `parent`, `isKinematic` and `Orbiting`. -/
structure PhyxObj2D (K : Type) where
  position : dvec2 K
  parent : Parent K
  kinematic : Bool
  orbiting : Option Nat
  v : dvec2 K
  a : dvec2 K
  mass : K
deriving DecidableEq

/-- A collider: a game object with a parent (the body that carries it) and an
offset; `Dim = some r` for a `CircleCollider` of radius `r` (the
`dynamic_cast<CircleCollider*>` succeeds), `none` for any other shape. -/
structure Collider (K : Type) where
  parent : Parent K
  position : dvec2 K
  Dim : Option K
deriving DecidableEq

/-- The heap of physics bodies; a `PhyxObj2D*` is an index into it. -/
abbrev Heap (K : Type) := List (PhyxObj2D K)

/-- The contact record of the collision service: `P` and `Q` pair a body with
the collider of it that is in contact. -/
structure CollisionMsg (K : Type) where
  P : Nat × Collider K
  Q : Nat × Collider K

/-- The gravity modes of the engine. -/
inductive GravityMode where
  | Everything
  | Orbiting
  | Directional
deriving DecidableEq

/-- The engine: the registry `managed`, the configuration read by `Update`
(`G`, `gravitymode`, `clipping`, `colEl`) and the collision service
`collisionENG->CollisionBetween(p, q, PHYX_LAYER)`, which may look at the
current state of the bodies. -/
structure PhyxENG (K : Type) where
  managed : List Nat
  G : K
  gravitymode : GravityMode
  clipping : Bool
  colEl : K
  CollisionBetween : Heap K → Nat → Nat → Option (CollisionMsg K)

namespace GameObj
variable {K : Type} [Field K]

/-- Modelled from the spec: `GameObj::worldPosition2D` (game.h is not among the
sources). The world position of an object is its own position composed with
that of its parent chain; `n` bounds the length of the chain walked. -/
def worldPosition2DAux (h : Heap K) : Nat → Parent K → dvec2 K → Option (dvec2 K)
  | _, Parent.null, pos => some pos
  | _, Parent.other world, pos => some (world + pos)
  | 0, Parent.phyx _, _ => none
  | n + 1, Parent.phyx i, pos =>
    match h[i]? with
    | none => none
    | some b =>
      match worldPosition2DAux h n b.parent b.position with
      | none => none
      | some w => some (w + pos)

end GameObj

namespace Collider
variable {K : Type} [Field K]

/-- Modelled from the spec: `Collider::worldPosition2D` (kldr.h is not among
the sources): the offset of the collider composed with the world position of
the body that carries it. -/
def worldPosition2D (h : Heap K) (c : Collider K) : Option (dvec2 K) :=
  GameObj.worldPosition2DAux h h.length c.parent c.position

end Collider

namespace PhyxObj2D
variable {K : Type} [Field K]

/-- Modelled from the spec: `GameObj::worldPosition2D` for the body at `i`. -/
def worldPosition2D (h : Heap K) (i : Nat) : Option (dvec2 K) :=
  match h[i]? with
  | none => none
  | some b => GameObj.worldPosition2DAux h h.length b.parent b.position

/-- Modelled from the spec: `GameObj::isKinematic`, the kinematic flag. -/
def isKinematic (b : PhyxObj2D K) : Bool := b.kinematic

/-- Modelled from the spec: `p->Orbiting(q)`, the orbit relation; `p` orbits the
body its `orbiting` pointer names (`player->orbiting = planet` in main.cpp). -/
def Orbiting (b : PhyxObj2D K) (q : Nat) : Bool := b.orbiting == some q

/-- `PhyxObj2D::Mass()`. -/
def Mass (b : PhyxObj2D K) : K := b.mass

/-- Modelled from the spec: `GameObj::Move`, a translation of the object's own
position. -/
def Move (h : Heap K) (i : Nat) (d : dvec2 K) : Option (Heap K) :=
  match h[i]? with
  | none => none
  | some b => some (h.set i { b with position := b.position + d })

/-- `PhyxObj2D::ResetA`. -/
def ResetA (h : Heap K) (i : Nat) : Option (Heap K) :=
  match h[i]? with
  | none => none
  | some b => some (h.set i { b with a := ⟨0, 0⟩ })

/-- `PhyxObj2D::ResetV`. -/
def ResetV (h : Heap K) (i : Nat) : Option (Heap K) :=
  match h[i]? with
  | none => none
  | some b => some (h.set i { b with v := ⟨0, 0⟩ })

/-- `PhyxObj2D::AddForce`: `a += _a / mass`. -/
def AddForce (h : Heap K) (i : Nat) (_a : dvec2 K) : Option (Heap K) :=
  match h[i]? with
  | none => none
  | some b => some (h.set i { b with a := b.a + _a / b.mass })

/-- The recursion of the getter `PhyxObj2D::V()`, with `n` calls left. -/
def getVAux (h : Heap K) : Nat → Nat → Option (dvec2 K)
  | 0, _ => none
  | n + 1, i =>
    match h[i]? with
    | none => none
    | some b =>
      match b.parent with
      | Parent.phyx j => getVAux h n j
      | Parent.other _ => some b.v
      | Parent.null => some b.v

/-- The getter `PhyxObj2D::V()`. -/
def getV (h : Heap K) (i : Nat) : Option (dvec2 K) := getVAux h h.length i

/-- The recursion of the setter `PhyxObj2D::V(_v)`, with `n` calls left. -/
def setVAux (h : Heap K) (_v : dvec2 K) : Nat → Nat → Option (Heap K)
  | 0, _ => none
  | n + 1, i =>
    match h[i]? with
    | none => none
    | some b =>
      match b.parent with
      | Parent.phyx j => setVAux h _v n j
      | Parent.other _ => some h
      | Parent.null => some (h.set i { b with v := _v })

/-- The setter `PhyxObj2D::V(_v)`. -/
def setV (h : Heap K) (i : Nat) (_v : dvec2 K) : Option (Heap K) := setVAux h _v h.length i

/-- The recursion of `PhyxObj2D::dV(_v)`, with `n` calls left. -/
def dVAux (h : Heap K) (_v : dvec2 K) : Nat → Nat → Option (Heap K)
  | 0, _ => none
  | n + 1, i =>
    match h[i]? with
    | none => none
    | some b =>
      match b.parent with
      | Parent.phyx j => dVAux h _v n j
      | Parent.other _ => some h
      | Parent.null => some (h.set i { b with v := b.v + _v })

/-- `PhyxObj2D::dV(_v)`. -/
def dV (h : Heap K) (i : Nat) (_v : dvec2 K) : Option (Heap K) := dVAux h _v h.length i

/-- The recursion of the getter `PhyxObj2D::XV()`. -/
def getXVAux (h : Heap K) : Nat → Nat → Option K
  | 0, _ => none
  | n + 1, i =>
    match h[i]? with
    | none => none
    | some b =>
      match b.parent with
      | Parent.phyx j => getXVAux h n j
      | Parent.other _ => some b.v.x
      | Parent.null => some b.v.x

/-- The getter `PhyxObj2D::XV()`. -/
def getXV (h : Heap K) (i : Nat) : Option K := getXVAux h h.length i

/-- The recursion of the setter `PhyxObj2D::XV(_xv)`. -/
def setXVAux (h : Heap K) (_xv : K) : Nat → Nat → Option (Heap K)
  | 0, _ => none
  | n + 1, i =>
    match h[i]? with
    | none => none
    | some b =>
      match b.parent with
      | Parent.phyx j => setXVAux h _xv n j
      | Parent.other _ => some h
      | Parent.null => some (h.set i { b with v := ⟨_xv, b.v.y⟩ })

/-- The setter `PhyxObj2D::XV(_xv)`. -/
def setXV (h : Heap K) (i : Nat) (_xv : K) : Option (Heap K) := setXVAux h _xv h.length i

/-- The recursion of the getter `PhyxObj2D::YV()`. -/
def getYVAux (h : Heap K) : Nat → Nat → Option K
  | 0, _ => none
  | n + 1, i =>
    match h[i]? with
    | none => none
    | some b =>
      match b.parent with
      | Parent.phyx j => getYVAux h n j
      | Parent.other _ => some b.v.y
      | Parent.null => some b.v.y

/-- The getter `PhyxObj2D::YV()`. -/
def getYV (h : Heap K) (i : Nat) : Option K := getYVAux h h.length i

/-- The recursion of the setter `PhyxObj2D::YV(_yv)`. -/
def setYVAux (h : Heap K) (_yv : K) : Nat → Nat → Option (Heap K)
  | 0, _ => none
  | n + 1, i =>
    match h[i]? with
    | none => none
    | some b =>
      match b.parent with
      | Parent.phyx j => setYVAux h _yv n j
      | Parent.other _ => some h
      | Parent.null => some (h.set i { b with v := ⟨b.v.x, _yv⟩ })

/-- The setter `PhyxObj2D::YV(_yv)`. -/
def setYV (h : Heap K) (i : Nat) (_yv : K) : Option (Heap K) := setYVAux h _yv h.length i

/-- The recursion of `PhyxObj2D::Speed()`. -/
def SpeedAux (sqrt : K → K) (h : Heap K) : Nat → Nat → Option K
  | 0, _ => none
  | n + 1, i =>
    match h[i]? with
    | none => none
    | some b =>
      match b.parent with
      | Parent.phyx j => SpeedAux sqrt h n j
      | Parent.other _ => some (glm.length sqrt b.v)
      | Parent.null => some (glm.length sqrt b.v)

/-- `PhyxObj2D::Speed()`. -/
def Speed (sqrt : K → K) (h : Heap K) (i : Nat) : Option K := SpeedAux sqrt h h.length i

/-- `PhyxObj2D::Update(dt)`: `dV(a * dt); if(!parent) Move(v * dt);`. -/
def Update (h : Heap K) (i : Nat) (dt : K) : Option (Heap K) :=
  match h[i]? with
  | none => none
  | some b =>
    match dV h i (b.a * dt) with
    | none => none
    | some h1 =>
      match h1[i]? with
      | none => none
      | some b1 =>
        match b1.parent with
        | Parent.null => Move h1 i (b1.v * dt)
        | _ => some h1

end PhyxObj2D

namespace PhyxENG
variable {K : Type} [Field K]

/-- `PhyxENG::Gravity2D(a, b)`. -/
def Gravity2D (sqrt : K → K) (eng : PhyxENG K) (h : Heap K) (a b : Nat) : Option (dvec2 K) :=
  match PhyxObj2D.worldPosition2D h b, PhyxObj2D.worldPosition2D h a, h[a]?, h[b]? with
  | some wb, some wa, some oa, some ob =>
    let a2b := wb - wa
    let Mm := oa.Mass * ob.Mass
    let d := glm.length sqrt a2b
    let r2 := (d * d) / 4
    some (a2b * (eng.G * (Mm / r2)))
  | _, _, _, _ => none

/-- `PhyxENG::StaticResolution(PhyxObj2D* p, Collider* pc, PhyxObj2D* q, Collider* qc)`. -/
def StaticResolution (sqrt : K → K) (h : Heap K) (p : Nat) (pc : Collider K) (q : Nat)
    (qc : Collider K) : Option (Heap K) :=
  match pc.worldPosition2D h, qc.worldPosition2D h, h[p]?, h[q]? with
  | some pw, some qw, some op, some oq =>
    let p2q := pw - qw
    let nor := glm.normalize sqrt p2q
    let p2qMassRatio := op.mass / (op.mass + oq.mass)
    let q2pMassRatio := oq.mass / (op.mass + oq.mass)
    match pc.Dim, qc.Dim with
    | some pDim, some qDim =>
      let overlap := ((pDim + qDim) - glm.length sqrt p2q) * 1.01
      if !op.isKinematic && !oq.isKinematic then
        (PhyxObj2D.Move h p (nor * overlap * q2pMassRatio)).bind fun h1 =>
          PhyxObj2D.Move h1 q (nor * (-1 : K) * overlap * p2qMassRatio)
      else if (op.isKinematic || oq.Orbiting p) && !oq.isKinematic then
        PhyxObj2D.Move h q (nor * (-1 : K) * overlap)
      else if !op.isKinematic && (oq.isKinematic || op.Orbiting q) then
        PhyxObj2D.Move h p (nor * overlap)
      else
        some h
    | _, _ =>
      (PhyxObj2D.Move h p nor).bind fun h1 => PhyxObj2D.Move h1 q (nor * (-1 : K))
  | _, _, _, _ => none

/-- `PhyxENG::DynamicResolution(PhyxObj2D* p, Collider* pc, PhyxObj2D* q, Collider* qc)`. -/
def DynamicResolution (sqrt : K → K) (eng : PhyxENG K) (h : Heap K) (p : Nat) (pc : Collider K)
    (q : Nat) (qc : Collider K) : Option (Heap K) :=
  match pc.worldPosition2D h, qc.worldPosition2D h, h[p]?, h[q]? with
  | some pw, some qw, some op, some oq =>
    let p2q := pw - qw
    let nor := glm.normalize sqrt p2q
    match pc.Dim, qc.Dim with
    | some _, some _ =>
      let tan : dvec2 K := ⟨nor.y * (-1 : K), nor.x⟩
      match PhyxObj2D.getV h p, PhyxObj2D.getV h q with
      | some pV, some qV =>
        let pdottan := glm.dot pV tan
        let qdottan := glm.dot qV tan
        let pdotnor := glm.dot pV nor
        let qdotnor := glm.dot qV nor
        let pmomentum := (pdotnor * (op.mass - oq.mass) + 2 * oq.mass * qdotnor) / (op.mass + oq.mass)
        let qmomentum := (qdotnor * (oq.mass - op.mass) + 2 * op.mass * pdotnor) / (op.mass + oq.mass)
        (if !op.isKinematic then PhyxObj2D.setV h p ((tan * pdottan + nor * pmomentum) * eng.colEl)
          else some h).bind fun h1 =>
        if !oq.isKinematic then PhyxObj2D.setV h1 q ((tan * qdottan + nor * qmomentum) * eng.colEl)
          else some h1
      | _, _ => none
    | _, _ =>
      (PhyxObj2D.ResetV h p).bind fun h1 =>
      (PhyxObj2D.ResetV h1 q).bind fun h2 =>
      (PhyxObj2D.ResetA h2 p).bind fun h3 =>
      PhyxObj2D.ResetA h3 q
  | _, _, _, _ => none

/-- The global forces of `PhyxENG::Update` for the pair `(p, q)` (lines 39-52). -/
def gravityStep (sqrt : K → K) (eng : PhyxENG K) (h : Heap K) (p q : Nat) : Option (Heap K) :=
  match Gravity2D sqrt eng h p q, h[p]?, h[q]? with
  | some g, some op, some oq =>
    match op.parent with
    | Parent.null =>
      match eng.gravitymode with
      | GravityMode.Everything =>
        (if !op.isKinematic then PhyxObj2D.AddForce h p g else some h).bind fun h1 =>
        if !oq.isKinematic then PhyxObj2D.AddForce h1 q (-g) else some h1
      | GravityMode.Orbiting =>
        (if op.Orbiting q && !op.isKinematic then PhyxObj2D.AddForce h p g else some h).bind fun h1 =>
        if oq.Orbiting p && !oq.isKinematic then PhyxObj2D.AddForce h1 q (-g) else some h1
      | GravityMode.Directional =>
        PhyxObj2D.AddForce h p ((⟨0, -1⟩ : dvec2 K) * op.mass)
    | _ => some h
  | _, _, _ => none

/-- The contact handling of `PhyxENG::Update` for the pair `(p, q)` (lines 54-69). -/
def contactStep (sqrt : K → K) (eng : PhyxENG K) (h : Heap K) (p q : Nat) : Option (Heap K) :=
  match eng.CollisionBetween h p q with
  | some pqData =>
    if eng.clipping then
      (StaticResolution sqrt h p pqData.P.2 q pqData.Q.2).bind fun h1 =>
        DynamicResolution sqrt eng h1 p pqData.P.2 q pqData.Q.2
    else some h
  | none => some h

/-- The inner loop of `PhyxENG::Update`: `p = managed[i]` against every
`q = managed[j]`, `j > i`; the list is the rest of the registry after `i`. -/
def innerLoop (sqrt : K → K) (eng : PhyxENG K) (p : Nat) : List Nat → Heap K → Option (Heap K)
  | [], h => some h
  | q :: qs, h =>
    (gravityStep sqrt eng h p q).bind fun h1 =>
    (contactStep sqrt eng h1 p q).bind fun h2 =>
    innerLoop sqrt eng p qs h2

/-- The end of one turn of the outer loop (lines 72-73):
`if(!p->isKinematic()) p->Update(dd); p->ResetA();`. -/
def finishBody (h : Heap K) (p : Nat) (dd : K) : Option (Heap K) :=
  match h[p]? with
  | none => none
  | some op =>
    (if !op.isKinematic then PhyxObj2D.Update h p dd else some h).bind fun h1 =>
    PhyxObj2D.ResetA h1 p

/-- The outer loop of `PhyxENG::Update` over the registry from index `i` on. -/
def outerLoop (sqrt : K → K) (eng : PhyxENG K) (dd : K) : List Nat → Heap K → Option (Heap K)
  | [], h => some h
  | p :: rest, h =>
    (innerLoop sqrt eng p rest h).bind fun h1 =>
    (finishBody h1 p dd).bind fun h2 =>
    outerLoop sqrt eng dd rest h2

/-- `PhyxENG::Update`, with the scaled elapsed time `dd` as an argument. -/
def Update (sqrt : K → K) (eng : PhyxENG K) (dd : K) (h : Heap K) : Option (Heap K) :=
  outerLoop sqrt eng dd eng.managed h

end PhyxENG

/-! ## Parent chains: the vocabulary of the statements on delegation -/

namespace Chain
variable {K : Type} [Field K]

/-- The parent pointer stored in the body at `i`, when `i` is a valid pointer. -/
def parentOf (h : Heap K) (i : Nat) : Option (Parent K) :=
  match h[i]? with
  | none => none
  | some b => some b.parent

/-- The list `c` is a parent chain of bodies that ends in the root `r`: every
member but the last has the next member as its parent, and the last member is
`r` and has no parent. -/
def IsChain (h : Heap K) : List Nat → Nat → Prop
  | [], _ => False
  | [i], r => i = r ∧ parentOf h i = some Parent.null
  | i :: j :: rest, r => parentOf h i = some (Parent.phyx j) ∧ IsChain h (j :: rest) r

/-- The body at the end of the chain of physics bodies above `i`, the one the
velocity accessors end their recursion on, found in at most `n` steps. -/
def holderAux (h : Heap K) : Nat → Nat → Option (Nat × PhyxObj2D K)
  | 0, _ => none
  | n + 1, i =>
    match h[i]? with
    | none => none
    | some b =>
      match b.parent with
      | Parent.phyx j => holderAux h n j
      | Parent.other _ => some (i, b)
      | Parent.null => some (i, b)

/-- A velocity mutation of `PhyxObj2D`: `V(_v)`, `dV(_v)`, `XV(_xv)` or `YV(_yv)`. -/
inductive VelocityCall (K : Type) where
  | V (_v : dvec2 K) : VelocityCall K
  | dV (_v : dvec2 K) : VelocityCall K
  | XV (_xv : K) : VelocityCall K
  | YV (_yv : K) : VelocityCall K

/-- The mutation `call` issued through the body at `m`. -/
def VelocityCall.run (h : Heap K) (m : Nat) : VelocityCall K → Option (Heap K)
  | VelocityCall.V _v => PhyxObj2D.setV h m _v
  | VelocityCall.dV _v => PhyxObj2D.dV h m _v
  | VelocityCall.XV _xv => PhyxObj2D.setXV h m _xv
  | VelocityCall.YV _yv => PhyxObj2D.setYV h m _yv

/-- The velocity a mutation asks for, given the velocity `old` held before. -/
def VelocityCall.asked (old : dvec2 K) : VelocityCall K → dvec2 K
  | VelocityCall.V _v => _v
  | VelocityCall.dV _v => old + _v
  | VelocityCall.XV _xv => ⟨_xv, old.y⟩
  | VelocityCall.YV _yv => ⟨old.x, _yv⟩

end Chain

namespace Chain
variable {K : Type}

/-- The physics bodies that carry an object whose parent pointer is `par`,
nearest first: the parent, the parent of the parent, and so on while the parent
is a physics body. The walk is the one of `worldPosition2DAux`, with `n` calls
left. -/
def carriersAux (h : Heap K) : Nat → Parent K → Option (List Nat)
  | _, Parent.null => some []
  | _, Parent.other _ => some []
  | 0, Parent.phyx _ => none
  | n + 1, Parent.phyx i =>
    match h[i]? with
    | none => none
    | some b =>
      match carriersAux h n b.parent with
      | none => none
      | some l => some (i :: l)

end Chain

/-! ## Well-formed heaps and what an update leaves alone: the vocabulary of the
statements on kinematic bodies -/

namespace Heap
variable {K : Type}

/-- The part of a body that no operation of the physics core writes: its parent
pointer and its kinematic flag. -/
def skeleton (b : PhyxObj2D K) : Parent K × Bool := (b.parent, b.kinematic)

/-- The stored position and the stored velocity of a body. -/
def motion (b : PhyxObj2D K) : dvec2 K × dvec2 K := (b.position, b.v)

/-- Every parent pointer of the heap is valid and every parent chain is acyclic:
from every body the chain of physics bodies above it ends within as many steps
as the heap has bodies. -/
def WellFormed (h : Heap K) : Prop :=
  ∀ i, i < h.length → (Chain.holderAux h h.length i).isSome

/-- No body of the heap has the body at `k` as its parent. -/
def NoChild (h : Heap K) (k : Nat) : Prop :=
  ∀ (i : Nat) (b : PhyxObj2D K), h[i]? = some b → b.parent ≠ Parent.phyx k

/-- The heap `h1` has the bodies of `h` with the same parent pointers and
kinematic flags, and the body at `k` has kept its stored position and velocity. -/
def Frame (k : Nat) (h h1 : Heap K) : Prop :=
  h1.length = h.length
  ∧ (∀ i : Nat, (h1[i]?).map skeleton = (h[i]?).map skeleton)
  ∧ (h1[k]?).map motion = (h[k]?).map motion

/-- The heap `h1` has the bodies of `h` with the same parent pointers and
kinematic flags, and every body outside the list `S` has kept its acceleration. -/
def AccFrame (S : List Nat) (h h1 : Heap K) : Prop :=
  h1.length = h.length
  ∧ (∀ i : Nat, (h1[i]?).map skeleton = (h[i]?).map skeleton)
  ∧ ∀ i : Nat, i ∉ S → (h1[i]?).map (fun b => b.a) = (h[i]?).map (fun b => b.a)

/-- Every body of the list `S` has the acceleration `(0, 0)`. -/
def Cleared [Zero K] (S : List Nat) (h : Heap K) : Prop :=
  ∀ i ∈ S, ∃ b : PhyxObj2D K, h[i]? = some b ∧ b.a = ⟨0, 0⟩

/-- The heaps on which the body at `k` is protected: a well-formed heap in
which the body at `k` is kinematic and is the parent of no body. -/
def Good (k : Nat) (h : Heap K) : Prop :=
  WellFormed h ∧ NoChild h k ∧ ∃ bk, h[k]? = some bk ∧ bk.kinematic = true

end Heap

namespace Collider
variable {K : Type}

/-- The collider is free-standing, hangs on an object that is not a physics
body, or is carried by a body of a heap of `n` bodies. -/
def Attached (n : Nat) (c : Collider K) : Prop :=
  match c.parent with
  | Parent.phyx i => i < n
  | _ => True

/-- The body at `i` carries the collider: the collider hangs on it, directly or
through bodies welded to it, so that a translation of the body at `i`
translates the collider. -/
def carriedBy (h : Heap K) (c : Collider K) (i : Nat) : Bool :=
  match Chain.carriersAux h h.length c.parent with
  | some l => decide (i ∈ l)
  | none => false

end Collider

namespace PhyxENG
variable {K : Type} [Field K]

/-- The colliders of every contact record the collision service returns for two
bodies of a heap of `n` bodies are attached to that heap. -/
def ServiceAttached (eng : PhyxENG K) (n : Nat) : Prop :=
  ∀ (h : Heap K) (p q : Nat) (pqData : CollisionMsg K), h.length = n → p < n → q < n →
    eng.CollisionBetween h p q = some pqData →
    pqData.P.2.Attached n ∧ pqData.Q.2.Attached n

/-- When resolution is enabled, every contact the collision service reports for
a pair that has the body at `k` in it is a contact of two circle colliders. -/
def CircleContactsOf (eng : PhyxENG K) (k : Nat) : Prop :=
  eng.clipping = true →
  ∀ (h : Heap K) (p q : Nat) (pqData : CollisionMsg K), p = k ∨ q = k →
    eng.CollisionBetween h p q = some pqData →
    pqData.P.2.Dim ≠ none ∧ pqData.Q.2.Dim ≠ none

/-- The part of the displacement of a circle contact that lengthens the distance
between the two colliders: the shares of the displacement that
`StaticResolution` gives to `p` and to `q` (lines 108-117: the mass ratio of the
other body when neither is kinematic, the whole for the only non-kinematic
body), each counted only if the body does not carry the collider of the other,
which its translation would drag along. -/
def separatingShare (h : Heap K) (p : Nat) (pc : Collider K) (q : Nat) (qc : Collider K)
    (op oq : PhyxObj2D K) : K :=
  (if op.kinematic = true then 0 else if oq.kinematic = true then 1
      else oq.mass / (op.mass + oq.mass))
      * (if qc.carriedBy h p = true then 0 else 1)
    + (if oq.kinematic = true then 0 else if op.kinematic = true then 1
      else op.mass / (op.mass + oq.mass))
      * (if pc.carriedBy h q = true then 0 else 1)

/-- The acceleration that the pulls of the bodies of `qs` give the body at `a`
of mass `m` in mode Everything: the sum over the `q` of `qs` other than `a` of
`Gravity2D(a, q) / m`, every force evaluated on the heap `h`. -/
def netPull (sqrt : K → K) (eng : PhyxENG K) (h : Heap K) (a : Nat) (m : K) :
    List Nat → dvec2 K
  | [] => ⟨0, 0⟩
  | q :: qs =>
    (if q = a then ⟨0, 0⟩ else (Gravity2D sqrt eng h a q).getD ⟨0, 0⟩ / m)
      + netPull sqrt eng h a m qs

/-- A run of update calls, each with its own engine configuration and its own
scaled elapsed time. -/
def Updates (sqrt : K → K) : List (PhyxENG K × K) → Heap K → Option (Heap K)
  | [], h => some h
  | (eng, dd) :: rest, h => (Update sqrt eng dd h).bind fun h1 => Updates sqrt rest h1

end PhyxENG

/-! ## Concrete bodies and engines used as inputs -/

namespace Scenario
variable {K : Type} [Field K]

/-- An unparented, non-kinematic body with zero acceleration. -/
def freeBody (position v : dvec2 K) (mass : K) : PhyxObj2D K :=
  { position := position, parent := Parent.null, kinematic := false, orbiting := none,
    v := v, a := ⟨0, 0⟩, mass := mass }

/-- An unparented, non-kinematic body with acceleration `a`. -/
def pushedBody (position v a : dvec2 K) (mass : K) : PhyxObj2D K :=
  { position := position, parent := Parent.null, kinematic := false, orbiting := none,
    v := v, a := a, mass := mass }

/-- An unparented kinematic body with zero acceleration. -/
def kinematicBody (position v : dvec2 K) (mass : K) : PhyxObj2D K :=
  { position := position, parent := Parent.null, kinematic := true, orbiting := none,
    v := v, a := ⟨0, 0⟩, mass := mass }

/-- A non-kinematic body with zero acceleration attached to the body at `parent`. -/
def childBody (parent : Nat) (position v : dvec2 K) (mass : K) : PhyxObj2D K :=
  { position := position, parent := Parent.phyx parent, kinematic := false, orbiting := none,
    v := v, a := ⟨0, 0⟩, mass := mass }

/-- A non-kinematic body with acceleration `a` attached to the body at `parent`. -/
def pushedChild (parent : Nat) (position v a : dvec2 K) (mass : K) : PhyxObj2D K :=
  { position := position, parent := Parent.phyx parent, kinematic := false, orbiting := none,
    v := v, a := a, mass := mass }

/-- A carrier at rest at the origin and a unit mass welded to it one unit to its
right that has accumulated the acceleration `(0, -1)`. -/
def towed : Heap K :=
  [freeBody ⟨0, 0⟩ ⟨0, 0⟩ 1, pushedChild 0 ⟨1, 0⟩ ⟨0, 0⟩ ⟨0, -1⟩ 1]

/-- A carrier of mass 2 moving right under the acceleration `(0, -1)` and a unit
mass welded to it that has accumulated the acceleration `(3, 0)`. -/
def convoy : Heap K :=
  [pushedBody ⟨0, 0⟩ ⟨1, 0⟩ ⟨0, -1⟩ 2, pushedChild 0 ⟨1, 0⟩ ⟨0, 0⟩ ⟨3, 0⟩ 1]

/-- A carrier moving at `(3, 4)`, a body welded to it, and a free unit mass
coming from the right. -/
def towing : Heap K :=
  [freeBody ⟨0, 0⟩ ⟨3, 4⟩ 5, childBody 0 ⟨1, 0⟩ ⟨7, 7⟩ 1, freeBody ⟨2, 0⟩ ⟨-1, 0⟩ 1]

/-- A carrier at the origin and a unit-mass body welded to it one unit to its left. -/
def welded : Heap K :=
  [freeBody ⟨0, 0⟩ ⟨0, 0⟩ 1, childBody 0 ⟨-1, 0⟩ ⟨0, 0⟩ 1]

/-- A carrier of mass 5 and two bodies welded to it, of masses 1 and 3, one
unit apart. -/
def siblings : Heap K :=
  [freeBody ⟨10, 0⟩ ⟨0, 0⟩ 5, childBody 0 ⟨0, 0⟩ ⟨0, 0⟩ 1, childBody 0 ⟨1, 0⟩ ⟨0, 0⟩ 3]

/-- Two equal masses meeting head-on along the x-axis. -/
def headOn : Heap K :=
  [freeBody ⟨-1, 0⟩ ⟨1, 0⟩ 2, freeBody ⟨1, 0⟩ ⟨-1, 0⟩ 2]

/-- Two unit masses at the same place, the origin, with opposite velocities. -/
def stacked : Heap K :=
  [freeBody ⟨0, 0⟩ ⟨1, 0⟩ 1, freeBody ⟨0, 0⟩ ⟨-1, 0⟩ 1]

/-- A unit mass at the origin and a mass 3 one unit to its right, both at rest. -/
def overlapping : Heap K :=
  [freeBody ⟨0, 0⟩ ⟨0, 0⟩ 1, freeBody ⟨1, 0⟩ ⟨0, 0⟩ 3]

/-- Two unit masses at rest, three units apart on the x-axis. -/
def apart : Heap K :=
  [freeBody ⟨0, 0⟩ ⟨0, 0⟩ 1, freeBody ⟨3, 0⟩ ⟨0, 0⟩ 1]

/-- An unparented, non-kinematic body with zero acceleration that orbits the
body at `target`. -/
def orbitingBody (target : Nat) (position v : dvec2 K) (mass : K) : PhyxObj2D K :=
  { position := position, parent := Parent.null, kinematic := false, orbiting := some target,
    v := v, a := ⟨0, 0⟩, mass := mass }

/-- A unit mass at the origin and, one unit to its right, a unit mass that
orbits it; both at rest and non-kinematic. -/
def orbiter : Heap K :=
  [freeBody ⟨0, 0⟩ ⟨0, 0⟩ 1, orbitingBody 0 ⟨1, 0⟩ ⟨0, 0⟩ 1]

/-- A carrier moving right, a body welded to it and a body welded to that one. -/
def train : Heap K :=
  [freeBody ⟨0, 0⟩ ⟨3, 4⟩ 5, childBody 0 ⟨1, 0⟩ ⟨7, 7⟩ 1, childBody 1 ⟨1, 0⟩ ⟨9, 9⟩ 1]

/-- Three unit masses at rest in a row on the x-axis. -/
def row : Heap K :=
  [freeBody ⟨0, 0⟩ ⟨0, 0⟩ 1, freeBody ⟨3, 0⟩ ⟨0, 0⟩ 1, freeBody ⟨6, 0⟩ ⟨0, 0⟩ 1]

/-- The scenario of the spec: two unit masses centred at `(-0.6, 0)` and
`(0.6, 0)` moving at `(1, 0)` and `(-1, 0)`. -/
def approaching : Heap K :=
  [freeBody ⟨-0.6, 0⟩ ⟨1, 0⟩ 1, freeBody ⟨0.6, 0⟩ ⟨-1, 0⟩ 1]

/-- A kinematic unit mass at the origin with velocity `(1, 0)` and a free unit
mass one unit to its right coming towards it. -/
def wall : Heap K :=
  [kinematicBody ⟨0, 0⟩ ⟨1, 0⟩ 1, freeBody ⟨1, 0⟩ ⟨-1, 0⟩ 1]

/-- A kinematic carrier at rest at the origin and a non-kinematic unit mass
welded to it two units to its right. -/
def carried : Heap K :=
  [kinematicBody ⟨0, 0⟩ ⟨0, 0⟩ 1, childBody 0 ⟨2, 0⟩ ⟨0, 0⟩ 1]

/-- A collider that is not a circle, centred on the body at `i`. -/
def boxOn (i : Nat) : Collider K :=
  { parent := Parent.phyx i, position := ⟨0, 0⟩, Dim := none }

/-- A circle collider of radius `r` centred on the body at `i`. -/
def circleOn (i : Nat) (r : K) : Collider K :=
  { parent := Parent.phyx i, position := ⟨0, 0⟩, Dim := some r }

/-- A collision service that never reports a contact. -/
def noContact : Heap K → Nat → Nat → Option (CollisionMsg K) := fun _ _ _ => none

/-- A collision service that reports a contact for every pair it is asked
about, between circle colliders of radius `r` centred on the two bodies. -/
def circleContact (r : K) : Heap K → Nat → Nat → Option (CollisionMsg K) :=
  fun _ p q => some { P := (p, circleOn p r), Q := (q, circleOn q r) }

/-- A collision service that reports a contact for every pair it is asked
about, between colliders that are not circles, centred on the two bodies. -/
def boxContact : Heap K → Nat → Nat → Option (CollisionMsg K) :=
  fun _ p q => some { P := (p, boxOn p), Q := (q, boxOn q) }

/-- An engine over the registry `managed` with the given configuration. -/
def engine (managed : List Nat) (G : K) (mode : GravityMode) (clipping : Bool) (colEl : K)
    (service : Heap K → Nat → Nat → Option (CollisionMsg K)) : PhyxENG K :=
  { managed := managed, G := G, gravitymode := mode, clipping := clipping, colEl := colEl,
    CollisionBetween := service }

end Scenario

/-! ## Vector algebra -/

namespace glm
variable {K : Type} [Field K]

@[simp] theorem dvec2.add_x (u v : dvec2 K) : (u + v).x = u.x + v.x := rfl
@[simp] theorem dvec2.add_y (u v : dvec2 K) : (u + v).y = u.y + v.y := rfl
@[simp] theorem dvec2.sub_x (u v : dvec2 K) : (u - v).x = u.x - v.x := rfl
@[simp] theorem dvec2.sub_y (u v : dvec2 K) : (u - v).y = u.y - v.y := rfl
@[simp] theorem dvec2.neg_x (u : dvec2 K) : (-u).x = -u.x := rfl
@[simp] theorem dvec2.neg_y (u : dvec2 K) : (-u).y = -u.y := rfl
@[simp] theorem dvec2.mul_x (u : dvec2 K) (s : K) : (u * s).x = u.x * s := rfl
@[simp] theorem dvec2.mul_y (u : dvec2 K) (s : K) : (u * s).y = u.y * s := rfl
@[simp] theorem dvec2.div_x (u : dvec2 K) (s : K) : (u / s).x = u.x / s := rfl
@[simp] theorem dvec2.div_y (u : dvec2 K) (s : K) : (u / s).y = u.y / s := rfl
@[simp] theorem dvec2.zero_x : (0 : dvec2 K).x = 0 := rfl
@[simp] theorem dvec2.zero_y : (0 : dvec2 K).y = 0 := rfl
@[simp] theorem dvec2.mk_add_mk (a b c d : K) :
    (⟨a, b⟩ : dvec2 K) + ⟨c, d⟩ = ⟨a + c, b + d⟩ := rfl
@[simp] theorem dvec2.mk_sub_mk (a b c d : K) :
    (⟨a, b⟩ : dvec2 K) - ⟨c, d⟩ = ⟨a - c, b - d⟩ := rfl
@[simp] theorem dvec2.neg_mk (a b : K) : -(⟨a, b⟩ : dvec2 K) = ⟨-a, -b⟩ := rfl
@[simp] theorem dvec2.mk_mul (a b s : K) : (⟨a, b⟩ : dvec2 K) * s = ⟨a * s, b * s⟩ := rfl
@[simp] theorem dvec2.mk_div (a b s : K) : (⟨a, b⟩ : dvec2 K) / s = ⟨a / s, b / s⟩ := rfl

/-- The real square root of `y * y` for a non-negative `y`, used to evaluate
`glm::length` on concrete vectors. -/
theorem sqrt_of_mul_self {x y : ℝ} (hy : 0 ≤ y) (h : y * y = x) : Real.sqrt x = y :=
  Real.sqrt_eq_cases.mpr (Or.inl ⟨h, hy⟩)

/-- The squared norm of a real vector is positive unless the vector is zero. -/
theorem dot_self_pos {u : dvec2 ℝ} (hu : u ≠ 0) : 0 < dot u u := by
  have h0 : u.x ≠ 0 ∨ u.y ≠ 0 := by
    by_contra hc
    push_neg at hc
    exact hu (dvec2.ext hc.1 hc.2)
  unfold dot
  rcases h0 with hx | hy
  · have := mul_self_pos.mpr hx
    nlinarith [mul_self_nonneg u.y]
  · have := mul_self_pos.mpr hy
    nlinarith [mul_self_nonneg u.x]

/-- The difference of two distinct points is not the zero vector. -/
theorem sub_ne_zero_of_ne {u v : dvec2 ℝ} (huv : u ≠ v) : u - v ≠ 0 := by
  intro hc
  apply huv
  have hx := congrArg dvec2.x hc
  have hy := congrArg dvec2.y hc
  simp at hx hy
  exact dvec2.ext (by linarith) (by linarith)

/-- Over the reals `glm::length` is positive on a non-zero vector. -/
theorem length_pos {u : dvec2 ℝ} (hu : u ≠ 0) : 0 < length Real.sqrt u :=
  Real.sqrt_pos.mpr (dot_self_pos hu)

/-- Over the reals `glm::length` squares to the squared norm. -/
theorem length_mul_self (u : dvec2 ℝ) : length Real.sqrt u * length Real.sqrt u = dot u u := by
  unfold length
  refine Real.mul_self_sqrt ?_
  unfold dot
  nlinarith [mul_self_nonneg u.x, mul_self_nonneg u.y]

/-- Over the reals `glm::normalize` is division by `glm::length`. -/
theorem normalize_eq (u : dvec2 ℝ) :
    normalize Real.sqrt u = ⟨u.x / length Real.sqrt u, u.y / length Real.sqrt u⟩ := by
  unfold normalize inversesqrt length
  ext <;> simp [div_eq_mul_inv]

/-- Over the reals `glm::normalize` of a non-zero vector is a unit vector. -/
theorem normalize_unit {u : dvec2 ℝ} (hu : u ≠ 0) :
    (normalize Real.sqrt u).x * (normalize Real.sqrt u).x
      + (normalize Real.sqrt u).y * (normalize Real.sqrt u).y = 1 := by
  have hl := length_pos hu
  have hs := length_mul_self u
  rw [normalize_eq]
  unfold dot at hs
  simp only
  field_simp
  linarith

end glm

/-! ## Pointers and the velocity accessors of an unparented body -/

namespace Heap
variable {K : Type}

/-- A valid pointer lies inside the heap. -/
theorem lt_length_of_get {h : Heap K} {i : Nat} {b : PhyxObj2D K} (hi : h[i]? = some b) :
    i < h.length :=
  (List.getElem?_eq_some.mp hi).1

/-- A heap with a valid pointer is not empty. -/
theorem length_pos_of_get {h : Heap K} {i : Nat} {b : PhyxObj2D K} (hi : h[i]? = some b) :
    ∃ n, h.length = n + 1 :=
  ⟨h.length - 1, by have := lt_length_of_get hi; omega⟩

/-- Reading the object just written. -/
theorem get_set_self {h : Heap K} {i : Nat} {b : PhyxObj2D K} (hi : h[i]? = some b)
    (c : PhyxObj2D K) : (h.set i c)[i]? = some c :=
  List.getElem?_set_self (lt_length_of_get hi)

/-- Writing one object leaves the others as they were. -/
theorem get_set_ne {h : Heap K} {i j : Nat} (hij : i ≠ j) (c : PhyxObj2D K) :
    (h.set i c)[j]? = h[j]? :=
  List.getElem?_set_ne hij

end Heap

namespace PhyxObj2D
variable {K : Type}

/-- The getter `V()` of an unparented body reads its own velocity. -/
theorem getV_of_null {h : Heap K} {i : Nat} {b : PhyxObj2D K} (hi : h[i]? = some b)
    (hb : b.parent = Parent.null) : getV h i = some b.v := by
  obtain ⟨n, hn⟩ := Heap.length_pos_of_get hi
  simp [getV, hn, getVAux, hi, hb]

/-- The setter `V(_v)` of an unparented body writes its own velocity. -/
theorem setV_of_null {h : Heap K} {i : Nat} {b : PhyxObj2D K} (hi : h[i]? = some b)
    (hb : b.parent = Parent.null) (_v : dvec2 K) :
    setV h i _v = some (h.set i { b with v := _v }) := by
  obtain ⟨n, hn⟩ := Heap.length_pos_of_get hi
  simp [setV, hn, setVAux, hi, hb]

end PhyxObj2D

/-! ## Dynamic resolution of a circle contact -/

namespace PhyxENG

/-- The result of `DynamicResolution` on two unparented, non-kinematic bodies in
a circle contact: each gets the recombined velocity scaled by `colEl`. -/
theorem DynamicResolution_circle_free (eng : PhyxENG ℝ) (h : Heap ℝ) (p q : Nat)
    (pc qc : Collider ℝ) (op oq : PhyxObj2D ℝ) (pw qw : dvec2 ℝ) (rp rq : ℝ)
    (hpq : p ≠ q) (hp : h[p]? = some op) (hq : h[q]? = some oq)
    (hpk : op.kinematic = false) (hqk : oq.kinematic = false)
    (hpp : op.parent = Parent.null) (hqp : oq.parent = Parent.null)
    (hpc : pc.Dim = some rp) (hqc : qc.Dim = some rq)
    (hpw : pc.worldPosition2D h = some pw) (hqw : qc.worldPosition2D h = some qw) :
    DynamicResolution Real.sqrt eng h p pc q qc =
      some ((h.set p { op with v :=
          ((⟨(normalize Real.sqrt (pw - qw)).y * (-1), (normalize Real.sqrt (pw - qw)).x⟩ : dvec2 ℝ)
              * dot op.v ⟨(normalize Real.sqrt (pw - qw)).y * (-1), (normalize Real.sqrt (pw - qw)).x⟩
            + normalize Real.sqrt (pw - qw)
              * ((dot op.v (normalize Real.sqrt (pw - qw)) * (op.mass - oq.mass)
                  + 2 * oq.mass * dot oq.v (normalize Real.sqrt (pw - qw))) / (op.mass + oq.mass)))
            * eng.colEl }).set q { oq with v :=
          ((⟨(normalize Real.sqrt (pw - qw)).y * (-1), (normalize Real.sqrt (pw - qw)).x⟩ : dvec2 ℝ)
              * dot oq.v ⟨(normalize Real.sqrt (pw - qw)).y * (-1), (normalize Real.sqrt (pw - qw)).x⟩
            + normalize Real.sqrt (pw - qw)
              * ((dot oq.v (normalize Real.sqrt (pw - qw)) * (oq.mass - op.mass)
                  + 2 * op.mass * dot op.v (normalize Real.sqrt (pw - qw))) / (op.mass + oq.mass)))
            * eng.colEl }) := by
  have hq1 : ∀ b, (h.set p b)[q]? = some oq := by
    intro b
    rw [List.getElem?_set_ne hpq]
    exact hq
  unfold DynamicResolution
  simp only [hpw, hqw, hp, hq, hpc, hqc, PhyxObj2D.getV_of_null hp hpp,
    PhyxObj2D.getV_of_null hq hqp, PhyxObj2D.isKinematic, hpk, hqk, Bool.not_false, if_true,
    PhyxObj2D.setV_of_null hp hpp, Option.some_bind, PhyxObj2D.setV_of_null (hq1 _) hqp]

/-- The two velocities after an elastic circle contact carry the momentum the
pair had before: pure algebra on the formula of `DynamicResolution`. -/
theorem momentum_algebra (n vp vq : dvec2 ℝ) (mp mq : ℝ) (hm : mp + mq ≠ 0)
    (hn : n.x * n.x + n.y * n.y = 1) :
    (((⟨n.y * (-1), n.x⟩ : dvec2 ℝ) * dot vp ⟨n.y * (-1), n.x⟩
        + n * ((dot vp n * (mp - mq) + 2 * mq * dot vq n) / (mp + mq))) * (1 : ℝ)) * mp
      + (((⟨n.y * (-1), n.x⟩ : dvec2 ℝ) * dot vq ⟨n.y * (-1), n.x⟩
        + n * ((dot vq n * (mq - mp) + 2 * mp * dot vp n) / (mp + mq))) * (1 : ℝ)) * mq
      = vp * mp + vq * mq := by
  ext
  · simp only [dvec2.add_x, dvec2.mul_x, dot]
    field_simp
    linear_combination (vp.x * mp * (mp + mq) + vq.x * mq * (mp + mq)) * hn
  · simp only [dvec2.add_y, dvec2.mul_y, dot]
    field_simp
    linear_combination (vp.y * mp * (mp + mq) + vq.y * mq * (mp + mq)) * hn

/-- C1. Momentum conservation in `PhyxENG::DynamicResolution`: for two distinct,
non-kinematic, unparented bodies with positive masses whose contact colliders
are circles at distinct world positions, and restitution `colEl = 1`, the call
returns, keeps both masses, and the total momentum `mass_p * V_p + mass_q * V_q`
after it equals the total momentum before it. -/
theorem DynamicResolution_momentum_conserved (eng : PhyxENG ℝ) (h : Heap ℝ) (p q : Nat)
    (pc qc : Collider ℝ) (op oq : PhyxObj2D ℝ) (pw qw : dvec2 ℝ) (rp rq : ℝ)
    (hpq : p ≠ q) (hp : h[p]? = some op) (hq : h[q]? = some oq)
    (hpk : op.kinematic = false) (hqk : oq.kinematic = false)
    (hpp : op.parent = Parent.null) (hqp : oq.parent = Parent.null)
    (hmp : 0 < op.mass) (hmq : 0 < oq.mass)
    (hpc : pc.Dim = some rp) (hqc : qc.Dim = some rq)
    (hpw : pc.worldPosition2D h = some pw) (hqw : qc.worldPosition2D h = some qw)
    (hne : pw ≠ qw) (hel : eng.colEl = 1) :
    ∃ h1 op1 oq1, DynamicResolution Real.sqrt eng h p pc q qc = some h1
      ∧ h1[p]? = some op1 ∧ h1[q]? = some oq1
      ∧ op1.mass = op.mass ∧ oq1.mass = oq.mass
      ∧ op1.v * op1.mass + oq1.v * oq1.mass = op.v * op.mass + oq.v * oq.mass := by
  refine ⟨_, _, _, DynamicResolution_circle_free eng h p q pc qc op oq pw qw rp rq hpq hp hq
    hpk hqk hpp hqp hpc hqc hpw hqw,
    (Heap.get_set_ne (Ne.symm hpq) _).trans (Heap.get_set_self hp _),
    Heap.get_set_self ((Heap.get_set_ne hpq _).trans hq) _, rfl, rfl, ?_⟩
  simp only [hel]
  exact momentum_algebra _ _ _ _ _ (by positivity) (normalize_unit (sub_ne_zero_of_ne hne))

/-- Witness of C1: a unit mass moving right meets a mass 3 moving left, the
circle centres three apart on the x-axis. -/
theorem DynamicResolution_momentum_conserved_witness :
    ∃ h1 op1 oq1,
      DynamicResolution Real.sqrt
          (Scenario.engine [0, 1] 1 GravityMode.Everything true 1 Scenario.noContact)
          [Scenario.freeBody ⟨0, 0⟩ ⟨2, 1⟩ 1, Scenario.freeBody ⟨3, 0⟩ ⟨-1, 0⟩ 3]
          0 (Scenario.circleOn 0 2) 1 (Scenario.circleOn 1 2) = some h1
      ∧ h1[0]? = some op1 ∧ h1[1]? = some oq1
      ∧ op1.mass = (Scenario.freeBody (⟨0, 0⟩ : dvec2 ℝ) ⟨2, 1⟩ 1).mass
      ∧ oq1.mass = (Scenario.freeBody (⟨3, 0⟩ : dvec2 ℝ) ⟨-1, 0⟩ 3).mass
      ∧ op1.v * op1.mass + oq1.v * oq1.mass
        = (Scenario.freeBody (⟨0, 0⟩ : dvec2 ℝ) ⟨2, 1⟩ 1).v
            * (Scenario.freeBody (⟨0, 0⟩ : dvec2 ℝ) ⟨2, 1⟩ 1).mass
          + (Scenario.freeBody (⟨3, 0⟩ : dvec2 ℝ) ⟨-1, 0⟩ 3).v
            * (Scenario.freeBody (⟨3, 0⟩ : dvec2 ℝ) ⟨-1, 0⟩ 3).mass :=
  DynamicResolution_momentum_conserved
    (Scenario.engine [0, 1] 1 GravityMode.Everything true 1 Scenario.noContact)
    [Scenario.freeBody ⟨0, 0⟩ ⟨2, 1⟩ 1, Scenario.freeBody ⟨3, 0⟩ ⟨-1, 0⟩ 3]
    0 1 (Scenario.circleOn 0 2) (Scenario.circleOn 1 2)
    (Scenario.freeBody ⟨0, 0⟩ ⟨2, 1⟩ 1) (Scenario.freeBody ⟨3, 0⟩ ⟨-1, 0⟩ 3)
    ⟨0, 0⟩ ⟨3, 0⟩ 2 2
    (by decide) rfl rfl rfl rfl rfl rfl
    (by norm_num [Scenario.freeBody]) (by norm_num [Scenario.freeBody]) rfl rfl
    (by simp [Collider.worldPosition2D, GameObj.worldPosition2DAux, Scenario.circleOn,
      Scenario.freeBody, dvec2.ext_iff])
    (by simp [Collider.worldPosition2D, GameObj.worldPosition2DAux, Scenario.circleOn,
      Scenario.freeBody, dvec2.ext_iff])
    (by simp [dvec2.ext_iff]) rfl

/-- The normal and tangential components of the velocity an equal-mass elastic
circle contact gives a body: pure algebra on the formula of `DynamicResolution`. -/
theorem exchange_algebra (n vp vq : dvec2 ℝ) (m : ℝ) (hm : 0 < m)
    (hn : n.x * n.x + n.y * n.y = 1) :
    dot (((⟨n.y * (-1), n.x⟩ : dvec2 ℝ) * dot vp ⟨n.y * (-1), n.x⟩
        + n * ((dot vp n * (m - m) + 2 * m * dot vq n) / (m + m))) * (1 : ℝ)) n = dot vq n
    ∧ dot (((⟨n.y * (-1), n.x⟩ : dvec2 ℝ) * dot vp ⟨n.y * (-1), n.x⟩
        + n * ((dot vp n * (m - m) + 2 * m * dot vq n) / (m + m))) * (1 : ℝ)) ⟨n.y * (-1), n.x⟩
      = dot vp ⟨n.y * (-1), n.x⟩ := by
  have hm2 : m + m ≠ 0 := by positivity
  have hdiv : (dot vp n * (m - m) + 2 * m * dot vq n) / (m + m) = dot vq n := by
    field_simp
    ring
  rw [hdiv]
  constructor
  · simp only [dvec2.add_x, dvec2.add_y, dvec2.mul_x, dvec2.mul_y, dot]
    linear_combination (vq.x * n.x + vq.y * n.y) * hn
  · simp only [dvec2.add_x, dvec2.add_y, dvec2.mul_x, dvec2.mul_y, dot]
    linear_combination (vp.y * n.x - vp.x * n.y) * hn

/-- C5, as amended. Equal-mass elastic exchange in `PhyxENG::DynamicResolution`:
for two distinct, non-kinematic, unparented bodies of equal positive mass whose
contact colliders are circles at distinct world positions, with restitution
`colEl = 1`, the call returns; the contact normal is a unit vector; afterwards
the component of `p`'s velocity along the normal is `q`'s former one and vice
versa, the components along the tangent are unchanged, and when the two
velocities were opposite each normal component has flipped its sign. -/
theorem DynamicResolution_equal_mass_exchange (eng : PhyxENG ℝ) (h : Heap ℝ) (p q : Nat)
    (pc qc : Collider ℝ) (op oq : PhyxObj2D ℝ) (pw qw : dvec2 ℝ) (rp rq : ℝ)
    (hpq : p ≠ q) (hp : h[p]? = some op) (hq : h[q]? = some oq)
    (hpk : op.kinematic = false) (hqk : oq.kinematic = false)
    (hpp : op.parent = Parent.null) (hqp : oq.parent = Parent.null)
    (hmp : 0 < op.mass) (hmeq : op.mass = oq.mass)
    (hpc : pc.Dim = some rp) (hqc : qc.Dim = some rq)
    (hpw : pc.worldPosition2D h = some pw) (hqw : qc.worldPosition2D h = some qw)
    (hne : pw ≠ qw) (hel : eng.colEl = 1) :
    ∃ h1 op1 oq1, DynamicResolution Real.sqrt eng h p pc q qc = some h1
      ∧ h1[p]? = some op1 ∧ h1[q]? = some oq1
      ∧ dot (normalize Real.sqrt (pw - qw)) (normalize Real.sqrt (pw - qw)) = 1
      ∧ dot op1.v (normalize Real.sqrt (pw - qw)) = dot oq.v (normalize Real.sqrt (pw - qw))
      ∧ dot oq1.v (normalize Real.sqrt (pw - qw)) = dot op.v (normalize Real.sqrt (pw - qw))
      ∧ dot op1.v ⟨(normalize Real.sqrt (pw - qw)).y * (-1), (normalize Real.sqrt (pw - qw)).x⟩
        = dot op.v ⟨(normalize Real.sqrt (pw - qw)).y * (-1), (normalize Real.sqrt (pw - qw)).x⟩
      ∧ dot oq1.v ⟨(normalize Real.sqrt (pw - qw)).y * (-1), (normalize Real.sqrt (pw - qw)).x⟩
        = dot oq.v ⟨(normalize Real.sqrt (pw - qw)).y * (-1), (normalize Real.sqrt (pw - qw)).x⟩
      ∧ (oq.v = -op.v →
          dot op1.v (normalize Real.sqrt (pw - qw)) = -dot op.v (normalize Real.sqrt (pw - qw))
          ∧ dot oq1.v (normalize Real.sqrt (pw - qw))
            = -dot oq.v (normalize Real.sqrt (pw - qw))) := by
  have hn := normalize_unit (sub_ne_zero_of_ne hne)
  have hP := exchange_algebra (normalize Real.sqrt (pw - qw)) op.v oq.v op.mass hmp hn
  have hQ := exchange_algebra (normalize Real.sqrt (pw - qw)) oq.v op.v op.mass hmp hn
  refine ⟨_, _, _, DynamicResolution_circle_free eng h p q pc qc op oq pw qw rp rq hpq hp hq
    hpk hqk hpp hqp hpc hqc hpw hqw,
    (Heap.get_set_ne (Ne.symm hpq) _).trans (Heap.get_set_self hp _),
    Heap.get_set_self ((Heap.get_set_ne hpq _).trans hq) _, hn, ?_, ?_, ?_, ?_, ?_⟩
  · simp only [hel, ← hmeq]
    exact hP.1
  · simp only [hel, ← hmeq]
    exact hQ.1
  · simp only [hel, ← hmeq]
    exact hP.2
  · simp only [hel, ← hmeq]
    exact hQ.2
  · intro hopp
    simp only [hel, ← hmeq]
    rw [hP.1, hQ.1, hopp]
    constructor
    · simp only [dot, dvec2.neg_x, dvec2.neg_y]
      ring
    · simp only [dot, dvec2.neg_x, dvec2.neg_y]
      ring

/-- Counterexample to C5 as stated: two unit masses whose circle colliders have
the same centre, with the opposite velocities `(1, 0)` and `(-1, 0)` and
restitution 1. The separation vector is zero and its normalisation divides by
the zero length (a NaN in doubles, the zero vector in a field): the normal the
call computes is not a unit vector, and the velocity it leaves in `p` is an
exchange along no unit normal whatever. -/
theorem DynamicResolution_coincident_no_exchange :
    (Scenario.circleOn 0 1 : Collider ℝ).worldPosition2D Scenario.stacked = some ⟨0, 0⟩
    ∧ (Scenario.circleOn 1 1 : Collider ℝ).worldPosition2D Scenario.stacked = some ⟨0, 0⟩
    ∧ dot (normalize Real.sqrt ((⟨0, 0⟩ : dvec2 ℝ) - ⟨0, 0⟩))
        (normalize Real.sqrt ((⟨0, 0⟩ : dvec2 ℝ) - ⟨0, 0⟩)) ≠ 1
    ∧ ∃ (h1 : Heap ℝ) (op1 : PhyxObj2D ℝ),
      DynamicResolution Real.sqrt
          (Scenario.engine [0, 1] 1 GravityMode.Everything true 1 Scenario.noContact)
          Scenario.stacked 0 (Scenario.circleOn 0 1) 1 (Scenario.circleOn 1 1) = some h1
      ∧ h1[0]? = some op1
      ∧ ¬ ∃ n : dvec2 ℝ, dot n n = 1
          ∧ dot op1.v n = dot (⟨-1, 0⟩ : dvec2 ℝ) n
          ∧ dot op1.v ⟨n.y * (-1), n.x⟩ = dot (⟨1, 0⟩ : dvec2 ℝ) ⟨n.y * (-1), n.x⟩ := by
  refine ⟨?_, ?_, ?_, [Scenario.freeBody ⟨0, 0⟩ ⟨0, 0⟩ 1, Scenario.freeBody ⟨0, 0⟩ ⟨0, 0⟩ 1],
    Scenario.freeBody ⟨0, 0⟩ ⟨0, 0⟩ 1, ?_, rfl, ?_⟩
  · simp [Collider.worldPosition2D, GameObj.worldPosition2DAux, Scenario.circleOn,
      Scenario.freeBody, Scenario.stacked]
  · simp [Collider.worldPosition2D, GameObj.worldPosition2DAux, Scenario.circleOn,
      Scenario.freeBody, Scenario.stacked]
  · simp [glm.normalize, glm.inversesqrt, dot]
  · simp [DynamicResolution, Scenario.stacked, Scenario.circleOn, Scenario.freeBody,
      Scenario.engine, Collider.worldPosition2D, GameObj.worldPosition2DAux,
      PhyxObj2D.isKinematic, PhyxObj2D.getV, PhyxObj2D.getVAux, PhyxObj2D.setV,
      PhyxObj2D.setVAux, glm.normalize, glm.inversesqrt, glm.dot]
  · rintro ⟨n, hn, h1, h2⟩
    simp [dot, Scenario.freeBody] at hn h1 h2
    rw [h1, h2] at hn
    norm_num at hn

end PhyxENG

/-! ## Static resolution of a circle contact -/

namespace GameObj
variable {K : Type} [Field K]

/-- The world position of a collider carried by an unparented body: the
position of the body plus the offset of the collider. -/
theorem worldPosition2D_on_free {h : Heap K} {c : Collider K} {i : Nat} {b : PhyxObj2D K}
    (hc : c.parent = Parent.phyx i) (hi : h[i]? = some b) (hb : b.parent = Parent.null) :
    c.worldPosition2D h = some (b.position + c.position) := by
  obtain ⟨n, hn⟩ := Heap.length_pos_of_get hi
  unfold Collider.worldPosition2D
  rw [hn, hc]
  cases n <;> simp [worldPosition2DAux, hi, hb]

end GameObj

namespace PhyxObj2D
variable {K : Type} [Field K]

/-- `Move` through a valid pointer translates the stored position. -/
theorem Move_of_get {h : Heap K} {i : Nat} {b : PhyxObj2D K} (hi : h[i]? = some b)
    (d : dvec2 K) : Move h i d = some (h.set i { b with position := b.position + d }) := by
  simp [Move, hi]

end PhyxObj2D

namespace PhyxENG

/-- The circle branch of `StaticResolution` when neither body is kinematic:
both bodies are moved, each by the mass ratio of the other. -/
theorem StaticResolution_circle_free (h : Heap ℝ) (p q : Nat)
    (pc qc : Collider ℝ) (op oq : PhyxObj2D ℝ) (pw qw : dvec2 ℝ) (rp rq : ℝ)
    (hpq : p ≠ q) (hp : h[p]? = some op) (hq : h[q]? = some oq)
    (hpk : op.kinematic = false) (hqk : oq.kinematic = false)
    (hpc : pc.Dim = some rp) (hqc : qc.Dim = some rq)
    (hpw : pc.worldPosition2D h = some pw) (hqw : qc.worldPosition2D h = some qw) :
    StaticResolution Real.sqrt h p pc q qc =
      some ((h.set p
          { op with
            position := op.position
              + normalize Real.sqrt (pw - qw)
                * (((rp + rq) - glm.length Real.sqrt (pw - qw)) * 1.01)
                * (oq.mass / (op.mass + oq.mass)) }).set q
          { oq with
            position := oq.position
              + normalize Real.sqrt (pw - qw) * (-1 : ℝ)
                * (((rp + rq) - glm.length Real.sqrt (pw - qw)) * 1.01)
                * (op.mass / (op.mass + oq.mass)) }) := by
  unfold StaticResolution
  simp only [hpw, hqw, hp, hq, hpc, hqc, PhyxObj2D.isKinematic, hpk, hqk, Bool.not_false,
    Bool.and_self, if_true, PhyxObj2D.Move_of_get hp, Option.some_bind,
    PhyxObj2D.Move_of_get ((Heap.get_set_ne hpq _).trans hq)]

/-- The circle branch of `StaticResolution` when only `p` is kinematic: `q`
alone is moved, by the whole overlap. -/
theorem StaticResolution_circle_p_kinematic (h : Heap ℝ) (p q : Nat)
    (pc qc : Collider ℝ) (op oq : PhyxObj2D ℝ) (pw qw : dvec2 ℝ) (rp rq : ℝ)
    (hp : h[p]? = some op) (hq : h[q]? = some oq)
    (hpk : op.kinematic = true) (hqk : oq.kinematic = false)
    (hpc : pc.Dim = some rp) (hqc : qc.Dim = some rq)
    (hpw : pc.worldPosition2D h = some pw) (hqw : qc.worldPosition2D h = some qw) :
    StaticResolution Real.sqrt h p pc q qc =
      some (h.set q
          { oq with
            position := oq.position
              + normalize Real.sqrt (pw - qw) * (-1 : ℝ)
                * (((rp + rq) - glm.length Real.sqrt (pw - qw)) * 1.01) }) := by
  unfold StaticResolution
  simp [hpw, hqw, hp, hq, hpc, hqc, PhyxObj2D.isKinematic, hpk, hqk, PhyxObj2D.Move_of_get hq]

/-- The circle branch of `StaticResolution` when only `q` is kinematic: `p`
alone is moved, by the whole overlap. -/
theorem StaticResolution_circle_q_kinematic (h : Heap ℝ) (p q : Nat)
    (pc qc : Collider ℝ) (op oq : PhyxObj2D ℝ) (pw qw : dvec2 ℝ) (rp rq : ℝ)
    (hp : h[p]? = some op) (hq : h[q]? = some oq)
    (hpk : op.kinematic = false) (hqk : oq.kinematic = true)
    (hpc : pc.Dim = some rp) (hqc : qc.Dim = some rq)
    (hpw : pc.worldPosition2D h = some pw) (hqw : qc.worldPosition2D h = some qw) :
    StaticResolution Real.sqrt h p pc q qc =
      some (h.set p
          { op with
            position := op.position
              + normalize Real.sqrt (pw - qw)
                * (((rp + rq) - glm.length Real.sqrt (pw - qw)) * 1.01) }) := by
  unfold StaticResolution
  simp [hpw, hqw, hp, hq, hpc, hqc, PhyxObj2D.isKinematic, hpk, hqk, PhyxObj2D.Move_of_get hp]

/-- The circle branch of `StaticResolution` when both bodies are kinematic:
nothing is moved. -/
theorem StaticResolution_circle_both_kinematic (h : Heap ℝ) (p q : Nat)
    (pc qc : Collider ℝ) (op oq : PhyxObj2D ℝ) (pw qw : dvec2 ℝ) (rp rq : ℝ)
    (hp : h[p]? = some op) (hq : h[q]? = some oq)
    (hpk : op.kinematic = true) (hqk : oq.kinematic = true)
    (hpc : pc.Dim = some rp) (hqc : qc.Dim = some rq)
    (hpw : pc.worldPosition2D h = some pw) (hqw : qc.worldPosition2D h = some qw) :
    StaticResolution Real.sqrt h p pc q qc = some h := by
  unfold StaticResolution
  simp [hpw, hqw, hp, hq, hpc, hqc, PhyxObj2D.isKinematic, hpk, hqk]

/-- A vector of positive length is not the zero vector. -/
theorem ne_zero_of_length_pos {u : dvec2 ℝ} (hu : 0 < glm.length Real.sqrt u) : u ≠ 0 := by
  intro hc
  subst hc
  simp [glm.length, dot] at hu

/-- Shifting a non-zero vector `u` by `t` along its own direction gives a vector
of length `|length u + t|`. -/
theorem length_add_normal {u : dvec2 ℝ} (hu : u ≠ 0) (t : ℝ) (w : dvec2 ℝ)
    (hx : w.x = u.x + (normalize Real.sqrt u).x * t)
    (hy : w.y = u.y + (normalize Real.sqrt u).y * t) :
    glm.length Real.sqrt w = |glm.length Real.sqrt u + t| := by
  have hl := length_pos hu
  have hs := length_mul_self u
  have hnn := normalize_unit hu
  have hun : u.x * (normalize Real.sqrt u).x + u.y * (normalize Real.sqrt u).y
      = glm.length Real.sqrt u := by
    unfold dot at hs
    rw [normalize_eq]
    simp only
    field_simp
    linarith
  have hdot : dot w w = (glm.length Real.sqrt u + t) * (glm.length Real.sqrt u + t) := by
    unfold dot at hs ⊢
    rw [hx, hy]
    linear_combination (-1 : ℝ) * hs + 2 * t * hun + t * t * hnn
  have hw : glm.length Real.sqrt w = Real.sqrt (dot w w) := rfl
  rw [hw, hdot]
  exact Real.sqrt_mul_self_eq_abs _

/-- A multiple `k` of the unit normal has length `|k|`. -/
theorem length_normal_mul {u : dvec2 ℝ} (hu : u ≠ 0) (k : ℝ) (w : dvec2 ℝ)
    (hx : w.x = (normalize Real.sqrt u).x * k) (hy : w.y = (normalize Real.sqrt u).y * k) :
    glm.length Real.sqrt w = |k| := by
  have hn := normalize_unit hu
  have hdot : dot w w = k * k := by
    unfold dot
    rw [hx, hy]
    linear_combination (k * k) * hn
  have hw : glm.length Real.sqrt w = Real.sqrt (dot w w) := rfl
  rw [hw, hdot]
  exact Real.sqrt_mul_self_eq_abs _

end PhyxENG

namespace glm
variable {K : Type} [Field K]

/-- Vector addition is associative. -/
theorem dvec2.add_right_assoc (u v w : dvec2 K) : u + v + w = u + (v + w) := by
  ext <;> simp [add_assoc]

/-- Two translations commute. -/
theorem dvec2.add_right_swap (u v w : dvec2 K) : u + v + w = u + w + v := by
  ext
  · simp only [dvec2.add_x]
    ring
  · simp only [dvec2.add_y]
    ring

end glm

namespace Chain
variable {K : Type}

/-- The list of carriers does not depend on the number of calls allowed, once
the walk ends within it. -/
theorem carriersAux_fuel {h : Heap K} : ∀ (n m : Nat) (par : Parent K) (l l2 : List Nat),
    carriersAux h n par = some l → carriersAux h m par = some l2 → l = l2 := by
  intro n
  induction n with
  | zero =>
    intro m par l l2 h1 h2
    cases par with
    | null =>
      simp only [carriersAux, Option.some.injEq] at h1 h2
      rw [← h1, ← h2]
    | other w =>
      simp only [carriersAux, Option.some.injEq] at h1 h2
      rw [← h1, ← h2]
    | phyx i => simp [carriersAux] at h1
  | succ n ih =>
    intro m par l l2 h1 h2
    cases par with
    | null =>
      simp only [carriersAux, Option.some.injEq] at h1 h2
      rw [← h1, ← h2]
    | other w =>
      simp only [carriersAux, Option.some.injEq] at h1 h2
      rw [← h1, ← h2]
    | phyx i =>
      cases m with
      | zero => simp [carriersAux] at h2
      | succ m =>
        simp only [carriersAux] at h1 h2
        cases hi : h[i]? with
        | none => simp [hi] at h1
        | some b =>
          simp only [hi] at h1 h2
          cases hc1 : carriersAux h n b.parent with
          | none => simp [hc1] at h1
          | some t1 =>
            cases hc2 : carriersAux h m b.parent with
            | none => simp [hc2] at h2
            | some t2 =>
              simp only [hc1, Option.some.injEq] at h1
              simp only [hc2, Option.some.injEq] at h2
              have e := ih m b.parent t1 t2 hc1 hc2
              rw [← h1, ← h2, e]

/-- The walk from a carrier is the rest of the walk that reached it. -/
theorem carriersAux_of_mem {h : Heap K} : ∀ (n : Nat) (par : Parent K) (l : List Nat),
    carriersAux h n par = some l → ∀ i ∈ l,
    ∃ m l2, carriersAux h m (Parent.phyx i) = some l2 ∧ l2.length ≤ l.length := by
  intro n
  induction n with
  | zero =>
    intro par l h1 i hi
    cases par with
    | null =>
      simp only [carriersAux, Option.some.injEq] at h1
      subst h1
      cases hi
    | other w =>
      simp only [carriersAux, Option.some.injEq] at h1
      subst h1
      cases hi
    | phyx j => simp [carriersAux] at h1
  | succ n ih =>
    intro par l h1 i hi
    cases par with
    | null =>
      simp only [carriersAux, Option.some.injEq] at h1
      subst h1
      cases hi
    | other w =>
      simp only [carriersAux, Option.some.injEq] at h1
      subst h1
      cases hi
    | phyx j =>
      have h0 := h1
      simp only [carriersAux] at h1
      cases hj : h[j]? with
      | none => simp [hj] at h1
      | some b =>
        simp only [hj] at h1
        cases hc1 : carriersAux h n b.parent with
        | none => simp [hc1] at h1
        | some t =>
          simp only [hc1, Option.some.injEq] at h1
          subst h1
          rcases List.mem_cons.mp hi with e | hit
          · subst e
            exact ⟨n + 1, _, h0, le_refl _⟩
          · obtain ⟨m, l2, hm, hl⟩ := ih b.parent t hc1 i hit
            exact ⟨m, l2, hm, by simp only [List.length_cons]; omega⟩

/-- No body carries an object twice: a walk that ends meets every body once
(a parent chain with a cycle has no end). -/
theorem carriersAux_nodup {h : Heap K} : ∀ (n : Nat) (par : Parent K) (l : List Nat),
    carriersAux h n par = some l → l.Nodup := by
  intro n
  induction n with
  | zero =>
    intro par l h1
    cases par with
    | null =>
      simp only [carriersAux, Option.some.injEq] at h1
      subst h1
      exact List.nodup_nil
    | other w =>
      simp only [carriersAux, Option.some.injEq] at h1
      subst h1
      exact List.nodup_nil
    | phyx j => simp [carriersAux] at h1
  | succ n ih =>
    intro par l h1
    cases par with
    | null =>
      simp only [carriersAux, Option.some.injEq] at h1
      subst h1
      exact List.nodup_nil
    | other w =>
      simp only [carriersAux, Option.some.injEq] at h1
      subst h1
      exact List.nodup_nil
    | phyx j =>
      have h0 := h1
      simp only [carriersAux] at h1
      cases hj : h[j]? with
      | none => simp [hj] at h1
      | some b =>
        simp only [hj] at h1
        cases hc1 : carriersAux h n b.parent with
        | none => simp [hc1] at h1
        | some t =>
          simp only [hc1, Option.some.injEq] at h1
          subst h1
          refine List.nodup_cons.mpr ⟨?_, ih b.parent t hc1⟩
          intro hjt
          obtain ⟨m, l2, hm, hl⟩ := carriersAux_of_mem n b.parent t hc1 j hjt
          have e := carriersAux_fuel (n + 1) m (Parent.phyx j) _ _ h0 hm
          rw [← e] at hl
          simp only [List.length_cons] at hl
          omega

end Chain

namespace GameObj
variable {K : Type} [Field K]

/-- A world position is the offset of the object added to that of its parent. -/
theorem worldPosition2DAux_shift (h : Heap K) (n : Nat) (par : Parent K) (pos d : dvec2 K) :
    worldPosition2DAux h n par (pos + d)
      = (worldPosition2DAux h n par pos).map (fun w => w + d) := by
  cases par with
  | null => cases n <;> simp [worldPosition2DAux]
  | other w => cases n <;> simp [worldPosition2DAux, dvec2.add_right_assoc]
  | phyx i =>
    cases n with
    | zero => simp [worldPosition2DAux]
    | succ n =>
      simp only [worldPosition2DAux]
      cases h[i]? with
      | none => rfl
      | some b =>
        simp only
        cases worldPosition2DAux h n b.parent b.position with
        | none => rfl
        | some w => simp [dvec2.add_right_assoc]

/-- An object with a world position has a list of carriers. -/
theorem carriersAux_of_world {h : Heap K} : ∀ (n : Nat) (par : Parent K) (pos w : dvec2 K),
    worldPosition2DAux h n par pos = some w → ∃ l, Chain.carriersAux h n par = some l := by
  intro n
  induction n with
  | zero =>
    intro par pos w hw
    cases par with
    | null => exact ⟨[], by simp [Chain.carriersAux]⟩
    | other w => exact ⟨[], by simp [Chain.carriersAux]⟩
    | phyx i => simp [worldPosition2DAux] at hw
  | succ n ih =>
    intro par pos w hw
    cases par with
    | null => exact ⟨[], by simp [Chain.carriersAux]⟩
    | other w => exact ⟨[], by simp [Chain.carriersAux]⟩
    | phyx i =>
      simp only [worldPosition2DAux] at hw
      cases hi : h[i]? with
      | none => simp [hi] at hw
      | some b =>
        simp only [hi] at hw
        cases hw0 : worldPosition2DAux h n b.parent b.position with
        | none => simp [hw0] at hw
        | some w0 =>
          obtain ⟨l, hl⟩ := ih b.parent b.position w0 hw0
          exact ⟨i :: l, by simp [Chain.carriersAux, hi, hl]⟩

/-- A translation of the body at `x` leaves every parent pointer, hence every
list of carriers, as it was. -/
theorem carriersAux_move {h : Heap K} {x : Nat} {bx : PhyxObj2D K} (hx : h[x]? = some bx)
    (d : dvec2 K) : ∀ (n : Nat) (par : Parent K),
    Chain.carriersAux (h.set x { bx with position := bx.position + d }) n par
      = Chain.carriersAux h n par := by
  intro n
  induction n with
  | zero =>
    intro par
    cases par <;> simp [Chain.carriersAux]
  | succ n ih =>
    intro par
    cases par with
    | null => simp [Chain.carriersAux]
    | other w => simp [Chain.carriersAux]
    | phyx i =>
      simp only [Chain.carriersAux]
      by_cases hix : x = i
      · subst hix
        rw [Heap.get_set_self hx, hx]
        simp only [ih]
      · rw [Heap.get_set_ne hix]
        cases h[i]? with
        | none => rfl
        | some b => simp only [ih]

/-- A translation of the body at `x` by `d` translates by `d` the world position
of every object the body carries and leaves the other world positions alone. -/
theorem worldPosition2DAux_move {h : Heap K} {x : Nat} {bx : PhyxObj2D K}
    (hx : h[x]? = some bx) (d : dvec2 K) : ∀ (n : Nat) (par : Parent K) (pos : dvec2 K)
    (l : List Nat) (w : dvec2 K), Chain.carriersAux h n par = some l → l.Nodup →
    worldPosition2DAux h n par pos = some w →
    worldPosition2DAux (h.set x { bx with position := bx.position + d }) n par pos
      = some (if x ∈ l then w + d else w) := by
  intro n
  induction n with
  | zero =>
    intro par pos l w hl hnd hw
    cases par with
    | null =>
      simp only [Chain.carriersAux, Option.some.injEq] at hl
      subst hl
      simpa [worldPosition2DAux] using hw
    | other w0 =>
      simp only [Chain.carriersAux, Option.some.injEq] at hl
      subst hl
      simpa [worldPosition2DAux] using hw
    | phyx i => simp [worldPosition2DAux] at hw
  | succ n ih =>
    intro par pos l w hl hnd hw
    cases par with
    | null =>
      simp only [Chain.carriersAux, Option.some.injEq] at hl
      subst hl
      simpa [worldPosition2DAux] using hw
    | other w0 =>
      simp only [Chain.carriersAux, Option.some.injEq] at hl
      subst hl
      simpa [worldPosition2DAux] using hw
    | phyx i =>
      simp only [Chain.carriersAux] at hl
      simp only [worldPosition2DAux] at hw ⊢
      cases hi : h[i]? with
      | none => simp [hi] at hw
      | some b =>
        simp only [hi] at hl hw
        cases hl0 : Chain.carriersAux h n b.parent with
        | none => simp [hl0] at hl
        | some t =>
          simp only [hl0, Option.some.injEq] at hl
          subst hl
          cases hw0 : worldPosition2DAux h n b.parent b.position with
          | none => simp [hw0] at hw
          | some w0 =>
            simp only [hw0, Option.some.injEq] at hw
            subst hw
            have hndt := (List.nodup_cons.mp hnd).2
            have hit := (List.nodup_cons.mp hnd).1
            by_cases hix : x = i
            · subst hix
              rw [hx] at hi
              have hb := Option.some.inj hi
              subst hb
              rw [Heap.get_set_self hx]
              simp only [worldPosition2DAux_shift]
              rw [ih bx.parent bx.position t w0 hl0 hndt hw0]
              simp only [hit, if_false, Option.map_some', List.mem_cons, true_or, if_true]
              rw [dvec2.add_right_swap]
            · rw [Heap.get_set_ne hix, hi]
              simp only
              rw [ih b.parent b.position t w0 hl0 hndt hw0]
              simp only [List.mem_cons, hix, false_or]
              split <;> simp [dvec2.add_right_swap]

end GameObj

namespace Collider
variable {K : Type} [Field K]

/-- A translation of a body changes no carrier relation. -/
theorem carriedBy_move {h : Heap K} {x : Nat} {bx : PhyxObj2D K} (hx : h[x]? = some bx)
    (d : dvec2 K) (c : Collider K) (i : Nat) :
    c.carriedBy (h.set x { bx with position := bx.position + d }) i = c.carriedBy h i := by
  unfold carriedBy
  rw [List.length_set, GameObj.carriersAux_move hx]

/-- A translation of the body at `x` by `d` translates the colliders the body
carries by `d` and leaves the other colliders where they were. -/
theorem worldPosition2D_move {h : Heap K} {x : Nat} {bx : PhyxObj2D K} (hx : h[x]? = some bx)
    (d : dvec2 K) (c : Collider K) {w : dvec2 K} (hw : c.worldPosition2D h = some w) :
    c.worldPosition2D (h.set x { bx with position := bx.position + d })
      = some (if c.carriedBy h x = true then w + d else w) := by
  unfold worldPosition2D at hw ⊢
  obtain ⟨l, hl⟩ := GameObj.carriersAux_of_world _ _ _ _ hw
  rw [List.length_set, GameObj.worldPosition2DAux_move hx d _ _ _ l w hl
    (Chain.carriersAux_nodup _ _ _ hl) hw]
  simp [carriedBy, hl]

end Collider

namespace PhyxENG

/-- The share of the displacement that separates the colliders lies between 0 and 1. -/
theorem separatingShare_mem (h : Heap ℝ) (p q : Nat) (pc qc : Collider ℝ)
    (op oq : PhyxObj2D ℝ) (hmp : 0 < op.mass) (hmq : 0 < oq.mass) :
    0 ≤ separatingShare h p pc q qc op oq ∧ separatingShare h p pc q qc op oq ≤ 1 := by
  have hm : 0 < op.mass + oq.mass := by positivity
  have h1 : 0 ≤ oq.mass / (op.mass + oq.mass) := by positivity
  have h2 : 0 ≤ op.mass / (op.mass + oq.mass) := by positivity
  have h3 : oq.mass / (op.mass + oq.mass) + op.mass / (op.mass + oq.mass) = 1 := by
    field_simp
    ring
  unfold separatingShare
  rcases Bool.eq_false_or_eq_true op.kinematic with hpk | hpk <;>
  rcases Bool.eq_false_or_eq_true oq.kinematic with hqk | hqk <;>
  rcases Bool.eq_false_or_eq_true (qc.carriedBy h p) with hfp | hfp <;>
  rcases Bool.eq_false_or_eq_true (pc.carriedBy h q) with hfq | hfq <;>
  simp only [hpk, hqk, hfp, hfq, if_true, if_false, Bool.false_eq_true, mul_zero, mul_one,
    add_zero, zero_add, zero_mul] <;>
  constructor <;> linarith

/-- The 1% bound on the distance after a circle contact holds exactly when the
circles were touching or all but a hundred-and-first of the displacement
separates them. -/
theorem bounds_iff (d R c : ℝ) (hd0 : 0 < d) (hd1 : d ≤ R) (hc1 : c ≤ 1) :
    (R ≤ d + (R - d) * 1.01 * c ∧ d + (R - d) * 1.01 * c ≤ 1.01 * R)
      ↔ (d = R ∨ 100 / 101 ≤ c) := by
  constructor
  · rintro ⟨h1, _⟩
    by_contra hcon
    push_neg at hcon
    obtain ⟨hne, hc⟩ := hcon
    have hlt : d < R := lt_of_le_of_ne hd1 hne
    nlinarith
  · rintro (e | hc)
    · subst e
      constructor <;> nlinarith
    · constructor <;> nlinarith

/-- The world positions of the two colliders after the static resolution of a
circle contact: their difference has grown along the normal by the overlap
times the share of the displacement that separates them. -/
theorem StaticResolution_difference (h : Heap ℝ) (p q : Nat)
    (pc qc : Collider ℝ) (op oq : PhyxObj2D ℝ) (pw qw : dvec2 ℝ) (rp rq : ℝ)
    (hpq : p ≠ q) (hp : h[p]? = some op) (hq : h[q]? = some oq)
    (hpon : pc.carriedBy h p = true) (hqon : qc.carriedBy h q = true)
    (hmp : 0 < op.mass) (hmq : 0 < oq.mass)
    (hpc : pc.Dim = some rp) (hqc : qc.Dim = some rq)
    (hpw : pc.worldPosition2D h = some pw) (hqw : qc.worldPosition2D h = some qw) :
    ∃ h1 pw1 qw1, StaticResolution Real.sqrt h p pc q qc = some h1
      ∧ pc.worldPosition2D h1 = some pw1 ∧ qc.worldPosition2D h1 = some qw1
      ∧ (pw1 - qw1).x = (pw - qw).x + (normalize Real.sqrt (pw - qw)).x
          * (((rp + rq) - glm.length Real.sqrt (pw - qw)) * 1.01
            * separatingShare h p pc q qc op oq)
      ∧ (pw1 - qw1).y = (pw - qw).y + (normalize Real.sqrt (pw - qw)).y
          * (((rp + rq) - glm.length Real.sqrt (pw - qw)) * 1.01
            * separatingShare h p pc q qc op oq) := by
  have hm : op.mass + oq.mass ≠ 0 := by positivity
  rcases Bool.eq_false_or_eq_true op.kinematic with hpk | hpk
  · rcases Bool.eq_false_or_eq_true oq.kinematic with hqk | hqk
    · refine ⟨_, _, _, StaticResolution_circle_both_kinematic h p q pc qc op oq pw qw rp rq
        hp hq hpk hqk hpc hqc hpw hqw, hpw, hqw, ?_, ?_⟩ <;>
      simp [separatingShare, hpk, hqk]
    · have hP1 := Collider.worldPosition2D_move hq
        (normalize Real.sqrt (pw - qw) * (-1 : ℝ)
          * (((rp + rq) - glm.length Real.sqrt (pw - qw)) * 1.01)) pc hpw
      have hQ1 := Collider.worldPosition2D_move hq
        (normalize Real.sqrt (pw - qw) * (-1 : ℝ)
          * (((rp + rq) - glm.length Real.sqrt (pw - qw)) * 1.01)) qc hqw
      rw [hqon] at hQ1
      simp only [if_true] at hQ1
      refine ⟨_, _, _, StaticResolution_circle_p_kinematic h p q pc qc op oq pw qw rp rq hp hq
        hpk hqk hpc hqc hpw hqw, hP1, hQ1, ?_, ?_⟩ <;>
      rcases Bool.eq_false_or_eq_true (pc.carriedBy h q) with hfq | hfq <;>
      simp only [separatingShare, hpk, hqk, hfq, if_true, if_false, Bool.false_eq_true,
        dvec2.sub_x, dvec2.add_x, dvec2.mul_x, dvec2.sub_y, dvec2.add_y, dvec2.mul_y] <;>
      ring
  · rcases Bool.eq_false_or_eq_true oq.kinematic with hqk | hqk
    · have hP1 := Collider.worldPosition2D_move hp
        (normalize Real.sqrt (pw - qw)
          * (((rp + rq) - glm.length Real.sqrt (pw - qw)) * 1.01)) pc hpw
      have hQ1 := Collider.worldPosition2D_move hp
        (normalize Real.sqrt (pw - qw)
          * (((rp + rq) - glm.length Real.sqrt (pw - qw)) * 1.01)) qc hqw
      rw [hpon] at hP1
      simp only [if_true] at hP1
      refine ⟨_, _, _, StaticResolution_circle_q_kinematic h p q pc qc op oq pw qw rp rq hp hq
        hpk hqk hpc hqc hpw hqw, hP1, hQ1, ?_, ?_⟩ <;>
      rcases Bool.eq_false_or_eq_true (qc.carriedBy h p) with hfp | hfp <;>
      simp only [separatingShare, hpk, hqk, hfp, if_true, if_false, Bool.false_eq_true,
        dvec2.sub_x, dvec2.add_x, dvec2.mul_x, dvec2.sub_y, dvec2.add_y, dvec2.mul_y] <;>
      ring
    · have hq1 : ∀ c, (h.set p c)[q]? = some oq := fun c => (Heap.get_set_ne hpq c).trans hq
      have hP1 := Collider.worldPosition2D_move hp
        (normalize Real.sqrt (pw - qw)
          * (((rp + rq) - glm.length Real.sqrt (pw - qw)) * 1.01)
          * (oq.mass / (op.mass + oq.mass))) pc hpw
      have hQ1 := Collider.worldPosition2D_move hp
        (normalize Real.sqrt (pw - qw)
          * (((rp + rq) - glm.length Real.sqrt (pw - qw)) * 1.01)
          * (oq.mass / (op.mass + oq.mass))) qc hqw
      rw [hpon] at hP1
      simp only [if_true] at hP1
      have hP2 := Collider.worldPosition2D_move (hq1 _)
        (normalize Real.sqrt (pw - qw) * (-1 : ℝ)
          * (((rp + rq) - glm.length Real.sqrt (pw - qw)) * 1.01)
          * (op.mass / (op.mass + oq.mass))) pc hP1
      have hQ2 := Collider.worldPosition2D_move (hq1 _)
        (normalize Real.sqrt (pw - qw) * (-1 : ℝ)
          * (((rp + rq) - glm.length Real.sqrt (pw - qw)) * 1.01)
          * (op.mass / (op.mass + oq.mass))) qc hQ1
      rw [Collider.carriedBy_move hp] at hP2
      rw [Collider.carriedBy_move hp, hqon] at hQ2
      simp only [if_true] at hQ2
      refine ⟨_, _, _, StaticResolution_circle_free h p q pc qc op oq pw qw rp rq hpq hp hq
        hpk hqk hpc hqc hpw hqw, hP2, hQ2, ?_, ?_⟩ <;>
      rcases Bool.eq_false_or_eq_true (qc.carriedBy h p) with hfp | hfp <;>
      rcases Bool.eq_false_or_eq_true (pc.carriedBy h q) with hfq | hfq <;>
      simp only [separatingShare, hpk, hqk, hfp, hfq, if_true, if_false, Bool.false_eq_true,
        dvec2.sub_x, dvec2.add_x, dvec2.mul_x, dvec2.sub_y, dvec2.add_y, dvec2.mul_y] <;>
      ring

/-- When no non-kinematic body of the pair carries the collider of the other,
the whole displacement separates the colliders. -/
theorem separatingShare_eq_one (h : Heap ℝ) (p q : Nat) (pc qc : Collider ℝ)
    (op oq : PhyxObj2D ℝ) (hmp : 0 < op.mass) (hmq : 0 < oq.mass)
    (hk : op.kinematic = false ∨ oq.kinematic = false)
    (hpfree : op.kinematic = false → qc.carriedBy h p = false)
    (hqfree : oq.kinematic = false → pc.carriedBy h q = false) :
    separatingShare h p pc q qc op oq = 1 := by
  have hm : op.mass + oq.mass ≠ 0 := by positivity
  unfold separatingShare
  rcases Bool.eq_false_or_eq_true op.kinematic with hpk | hpk
  · have hqk : oq.kinematic = false := by
      rcases hk with hk | hk
      · rw [hpk] at hk
        cases hk
      · exact hk
    simp only [hpk, hqk, hqfree hqk, if_true, if_false, Bool.false_eq_true, zero_mul, mul_one,
      zero_add]
  · rcases Bool.eq_false_or_eq_true oq.kinematic with hqk | hqk
    · simp only [hpk, hqk, hpfree hpk, if_true, if_false, Bool.false_eq_true, zero_mul,
        mul_one, add_zero]
    · simp only [hpk, hqk, hpfree hpk, hqfree hqk, if_false, Bool.false_eq_true, mul_one]
      field_simp
      ring

/-- C2, as amended. Static resolution of a circle contact lengthens the centre
distance by the part of the 1.01-scaled overlap that is given to bodies which
do not carry the other body's collider. For two distinct bodies `p`, `q` with
positive masses, each carrying its contact collider (directly or through bodies
welded to it), the colliders circles of radii `rP`, `rQ` at centre distance `d`
with `0 < d <= rP + rQ`, the call to `PhyxENG::StaticResolution` returns and
the centre distance after it is `d1 = d + ((rP + rQ) - d) * 1.01 * c`, where
`c` is the share of the displacement given to the bodies of the pair that do
not carry the collider of the other. Hence `rP + rQ <= d1 <= 1.01 * (rP + rQ)`
holds exactly when `d = rP + rQ` or `c >= 100/101`; in particular it holds when
at least one body is not kinematic and no non-kinematic body of the pair
carries the collider of the other (it is neither the other body nor one of its
ancestors): the bodies may be unparented, welded to other bodies, welded to one
common carrier, or one welded to the other if that other is kinematic. -/
theorem StaticResolution_separates (h : Heap ℝ) (p q : Nat)
    (pc qc : Collider ℝ) (op oq : PhyxObj2D ℝ) (pw qw : dvec2 ℝ) (rp rq : ℝ)
    (hpq : p ≠ q) (hp : h[p]? = some op) (hq : h[q]? = some oq)
    (hpon : pc.carriedBy h p = true) (hqon : qc.carriedBy h q = true)
    (hmp : 0 < op.mass) (hmq : 0 < oq.mass)
    (hpc : pc.Dim = some rp) (hqc : qc.Dim = some rq)
    (hpw : pc.worldPosition2D h = some pw) (hqw : qc.worldPosition2D h = some qw)
    (hd0 : 0 < glm.length Real.sqrt (pw - qw))
    (hd1 : glm.length Real.sqrt (pw - qw) ≤ rp + rq) :
    ∃ h1 pw1 qw1, StaticResolution Real.sqrt h p pc q qc = some h1
      ∧ pc.worldPosition2D h1 = some pw1 ∧ qc.worldPosition2D h1 = some qw1
      ∧ glm.length Real.sqrt (pw1 - qw1)
        = glm.length Real.sqrt (pw - qw)
          + ((rp + rq) - glm.length Real.sqrt (pw - qw)) * 1.01
            * separatingShare h p pc q qc op oq
      ∧ ((rp + rq ≤ glm.length Real.sqrt (pw1 - qw1)
          ∧ glm.length Real.sqrt (pw1 - qw1) ≤ 1.01 * (rp + rq))
        ↔ (glm.length Real.sqrt (pw - qw) = rp + rq
          ∨ 100 / 101 ≤ separatingShare h p pc q qc op oq))
      ∧ ((op.kinematic = false ∨ oq.kinematic = false) →
          (op.kinematic = false → qc.carriedBy h p = false) →
          (oq.kinematic = false → pc.carriedBy h q = false) →
          rp + rq ≤ glm.length Real.sqrt (pw1 - qw1)
          ∧ glm.length Real.sqrt (pw1 - qw1) ≤ 1.01 * (rp + rq)) := by
  have hu := ne_zero_of_length_pos hd0
  obtain ⟨hc0, hc1⟩ := separatingShare_mem h p q pc qc op oq hmp hmq
  obtain ⟨h1, pw1, qw1, hres, hP, hQ, hx, hy⟩ := StaticResolution_difference h p q pc qc op oq
    pw qw rp rq hpq hp hq hpon hqon hmp hmq hpc hqc hpw hqw
  have hlen : glm.length Real.sqrt (pw1 - qw1)
      = glm.length Real.sqrt (pw - qw)
        + ((rp + rq) - glm.length Real.sqrt (pw - qw)) * 1.01
          * separatingShare h p pc q qc op oq := by
    rw [length_add_normal hu _ (pw1 - qw1) hx hy]
    exact abs_of_nonneg (by
      have : 0 ≤ ((rp + rq) - glm.length Real.sqrt (pw - qw)) * 1.01
          * separatingShare h p pc q qc op oq :=
        mul_nonneg (mul_nonneg (by linarith) (by norm_num)) hc0
      linarith)
  have hiff := bounds_iff (glm.length Real.sqrt (pw - qw)) (rp + rq)
    (separatingShare h p pc q qc op oq) hd0 hd1 hc1
  refine ⟨h1, pw1, qw1, hres, hP, hQ, hlen, ?_, ?_⟩
  · rw [hlen]
    exact hiff
  · intro hk hpfree hqfree
    rw [hlen]
    refine hiff.mpr (Or.inr ?_)
    rw [separatingShare_eq_one h p q pc qc op oq hmp hmq hk hpfree hqfree]
    norm_num

/-- Witness of C5 as amended: two masses 2 meet head-on along the x-axis with
opposite velocities, the centres two apart. -/
theorem DynamicResolution_equal_mass_exchange_witness :
    ∃ h1 op1 oq1,
      DynamicResolution Real.sqrt
          (Scenario.engine [0, 1] 1 GravityMode.Everything true 1 Scenario.noContact)
          Scenario.headOn 0 (Scenario.circleOn 0 1) 1 (Scenario.circleOn 1 1) = some h1
      ∧ h1[0]? = some op1 ∧ h1[1]? = some oq1
      ∧ dot (normalize Real.sqrt ((⟨-1, 0⟩ : dvec2 ℝ) - ⟨1, 0⟩))
          (normalize Real.sqrt ((⟨-1, 0⟩ : dvec2 ℝ) - ⟨1, 0⟩)) = 1
      ∧ dot op1.v (normalize Real.sqrt ((⟨-1, 0⟩ : dvec2 ℝ) - ⟨1, 0⟩))
        = dot (Scenario.freeBody (⟨1, 0⟩ : dvec2 ℝ) ⟨-1, 0⟩ 2).v
            (normalize Real.sqrt ((⟨-1, 0⟩ : dvec2 ℝ) - ⟨1, 0⟩))
      ∧ dot oq1.v (normalize Real.sqrt ((⟨-1, 0⟩ : dvec2 ℝ) - ⟨1, 0⟩))
        = dot (Scenario.freeBody (⟨-1, 0⟩ : dvec2 ℝ) ⟨1, 0⟩ 2).v
            (normalize Real.sqrt ((⟨-1, 0⟩ : dvec2 ℝ) - ⟨1, 0⟩))
      ∧ dot op1.v ⟨(normalize Real.sqrt ((⟨-1, 0⟩ : dvec2 ℝ) - ⟨1, 0⟩)).y * (-1),
            (normalize Real.sqrt ((⟨-1, 0⟩ : dvec2 ℝ) - ⟨1, 0⟩)).x⟩
        = dot (Scenario.freeBody (⟨-1, 0⟩ : dvec2 ℝ) ⟨1, 0⟩ 2).v
            ⟨(normalize Real.sqrt ((⟨-1, 0⟩ : dvec2 ℝ) - ⟨1, 0⟩)).y * (-1),
              (normalize Real.sqrt ((⟨-1, 0⟩ : dvec2 ℝ) - ⟨1, 0⟩)).x⟩
      ∧ dot oq1.v ⟨(normalize Real.sqrt ((⟨-1, 0⟩ : dvec2 ℝ) - ⟨1, 0⟩)).y * (-1),
            (normalize Real.sqrt ((⟨-1, 0⟩ : dvec2 ℝ) - ⟨1, 0⟩)).x⟩
        = dot (Scenario.freeBody (⟨1, 0⟩ : dvec2 ℝ) ⟨-1, 0⟩ 2).v
            ⟨(normalize Real.sqrt ((⟨-1, 0⟩ : dvec2 ℝ) - ⟨1, 0⟩)).y * (-1),
              (normalize Real.sqrt ((⟨-1, 0⟩ : dvec2 ℝ) - ⟨1, 0⟩)).x⟩
      ∧ dot op1.v (normalize Real.sqrt ((⟨-1, 0⟩ : dvec2 ℝ) - ⟨1, 0⟩))
          = -dot (Scenario.freeBody (⟨-1, 0⟩ : dvec2 ℝ) ⟨1, 0⟩ 2).v
              (normalize Real.sqrt ((⟨-1, 0⟩ : dvec2 ℝ) - ⟨1, 0⟩))
      ∧ dot oq1.v (normalize Real.sqrt ((⟨-1, 0⟩ : dvec2 ℝ) - ⟨1, 0⟩))
          = -dot (Scenario.freeBody (⟨1, 0⟩ : dvec2 ℝ) ⟨-1, 0⟩ 2).v
              (normalize Real.sqrt ((⟨-1, 0⟩ : dvec2 ℝ) - ⟨1, 0⟩)) :=
  have t := DynamicResolution_equal_mass_exchange
    (Scenario.engine [0, 1] 1 GravityMode.Everything true 1 Scenario.noContact)
    Scenario.headOn 0 1 (Scenario.circleOn 0 1) (Scenario.circleOn 1 1)
    (Scenario.freeBody ⟨-1, 0⟩ ⟨1, 0⟩ 2) (Scenario.freeBody ⟨1, 0⟩ ⟨-1, 0⟩ 2)
    ⟨-1, 0⟩ ⟨1, 0⟩ 1 1
    (by decide) rfl rfl rfl rfl rfl rfl
    (by norm_num [Scenario.freeBody]) rfl rfl rfl
    (by simp [Collider.worldPosition2D, GameObj.worldPosition2DAux, Scenario.circleOn,
      Scenario.freeBody, Scenario.headOn])
    (by simp [Collider.worldPosition2D, GameObj.worldPosition2DAux, Scenario.circleOn,
      Scenario.freeBody, Scenario.headOn])
    (by norm_num [dvec2.ext_iff]) rfl
  match t with
  | ⟨h1, op1, oq1, hres, hp1, hq1, e0, e1, e2, e3, e4, e5⟩ =>
    ⟨h1, op1, oq1, hres, hp1, hq1, e0, e1, e2, e3, e4,
      e5 (by simp [Scenario.freeBody])⟩

/-- Counterexample to C2 as stated: a body welded to its carrier (its parent),
both of unit mass and non-kinematic, with unit circles whose centres are 1
apart. The call moves both bodies, the child follows its carrier, and the
centres end 1.505 apart: the circles (radii 1 + 1) still penetrate. -/
theorem StaticResolution_welded_still_penetrating :
    (Scenario.circleOn 0 1 : Collider ℝ).worldPosition2D Scenario.welded = some ⟨0, 0⟩
    ∧ (Scenario.circleOn 1 1 : Collider ℝ).worldPosition2D Scenario.welded = some ⟨-1, 0⟩
    ∧ glm.length Real.sqrt ((⟨0, 0⟩ : dvec2 ℝ) - ⟨-1, 0⟩) = 1
    ∧ ∃ h1, StaticResolution Real.sqrt (Scenario.welded : Heap ℝ) 0 (Scenario.circleOn 0 1) 1
          (Scenario.circleOn 1 1) = some h1
      ∧ (Scenario.circleOn 0 1 : Collider ℝ).worldPosition2D h1 = some ⟨0.505, 0⟩
      ∧ (Scenario.circleOn 1 1 : Collider ℝ).worldPosition2D h1 = some ⟨-1, 0⟩
      ∧ glm.length Real.sqrt ((⟨0.505, 0⟩ : dvec2 ℝ) - ⟨-1, 0⟩) < 1 + 1 := by
  refine ⟨?_, ?_, ?_, [Scenario.freeBody ⟨0.505, 0⟩ ⟨0, 0⟩ 1,
    Scenario.childBody 0 ⟨-1.505, 0⟩ ⟨0, 0⟩ 1], ?_, ?_, ?_, ?_⟩
  · simp [Collider.worldPosition2D, GameObj.worldPosition2DAux, Scenario.circleOn,
      Scenario.freeBody, Scenario.childBody, Scenario.welded]
  · simp [Collider.worldPosition2D, GameObj.worldPosition2DAux, Scenario.circleOn,
      Scenario.freeBody, Scenario.childBody, Scenario.welded]
  · simp [glm.length, dot]
  · simp [StaticResolution, Scenario.welded, Scenario.circleOn, Scenario.freeBody,
      Scenario.childBody, Collider.worldPosition2D, GameObj.worldPosition2DAux,
      PhyxObj2D.isKinematic, PhyxObj2D.Move, glm.normalize, glm.inversesqrt, glm.length, glm.dot]
    norm_num
  · simp [Collider.worldPosition2D, GameObj.worldPosition2DAux, Scenario.circleOn,
      Scenario.freeBody, Scenario.childBody]
  · simp [Collider.worldPosition2D, GameObj.worldPosition2DAux, Scenario.circleOn,
      Scenario.freeBody, Scenario.childBody]
    norm_num
  · simp only [glm.length, dot, dvec2.mk_sub_mk]
    rw [Real.sqrt_lt (by norm_num) (by norm_num)]
    norm_num

/-- Witness of C2 as amended: two bodies of masses 1 and 3 welded to one
carrier, with unit circles whose centres are 1 apart. -/
theorem StaticResolution_separates_witness :
    ∃ (h1 : Heap ℝ) (pw1 qw1 : dvec2 ℝ),
      StaticResolution Real.sqrt (Scenario.siblings : Heap ℝ) 1 (Scenario.circleOn 1 1) 2
          (Scenario.circleOn 2 1) = some h1
      ∧ (Scenario.circleOn 1 1 : Collider ℝ).worldPosition2D h1 = some pw1
      ∧ (Scenario.circleOn 2 1 : Collider ℝ).worldPosition2D h1 = some qw1
      ∧ glm.length Real.sqrt (pw1 - qw1)
        = glm.length Real.sqrt ((⟨10, 0⟩ : dvec2 ℝ) - ⟨11, 0⟩)
          + (((1 : ℝ) + 1) - glm.length Real.sqrt ((⟨10, 0⟩ : dvec2 ℝ) - ⟨11, 0⟩)) * 1.01
            * separatingShare (Scenario.siblings : Heap ℝ) 1 (Scenario.circleOn 1 1) 2
              (Scenario.circleOn 2 1) (Scenario.childBody 0 (⟨0, 0⟩ : dvec2 ℝ) ⟨0, 0⟩ 1)
              (Scenario.childBody 0 (⟨1, 0⟩ : dvec2 ℝ) ⟨0, 0⟩ 3)
      ∧ (((1 : ℝ) + 1 ≤ glm.length Real.sqrt (pw1 - qw1)
          ∧ glm.length Real.sqrt (pw1 - qw1) ≤ 1.01 * (1 + 1))
        ↔ (glm.length Real.sqrt ((⟨10, 0⟩ : dvec2 ℝ) - ⟨11, 0⟩) = 1 + 1
          ∨ 100 / 101 ≤ separatingShare (Scenario.siblings : Heap ℝ) 1 (Scenario.circleOn 1 1) 2
              (Scenario.circleOn 2 1) (Scenario.childBody 0 (⟨0, 0⟩ : dvec2 ℝ) ⟨0, 0⟩ 1)
              (Scenario.childBody 0 (⟨1, 0⟩ : dvec2 ℝ) ⟨0, 0⟩ 3)))
      ∧ (1 : ℝ) + 1 ≤ glm.length Real.sqrt (pw1 - qw1)
      ∧ glm.length Real.sqrt (pw1 - qw1) ≤ 1.01 * (1 + 1) :=
  have t := StaticResolution_separates Scenario.siblings 1 2
    (Scenario.circleOn 1 1) (Scenario.circleOn 2 1)
    (Scenario.childBody 0 ⟨0, 0⟩ ⟨0, 0⟩ 1) (Scenario.childBody 0 ⟨1, 0⟩ ⟨0, 0⟩ 3)
    ⟨10, 0⟩ ⟨11, 0⟩ 1 1 (by decide) rfl rfl
    (by simp [Collider.carriedBy, Chain.carriersAux, Scenario.circleOn, Scenario.siblings,
      Scenario.freeBody, Scenario.childBody])
    (by simp [Collider.carriedBy, Chain.carriersAux, Scenario.circleOn, Scenario.siblings,
      Scenario.freeBody, Scenario.childBody])
    (by norm_num [Scenario.childBody]) (by norm_num [Scenario.childBody])
    rfl rfl
    (by simp [Collider.worldPosition2D, GameObj.worldPosition2DAux, Scenario.circleOn,
      Scenario.freeBody, Scenario.childBody, Scenario.siblings])
    (by norm_num [Collider.worldPosition2D, GameObj.worldPosition2DAux, Scenario.circleOn,
      Scenario.freeBody, Scenario.childBody, Scenario.siblings])
    (by norm_num [glm.length, dot])
    (by
      have e : glm.length Real.sqrt ((⟨10, 0⟩ : dvec2 ℝ) - ⟨11, 0⟩) = 1 := by
        simp only [glm.length, dot, dvec2.mk_sub_mk]
        exact sqrt_of_mul_self (by norm_num) (by norm_num)
      rw [e]
      norm_num)
  match t with
  | ⟨h1, pw1, qw1, hres, hP, hQ, hlen, hiff, hb⟩ =>
    ⟨h1, pw1, qw1, hres, hP, hQ, hlen, hiff,
      hb (Or.inl rfl)
        (fun _ => by simp [Collider.carriedBy, Chain.carriersAux, Scenario.circleOn,
          Scenario.siblings, Scenario.freeBody, Scenario.childBody])
        (fun _ => by simp [Collider.carriedBy, Chain.carriersAux, Scenario.circleOn,
          Scenario.siblings, Scenario.freeBody, Scenario.childBody])⟩

/-- C10, as amended. Mass-weighted split of the static displacement: for two
distinct non-kinematic bodies with positive masses and circle contact colliders
of radii `rP`, `rQ` at centre distance `d > 0`, `PhyxENG::StaticResolution`
returns, moves `p` by `+n * overlap * mass_q / (mass_p + mass_q)` and `q` by
`-n * overlap * mass_p / (mass_p + mass_q)`, with `n` the unit normal from `q`'s
collider to `p`'s and `overlap = ((rP + rQ) - d) * 1.01`; hence
`mass_p * |move_p| = mass_q * |move_q|`, and the two displacement magnitudes sum
to `|overlap|`. -/
theorem StaticResolution_mass_weighted_split (h : Heap ℝ) (p q : Nat)
    (pc qc : Collider ℝ) (op oq : PhyxObj2D ℝ) (pw qw : dvec2 ℝ) (rp rq : ℝ)
    (hpq : p ≠ q) (hp : h[p]? = some op) (hq : h[q]? = some oq)
    (hpk : op.kinematic = false) (hqk : oq.kinematic = false)
    (hmp : 0 < op.mass) (hmq : 0 < oq.mass)
    (hpc : pc.Dim = some rp) (hqc : qc.Dim = some rq)
    (hpw : pc.worldPosition2D h = some pw) (hqw : qc.worldPosition2D h = some qw)
    (hd0 : 0 < glm.length Real.sqrt (pw - qw)) :
    ∃ h1 op1 oq1, StaticResolution Real.sqrt h p pc q qc = some h1
      ∧ h1[p]? = some op1 ∧ h1[q]? = some oq1
      ∧ op1.position = op.position
          + normalize Real.sqrt (pw - qw) * (((rp + rq) - glm.length Real.sqrt (pw - qw)) * 1.01)
            * (oq.mass / (op.mass + oq.mass))
      ∧ oq1.position = oq.position
          - normalize Real.sqrt (pw - qw) * (((rp + rq) - glm.length Real.sqrt (pw - qw)) * 1.01)
            * (op.mass / (op.mass + oq.mass))
      ∧ op.mass * glm.length Real.sqrt (op1.position - op.position)
          = oq.mass * glm.length Real.sqrt (oq1.position - oq.position)
      ∧ glm.length Real.sqrt (op1.position - op.position)
          + glm.length Real.sqrt (oq1.position - oq.position)
          = |((rp + rq) - glm.length Real.sqrt (pw - qw)) * 1.01| := by
  have hu := ne_zero_of_length_pos hd0
  have hm : 0 < op.mass + oq.mass := by positivity
  have hrq : 0 < oq.mass / (op.mass + oq.mass) := div_pos hmq hm
  have hrp : 0 < op.mass / (op.mass + oq.mass) := div_pos hmp hm
  have hq1 : ∀ c, (h.set p c)[q]? = some oq := fun c => (Heap.get_set_ne hpq c).trans hq
  refine ⟨_, _, _, StaticResolution_circle_free h p q pc qc op oq pw qw rp rq hpq hp hq
    hpk hqk hpc hqc hpw hqw,
    (Heap.get_set_ne (Ne.symm hpq) _).trans (Heap.get_set_self hp _),
    Heap.get_set_self (hq1 _) _, rfl, ?_, ?_⟩
  · ext
    · simp only [dvec2.add_x, dvec2.sub_x, dvec2.mul_x]
      ring
    · simp only [dvec2.add_y, dvec2.sub_y, dvec2.mul_y]
      ring
  · have hlp := length_normal_mul hu
      ((((rp + rq) - glm.length Real.sqrt (pw - qw)) * 1.01) * (oq.mass / (op.mass + oq.mass)))
      (op.position + normalize Real.sqrt (pw - qw)
          * (((rp + rq) - glm.length Real.sqrt (pw - qw)) * 1.01)
          * (oq.mass / (op.mass + oq.mass)) - op.position)
      (by simp only [dvec2.add_x, dvec2.sub_x, dvec2.mul_x]; ring)
      (by simp only [dvec2.add_y, dvec2.sub_y, dvec2.mul_y]; ring)
    have hlq := length_normal_mul hu
      (-((((rp + rq) - glm.length Real.sqrt (pw - qw)) * 1.01)
        * (op.mass / (op.mass + oq.mass))))
      (oq.position + normalize Real.sqrt (pw - qw) * (-1 : ℝ)
          * (((rp + rq) - glm.length Real.sqrt (pw - qw)) * 1.01)
          * (op.mass / (op.mass + oq.mass)) - oq.position)
      (by simp only [dvec2.add_x, dvec2.sub_x, dvec2.mul_x]; ring)
      (by simp only [dvec2.add_y, dvec2.sub_y, dvec2.mul_y]; ring)
    simp only
    rw [hlp, hlq, abs_neg, abs_mul, abs_mul _ (op.mass / (op.mass + oq.mass)),
      abs_of_pos hrq, abs_of_pos hrp]
    constructor
    · field_simp
      ring
    · field_simp
      ring

/-- Counterexample to C10 as stated: two unit masses with unit circles whose
centres are 3 apart (a contact reported without geometric overlap). The
overlap is `-1.01`, each body is moved by `0.505` towards the other, and the two
displacement magnitudes sum to `1.01`, not to the overlap. -/
theorem StaticResolution_apart_magnitudes :
    StaticResolution Real.sqrt (Scenario.apart : Heap ℝ) 0 (Scenario.circleOn 0 1) 1
        (Scenario.circleOn 1 1)
      = some [Scenario.freeBody ⟨0.505, 0⟩ ⟨0, 0⟩ 1, Scenario.freeBody ⟨2.495, 0⟩ ⟨0, 0⟩ 1]
    ∧ glm.length Real.sqrt ((⟨0.505, 0⟩ : dvec2 ℝ) - ⟨0, 0⟩)
        + glm.length Real.sqrt ((⟨2.495, 0⟩ : dvec2 ℝ) - ⟨3, 0⟩) = 1.01
    ∧ (((1 : ℝ) + 1) - glm.length Real.sqrt ((⟨0, 0⟩ : dvec2 ℝ) - ⟨3, 0⟩)) * 1.01 = -1.01
    ∧ glm.length Real.sqrt ((⟨0.505, 0⟩ : dvec2 ℝ) - ⟨0, 0⟩)
        + glm.length Real.sqrt ((⟨2.495, 0⟩ : dvec2 ℝ) - ⟨3, 0⟩)
      ≠ (((1 : ℝ) + 1) - glm.length Real.sqrt ((⟨0, 0⟩ : dvec2 ℝ) - ⟨3, 0⟩)) * 1.01 := by
  have h9 : Real.sqrt (3 * 3) = 3 := sqrt_of_mul_self (by norm_num) (by norm_num)
  have h5 : Real.sqrt (0.505 * 0.505) = 0.505 := sqrt_of_mul_self (by norm_num) (by norm_num)
  have hb : Real.sqrt ((2.495 - 3) * (2.495 - 3)) = 0.505 :=
    sqrt_of_mul_self (by norm_num) (by norm_num)
  have hsum : glm.length Real.sqrt ((⟨0.505, 0⟩ : dvec2 ℝ) - ⟨0, 0⟩)
      + glm.length Real.sqrt ((⟨2.495, 0⟩ : dvec2 ℝ) - ⟨3, 0⟩) = 1.01 := by
    simp only [glm.length, dot, dvec2.mk_sub_mk, sub_zero, mul_zero, add_zero, h5, hb]
    norm_num
  have hov : (((1 : ℝ) + 1) - glm.length Real.sqrt ((⟨0, 0⟩ : dvec2 ℝ) - ⟨3, 0⟩)) * 1.01
      = -1.01 := by
    simp only [glm.length, dot, dvec2.mk_sub_mk, sub_zero, mul_zero, add_zero, zero_sub,
      neg_mul_neg, h9]
    norm_num
  refine ⟨?_, hsum, hov, ?_⟩
  · simp [StaticResolution, Scenario.apart, Scenario.circleOn, Scenario.freeBody,
      Collider.worldPosition2D, GameObj.worldPosition2DAux, PhyxObj2D.isKinematic,
      PhyxObj2D.Move, glm.normalize, glm.inversesqrt, glm.length, glm.dot, h9]
    norm_num
  · rw [hsum, hov]
    norm_num

/-- Witness of C10 as amended: a unit mass and a mass 3 with unit circles whose
centres are 1 apart. -/
theorem StaticResolution_mass_weighted_split_witness :
    ∃ h1 op1 oq1,
      StaticResolution Real.sqrt (Scenario.overlapping : Heap ℝ) 0 (Scenario.circleOn 0 1) 1
          (Scenario.circleOn 1 1) = some h1
      ∧ h1[0]? = some op1 ∧ h1[1]? = some oq1
      ∧ op1.position = (Scenario.freeBody (⟨0, 0⟩ : dvec2 ℝ) ⟨0, 0⟩ 1).position
          + normalize Real.sqrt ((⟨0, 0⟩ : dvec2 ℝ) - ⟨1, 0⟩)
            * ((((1 : ℝ) + 1) - glm.length Real.sqrt ((⟨0, 0⟩ : dvec2 ℝ) - ⟨1, 0⟩)) * 1.01)
            * ((Scenario.freeBody (⟨1, 0⟩ : dvec2 ℝ) ⟨0, 0⟩ 3).mass
              / ((Scenario.freeBody (⟨0, 0⟩ : dvec2 ℝ) ⟨0, 0⟩ 1).mass
                + (Scenario.freeBody (⟨1, 0⟩ : dvec2 ℝ) ⟨0, 0⟩ 3).mass))
      ∧ oq1.position = (Scenario.freeBody (⟨1, 0⟩ : dvec2 ℝ) ⟨0, 0⟩ 3).position
          - normalize Real.sqrt ((⟨0, 0⟩ : dvec2 ℝ) - ⟨1, 0⟩)
            * ((((1 : ℝ) + 1) - glm.length Real.sqrt ((⟨0, 0⟩ : dvec2 ℝ) - ⟨1, 0⟩)) * 1.01)
            * ((Scenario.freeBody (⟨0, 0⟩ : dvec2 ℝ) ⟨0, 0⟩ 1).mass
              / ((Scenario.freeBody (⟨0, 0⟩ : dvec2 ℝ) ⟨0, 0⟩ 1).mass
                + (Scenario.freeBody (⟨1, 0⟩ : dvec2 ℝ) ⟨0, 0⟩ 3).mass))
      ∧ (Scenario.freeBody (⟨0, 0⟩ : dvec2 ℝ) ⟨0, 0⟩ 1).mass
          * glm.length Real.sqrt
            (op1.position - (Scenario.freeBody (⟨0, 0⟩ : dvec2 ℝ) ⟨0, 0⟩ 1).position)
          = (Scenario.freeBody (⟨1, 0⟩ : dvec2 ℝ) ⟨0, 0⟩ 3).mass
            * glm.length Real.sqrt
              (oq1.position - (Scenario.freeBody (⟨1, 0⟩ : dvec2 ℝ) ⟨0, 0⟩ 3).position)
      ∧ glm.length Real.sqrt
            (op1.position - (Scenario.freeBody (⟨0, 0⟩ : dvec2 ℝ) ⟨0, 0⟩ 1).position)
          + glm.length Real.sqrt
            (oq1.position - (Scenario.freeBody (⟨1, 0⟩ : dvec2 ℝ) ⟨0, 0⟩ 3).position)
          = |(((1 : ℝ) + 1) - glm.length Real.sqrt ((⟨0, 0⟩ : dvec2 ℝ) - ⟨1, 0⟩)) * 1.01| :=
  StaticResolution_mass_weighted_split Scenario.overlapping 0 1
    (Scenario.circleOn 0 1) (Scenario.circleOn 1 1)
    (Scenario.freeBody ⟨0, 0⟩ ⟨0, 0⟩ 1) (Scenario.freeBody ⟨1, 0⟩ ⟨0, 0⟩ 3)
    ⟨0, 0⟩ ⟨1, 0⟩ 1 1
    (by decide) rfl rfl rfl rfl
    (by norm_num [Scenario.freeBody]) (by norm_num [Scenario.freeBody])
    rfl rfl
    (by simp [Collider.worldPosition2D, GameObj.worldPosition2DAux, Scenario.circleOn,
      Scenario.freeBody, Scenario.overlapping])
    (by simp [Collider.worldPosition2D, GameObj.worldPosition2DAux, Scenario.circleOn,
      Scenario.freeBody, Scenario.overlapping])
    (by simp [glm.length, dot])

/-- C9, the code at the failing input: `q` orbits `p`, neither is kinematic, the
unit circles overlap by 1. `StaticResolution` takes its first branch and splits
the displacement by mass: the orbited body `p` is moved by `0.505` and `q`
receives `0.505`, not the entire `1.01`. -/
theorem StaticResolution_orbited_body_is_moved :
    (Scenario.orbiter : Heap ℝ)[1]?.map (fun oq => oq.Orbiting 0) = some true
    ∧ StaticResolution Real.sqrt (Scenario.orbiter : Heap ℝ) 0 (Scenario.circleOn 0 1) 1
        (Scenario.circleOn 1 1)
      = some [Scenario.freeBody ⟨-0.505, 0⟩ ⟨0, 0⟩ 1,
          Scenario.orbitingBody 0 ⟨1.505, 0⟩ ⟨0, 0⟩ 1] := by
  constructor
  · simp [Scenario.orbiter, Scenario.orbitingBody, PhyxObj2D.Orbiting]
  · simp [StaticResolution, Scenario.orbiter, Scenario.circleOn, Scenario.freeBody,
      Scenario.orbitingBody,
      Collider.worldPosition2D, GameObj.worldPosition2DAux, PhyxObj2D.isKinematic,
      PhyxObj2D.Move, glm.normalize, glm.inversesqrt, glm.length, glm.dot]
    norm_num

end PhyxENG

/-! ## Pairwise gravity -/

namespace PhyxObj2D
variable {K : Type} [Field K]

/-- `AddForce` through a valid pointer adds `_a / mass` to the acceleration. -/
theorem AddForce_of_get {h : Heap K} {i : Nat} {b : PhyxObj2D K} (hi : h[i]? = some b)
    (_a : dvec2 K) : AddForce h i _a = some (h.set i { b with a := b.a + _a / b.mass }) := by
  simp [AddForce, hi]

end PhyxObj2D

namespace PhyxENG

/-- The separation vector has the same length in both directions. -/
theorem length_sub_comm (u v : dvec2 ℝ) :
    glm.length Real.sqrt (u - v) = glm.length Real.sqrt (v - u) := by
  unfold glm.length
  congr 1
  simp only [dot, dvec2.sub_x, dvec2.sub_y]
  ring

/-- The value of `Gravity2D` in terms of the two world positions. -/
theorem Gravity2D_eq (eng : PhyxENG ℝ) (h : Heap ℝ) (a b : Nat) (oa ob : PhyxObj2D ℝ)
    (wa wb : dvec2 ℝ) (ha : h[a]? = some oa) (hb : h[b]? = some ob)
    (hwa : PhyxObj2D.worldPosition2D h a = some wa)
    (hwb : PhyxObj2D.worldPosition2D h b = some wb) :
    Gravity2D Real.sqrt eng h a b
      = some ((wb - wa) * (eng.G * (oa.mass * ob.mass)
          / (glm.length Real.sqrt (wb - wa) ^ 2 / 4))) := by
  unfold Gravity2D
  simp only [hwa, hwb, ha, hb, PhyxObj2D.Mass]
  congr 2
  ring

end PhyxENG

/-! ## Velocity delegation along a parent chain -/

namespace Chain
variable {K : Type}

/-- A duplicate-free list of numbers below `n` has at most `n` members. -/
theorem length_le_of_nodup {c : List Nat} {n : Nat} (hc : c.Nodup) (hlt : ∀ x ∈ c, x < n) :
    c.length ≤ n := by
  have hsub : c.toFinset ⊆ Finset.range n := by
    intro x hx
    exact Finset.mem_range.mpr (hlt x (List.mem_toFinset.mp hx))
  have hcard := Finset.card_le_card hsub
  rw [List.toFinset_card_of_nodup hc, Finset.card_range] at hcard
  exact hcard

/-- A body with a stored parent pointer is a valid pointer. -/
theorem lt_length_of_parentOf {h : Heap K} {i : Nat} {x : Parent K}
    (hi : parentOf h i = some x) : i < h.length := by
  unfold parentOf at hi
  cases hb : h[i]? with
  | none => rw [hb] at hi; cases hi
  | some b => exact Heap.lt_length_of_get hb

/-- Every member of a chain is a valid pointer. -/
theorem IsChain.valid {h : Heap K} {r : Nat} : ∀ {c : List Nat}, IsChain h c r →
    ∀ x ∈ c, x < h.length
  | [], hc, _, _ => hc.elim
  | [i], hc, x, hx => by
    rw [List.mem_singleton] at hx
    subst hx
    exact lt_length_of_parentOf hc.2
  | i :: j :: rest, hc, x, hx => by
    rcases List.mem_cons.mp hx with hxi | hxr
    · subst hxi
      exact lt_length_of_parentOf hc.1
    · exact IsChain.valid hc.2 x hxr

/-- From any member of a chain on, the chain is a chain to the same root. -/
theorem IsChain.from_member {h : Heap K} {r : Nat} : ∀ {c : List Nat}, IsChain h c r →
    ∀ m ∈ c, ∃ rest, IsChain h (m :: rest) r ∧ (m :: rest).length ≤ c.length
  | [], hc, _, _ => hc.elim
  | [i], hc, m, hm => by
    rw [List.mem_singleton] at hm
    subst hm
    exact ⟨[], hc, le_refl _⟩
  | i :: j :: rest, hc, m, hm => by
    rcases List.mem_cons.mp hm with hmi | hmr
    · subst hmi
      exact ⟨j :: rest, hc, le_refl _⟩
    · obtain ⟨rest1, h1, h2⟩ := IsChain.from_member hc.2 m hmr
      exact ⟨rest1, h1, by simp only [List.length_cons] at h2 ⊢; omega⟩

/-- The root of a chain is the holder for its first member, given enough steps. -/
theorem holderAux_of_chain {h : Heap K} {r : Nat} {root : PhyxObj2D K} (hr : h[r]? = some root) :
    ∀ (c : List Nat) (m : Nat), IsChain h (m :: c) r → ∀ n, (m :: c).length ≤ n →
      holderAux h n m = some (r, root)
  | [], m, hc, n, hn => by
    obtain ⟨hmr, hpar⟩ := hc
    subst hmr
    obtain ⟨k, hk⟩ : ∃ k, n = k + 1 := ⟨n - 1, by simp only [List.length_cons] at hn; omega⟩
    subst hk
    unfold parentOf at hpar
    rw [hr] at hpar
    have hnull : root.parent = Parent.null := Option.some.inj hpar
    simp [holderAux, hr, hnull]
  | j :: rest, m, hc, n, hn => by
    obtain ⟨hpar, hrest⟩ := hc
    obtain ⟨k, hk⟩ : ∃ k, n = k + 1 := ⟨n - 1, by simp only [List.length_cons] at hn; omega⟩
    subst hk
    unfold parentOf at hpar
    cases hb : h[m]? with
    | none => rw [hb] at hpar; cases hpar
    | some b =>
      rw [hb] at hpar
      have hbp : b.parent = Parent.phyx j := Option.some.inj hpar
      have ih := holderAux_of_chain hr rest j hrest k
        (by simp only [List.length_cons] at hn ⊢; omega)
      simp [holderAux, hb, hbp, ih]

/-- In an acyclic chain the root is the holder for every member within
`h.length` steps, the number of steps the accessors allow themselves. -/
theorem holder_of_member {h : Heap K} {c : List Nat} {r m : Nat} {root : PhyxObj2D K}
    (hc : IsChain h c r) (hnd : c.Nodup) (hm : m ∈ c) (hr : h[r]? = some root) :
    holderAux h h.length m = some (r, root) := by
  obtain ⟨rest, hrest, hlen⟩ := IsChain.from_member hc m hm
  have hle := length_le_of_nodup hnd (IsChain.valid hc)
  exact holderAux_of_chain hr rest m hrest h.length (le_trans hlen hle)

/-- `V()` reads from the holder. -/
theorem getVAux_of_holder {h : Heap K} : ∀ (n i : Nat) {r : Nat} {root : PhyxObj2D K},
    holderAux h n i = some (r, root) → PhyxObj2D.getVAux h n i = some (root.v)
  | 0, _, _, _, hh => by simp [holderAux] at hh
  | n + 1, i, r, root, hh => by
    unfold holderAux at hh
    unfold PhyxObj2D.getVAux
    cases hb : h[i]? with
    | none => rw [hb] at hh; cases hh
    | some b =>
      rw [hb] at hh
      simp only at hh ⊢
      cases hp : b.parent with
      | phyx j =>
        rw [hp] at hh
        exact getVAux_of_holder n j hh
      | other w =>
        rw [hp] at hh
        simp only [Option.some.injEq, Prod.mk.injEq] at hh
        obtain ⟨_, hroot⟩ := hh
        subst hroot
        rfl
      | null =>
        rw [hp] at hh
        simp only [Option.some.injEq, Prod.mk.injEq] at hh
        obtain ⟨_, hroot⟩ := hh
        subst hroot
        rfl

/-- `Speed()` reads from the holder. -/
theorem SpeedAux_of_holder [Field K] (sqrt : K → K) {h : Heap K} : ∀ (n i : Nat) {r : Nat} {root : PhyxObj2D K},
    holderAux h n i = some (r, root) → PhyxObj2D.SpeedAux sqrt h n i = some (glm.length sqrt root.v)
  | 0, _, _, _, hh => by simp [holderAux] at hh
  | n + 1, i, r, root, hh => by
    unfold holderAux at hh
    unfold PhyxObj2D.SpeedAux
    cases hb : h[i]? with
    | none => rw [hb] at hh; cases hh
    | some b =>
      rw [hb] at hh
      simp only at hh ⊢
      cases hp : b.parent with
      | phyx j =>
        rw [hp] at hh
        exact SpeedAux_of_holder sqrt n j hh
      | other w =>
        rw [hp] at hh
        simp only [Option.some.injEq, Prod.mk.injEq] at hh
        obtain ⟨_, hroot⟩ := hh
        subst hroot
        rfl
      | null =>
        rw [hp] at hh
        simp only [Option.some.injEq, Prod.mk.injEq] at hh
        obtain ⟨_, hroot⟩ := hh
        subst hroot
        rfl

/-- `XV()` reads from the holder. -/
theorem getXVAux_of_holder {h : Heap K} : ∀ (n i : Nat) {r : Nat} {root : PhyxObj2D K},
    holderAux h n i = some (r, root) → PhyxObj2D.getXVAux h n i = some (root.v.x)
  | 0, _, _, _, hh => by simp [holderAux] at hh
  | n + 1, i, r, root, hh => by
    unfold holderAux at hh
    unfold PhyxObj2D.getXVAux
    cases hb : h[i]? with
    | none => rw [hb] at hh; cases hh
    | some b =>
      rw [hb] at hh
      simp only at hh ⊢
      cases hp : b.parent with
      | phyx j =>
        rw [hp] at hh
        exact getXVAux_of_holder n j hh
      | other w =>
        rw [hp] at hh
        simp only [Option.some.injEq, Prod.mk.injEq] at hh
        obtain ⟨_, hroot⟩ := hh
        subst hroot
        rfl
      | null =>
        rw [hp] at hh
        simp only [Option.some.injEq, Prod.mk.injEq] at hh
        obtain ⟨_, hroot⟩ := hh
        subst hroot
        rfl

/-- `YV()` reads from the holder. -/
theorem getYVAux_of_holder {h : Heap K} : ∀ (n i : Nat) {r : Nat} {root : PhyxObj2D K},
    holderAux h n i = some (r, root) → PhyxObj2D.getYVAux h n i = some (root.v.y)
  | 0, _, _, _, hh => by simp [holderAux] at hh
  | n + 1, i, r, root, hh => by
    unfold holderAux at hh
    unfold PhyxObj2D.getYVAux
    cases hb : h[i]? with
    | none => rw [hb] at hh; cases hh
    | some b =>
      rw [hb] at hh
      simp only at hh ⊢
      cases hp : b.parent with
      | phyx j =>
        rw [hp] at hh
        exact getYVAux_of_holder n j hh
      | other w =>
        rw [hp] at hh
        simp only [Option.some.injEq, Prod.mk.injEq] at hh
        obtain ⟨_, hroot⟩ := hh
        subst hroot
        rfl
      | null =>
        rw [hp] at hh
        simp only [Option.some.injEq, Prod.mk.injEq] at hh
        obtain ⟨_, hroot⟩ := hh
        subst hroot
        rfl

/-- `V(_v)` writes into a parentless holder. -/
theorem setVAux_of_holder {h : Heap K} (_v : dvec2 K) : ∀ (n i : Nat) {r : Nat}
    {root : PhyxObj2D K}, holderAux h n i = some (r, root) → root.parent = Parent.null →
    PhyxObj2D.setVAux h _v n i = some (h.set r { root with v := _v })
  | 0, _, _, _, hh, _ => by simp [holderAux] at hh
  | n + 1, i, r, root, hh, hnull => by
    unfold holderAux at hh
    unfold PhyxObj2D.setVAux
    cases hb : h[i]? with
    | none => rw [hb] at hh; cases hh
    | some b =>
      rw [hb] at hh
      simp only at hh ⊢
      cases hp : b.parent with
      | phyx j =>
        rw [hp] at hh
        exact setVAux_of_holder _v n j hh hnull
      | other w =>
        rw [hp] at hh
        simp only [Option.some.injEq, Prod.mk.injEq] at hh
        obtain ⟨_, hroot⟩ := hh
        subst hroot
        rw [hp] at hnull
        cases hnull
      | null =>
        rw [hp] at hh
        simp only [Option.some.injEq, Prod.mk.injEq] at hh
        obtain ⟨hi, hroot⟩ := hh
        subst hi
        subst hroot
        rw [hp]

/-- `dV(_v)` writes into a parentless holder. -/
theorem dVAux_of_holder [Field K] {h : Heap K} (_v : dvec2 K) : ∀ (n i : Nat) {r : Nat}
    {root : PhyxObj2D K}, holderAux h n i = some (r, root) → root.parent = Parent.null →
    PhyxObj2D.dVAux h _v n i = some (h.set r { root with v := root.v + _v })
  | 0, _, _, _, hh, _ => by simp [holderAux] at hh
  | n + 1, i, r, root, hh, hnull => by
    unfold holderAux at hh
    unfold PhyxObj2D.dVAux
    cases hb : h[i]? with
    | none => rw [hb] at hh; cases hh
    | some b =>
      rw [hb] at hh
      simp only at hh ⊢
      cases hp : b.parent with
      | phyx j =>
        rw [hp] at hh
        exact dVAux_of_holder _v n j hh hnull
      | other w =>
        rw [hp] at hh
        simp only [Option.some.injEq, Prod.mk.injEq] at hh
        obtain ⟨_, hroot⟩ := hh
        subst hroot
        rw [hp] at hnull
        cases hnull
      | null =>
        rw [hp] at hh
        simp only [Option.some.injEq, Prod.mk.injEq] at hh
        obtain ⟨hi, hroot⟩ := hh
        subst hi
        subst hroot
        rw [hp]

/-- `XV(_xv)` writes into a parentless holder. -/
theorem setXVAux_of_holder {h : Heap K} (_xv : K) : ∀ (n i : Nat) {r : Nat}
    {root : PhyxObj2D K}, holderAux h n i = some (r, root) → root.parent = Parent.null →
    PhyxObj2D.setXVAux h _xv n i = some (h.set r { root with v := ⟨_xv, root.v.y⟩ })
  | 0, _, _, _, hh, _ => by simp [holderAux] at hh
  | n + 1, i, r, root, hh, hnull => by
    unfold holderAux at hh
    unfold PhyxObj2D.setXVAux
    cases hb : h[i]? with
    | none => rw [hb] at hh; cases hh
    | some b =>
      rw [hb] at hh
      simp only at hh ⊢
      cases hp : b.parent with
      | phyx j =>
        rw [hp] at hh
        exact setXVAux_of_holder _xv n j hh hnull
      | other w =>
        rw [hp] at hh
        simp only [Option.some.injEq, Prod.mk.injEq] at hh
        obtain ⟨_, hroot⟩ := hh
        subst hroot
        rw [hp] at hnull
        cases hnull
      | null =>
        rw [hp] at hh
        simp only [Option.some.injEq, Prod.mk.injEq] at hh
        obtain ⟨hi, hroot⟩ := hh
        subst hi
        subst hroot
        rw [hp]

/-- `YV(_yv)` writes into a parentless holder. -/
theorem setYVAux_of_holder {h : Heap K} (_yv : K) : ∀ (n i : Nat) {r : Nat}
    {root : PhyxObj2D K}, holderAux h n i = some (r, root) → root.parent = Parent.null →
    PhyxObj2D.setYVAux h _yv n i = some (h.set r { root with v := ⟨root.v.x, _yv⟩ })
  | 0, _, _, _, hh, _ => by simp [holderAux] at hh
  | n + 1, i, r, root, hh, hnull => by
    unfold holderAux at hh
    unfold PhyxObj2D.setYVAux
    cases hb : h[i]? with
    | none => rw [hb] at hh; cases hh
    | some b =>
      rw [hb] at hh
      simp only at hh ⊢
      cases hp : b.parent with
      | phyx j =>
        rw [hp] at hh
        exact setYVAux_of_holder _yv n j hh hnull
      | other w =>
        rw [hp] at hh
        simp only [Option.some.injEq, Prod.mk.injEq] at hh
        obtain ⟨_, hroot⟩ := hh
        subst hroot
        rw [hp] at hnull
        cases hnull
      | null =>
        rw [hp] at hh
        simp only [Option.some.injEq, Prod.mk.injEq] at hh
        obtain ⟨hi, hroot⟩ := hh
        subst hi
        subst hroot
        rw [hp]

/-- The root of a chain has no parent. -/
theorem IsChain.root_null {h : Heap K} {r : Nat} : ∀ {c : List Nat}, IsChain h c r →
    parentOf h r = some Parent.null
  | [], hc => hc.elim
  | [i], hc => by
    obtain ⟨hir, hp⟩ := hc
    subst hir
    exact hp
  | _ :: j :: rest, hc => IsChain.root_null (c := j :: rest) hc.2

/-- Being a chain depends on the parent pointers only. -/
theorem IsChain.congr {h h1 : Heap K} {r : Nat} (hpar : ∀ i, parentOf h1 i = parentOf h i) :
    ∀ {c : List Nat}, IsChain h c r → IsChain h1 c r
  | [], hc => hc.elim
  | [i], hc => ⟨hc.1, (hpar i).trans hc.2⟩
  | i :: j :: rest, hc => ⟨(hpar i).trans hc.1, IsChain.congr hpar (c := j :: rest) hc.2⟩

/-- Writing a body back with the same parent pointer changes no parent pointer. -/
theorem parentOf_set {h : Heap K} {r : Nat} {root b : PhyxObj2D K} (hr : h[r]? = some root)
    (hb : b.parent = root.parent) (i : Nat) : parentOf (h.set r b) i = parentOf h i := by
  unfold parentOf
  by_cases hri : r = i
  · subst hri
    rw [Heap.get_set_self hr, hr]
    simp only [hb]
  · rw [Heap.get_set_ne hri]

/-- What a velocity mutation through a member of an acyclic chain does: it
writes the asked velocity into the root and nothing else. -/
theorem VelocityCall.run_of_member [Field K] {h : Heap K} {c : List Nat} {r m : Nat}
    {root : PhyxObj2D K} (call : VelocityCall K)
    (hc : IsChain h c r) (hnd : c.Nodup) (hm : m ∈ c) (hr : h[r]? = some root) :
    call.run h m = some (h.set r { root with v := call.asked root.v }) := by
  have hh := holder_of_member hc hnd hm hr
  have hnull : root.parent = Parent.null := by
    have hp := IsChain.root_null hc
    unfold parentOf at hp
    rw [hr] at hp
    exact Option.some.inj hp
  cases call with
  | V _v => exact setVAux_of_holder _v h.length m hh hnull
  | dV _v => exact dVAux_of_holder _v h.length m hh hnull
  | XV _xv => exact setXVAux_of_holder _xv h.length m hh hnull
  | YV _yv => exact setYVAux_of_holder _yv h.length m hh hnull

/-- C4. Velocity delegation to the root: for every acyclic parent chain `c` of
bodies ending in the parentless root `r`, and every velocity mutation (`V(_v)`,
`dV(_v)`, `XV(_xv)`, `YV(_yv)`) issued through any member `m` of the chain, the
call returns; it stores the asked velocity in the root and changes no other
body (so never the stored velocity of a parented member); and afterwards every
member `k` of the chain reports `V(k)` equal to the root's stored velocity and
`Speed(k)` equal to its length. -/
theorem velocity_delegates_to_root [Field K] (sqrt : K → K) (h : Heap K) (c : List Nat)
    (r m : Nat) (root : PhyxObj2D K) (call : VelocityCall K)
    (hc : IsChain h c r) (hnd : c.Nodup) (hm : m ∈ c) (hr : h[r]? = some root) :
    ∃ h1 root1, call.run h m = some h1
      ∧ h1[r]? = some root1
      ∧ root1 = { root with v := call.asked root.v }
      ∧ (∀ i, i ≠ r → h1[i]? = h[i]?)
      ∧ ∀ k ∈ c, PhyxObj2D.getV h1 k = some root1.v
          ∧ PhyxObj2D.Speed sqrt h1 k = some (glm.length sqrt root1.v) := by
  have hr1 : (h.set r { root with v := call.asked root.v })[r]?
      = some { root with v := call.asked root.v } := Heap.get_set_self hr _
  have hc1 : IsChain (h.set r { root with v := call.asked root.v }) c r :=
    IsChain.congr (parentOf_set (b := { root with v := call.asked root.v }) hr rfl) hc
  refine ⟨_, _, VelocityCall.run_of_member call hc hnd hm hr, hr1, rfl,
    fun i hi => Heap.get_set_ne (Ne.symm hi) _, ?_⟩
  intro k hk
  have hh := holder_of_member hc1 hnd hk hr1
  exact ⟨getVAux_of_holder _ k hh, SpeedAux_of_holder sqrt _ k hh⟩

/-- Witness of C4: in a train of three bodies, `dV((1, 1))` issued through the
last one; the chain is that last body, its carrier and the root. -/
theorem velocity_delegates_to_root_witness :
    ∃ h1 root1, (VelocityCall.dV (⟨1, 1⟩ : dvec2 ℝ)).run Scenario.train 2 = some h1
      ∧ h1[0]? = some root1
      ∧ root1 = { Scenario.freeBody (⟨0, 0⟩ : dvec2 ℝ) ⟨3, 4⟩ 5 with
          v := (VelocityCall.dV (⟨1, 1⟩ : dvec2 ℝ)).asked
            (Scenario.freeBody (⟨0, 0⟩ : dvec2 ℝ) ⟨3, 4⟩ 5).v }
      ∧ (∀ i, i ≠ 0 → h1[i]? = (Scenario.train : Heap ℝ)[i]?)
      ∧ ∀ k ∈ [2, 1, 0], PhyxObj2D.getV h1 k = some root1.v
          ∧ PhyxObj2D.Speed Real.sqrt h1 k = some (glm.length Real.sqrt root1.v) :=
  velocity_delegates_to_root Real.sqrt Scenario.train [2, 1, 0] 0 2
    (Scenario.freeBody ⟨0, 0⟩ ⟨3, 4⟩ 5) (VelocityCall.dV ⟨1, 1⟩)
    (by simp [IsChain, parentOf, Scenario.train, Scenario.freeBody, Scenario.childBody])
    (by decide) (by decide) rfl

end Chain

/-! ## One update step on concrete registries -/

namespace PhyxENG

/-- C6, the code at the failing input: three unparented, non-kinematic unit
masses at rest, mode Directional, no contacts, elapsed time 1. The force
`(0, -1) * mass` is added once per pair the body leads: the first body gains
the velocity `(0, -2)`, the second `(0, -1)`, and the last one none at all. -/
theorem Update_directional_depends_on_index :
    Update Real.sqrt
        (Scenario.engine [0, 1, 2] 1 GravityMode.Directional true 1 Scenario.noContact) 1
        (Scenario.row : Heap ℝ)
      = some [Scenario.freeBody ⟨0, -2⟩ ⟨0, -2⟩ 1, Scenario.freeBody ⟨3, -1⟩ ⟨0, -1⟩ 1,
          Scenario.freeBody ⟨6, 0⟩ ⟨0, 0⟩ 1] := by
  simp [Update, outerLoop, innerLoop, gravityStep, contactStep, finishBody, Gravity2D,
    Scenario.engine, Scenario.row, Scenario.freeBody, Scenario.noContact,
    PhyxObj2D.worldPosition2D, GameObj.worldPosition2DAux, PhyxObj2D.isKinematic,
    PhyxObj2D.Move, PhyxObj2D.AddForce, PhyxObj2D.Update, PhyxObj2D.dV, PhyxObj2D.dVAux,
    PhyxObj2D.ResetA, PhyxObj2D.Mass]
  norm_num

/-- The gravity step on two unparented, non-kinematic bodies changes their
accelerations only. -/
theorem gravityStep_pushed (eng : PhyxENG ℝ) (p0 v0 b0 p1 v1 b1 : dvec2 ℝ) (m0 m1 : ℝ) :
    ∃ a0 a1, gravityStep Real.sqrt eng
      [Scenario.pushedBody p0 v0 b0 m0, Scenario.pushedBody p1 v1 b1 m1] 0 1
      = some [Scenario.pushedBody p0 v0 a0 m0, Scenario.pushedBody p1 v1 a1 m1] := by
  obtain ⟨g, hg⟩ : ∃ g, Gravity2D Real.sqrt eng
      [Scenario.pushedBody p0 v0 b0 m0, Scenario.pushedBody p1 v1 b1 m1] 0 1 = some g := by
    simp [Gravity2D, Scenario.pushedBody, PhyxObj2D.worldPosition2D, GameObj.worldPosition2DAux]
  unfold gravityStep
  rw [hg]
  cases hmode : eng.gravitymode
  · exact ⟨b0 + g / m0, b1 + -g / m1, by
      simp [Scenario.pushedBody, PhyxObj2D.isKinematic, PhyxObj2D.AddForce]⟩
  · exact ⟨b0, b1, by
      simp [Scenario.pushedBody, PhyxObj2D.isKinematic, PhyxObj2D.AddForce, PhyxObj2D.Orbiting]⟩
  · exact ⟨b0 + (⟨0, -1⟩ : dvec2 ℝ) * m0 / m0, b1, by
      simp [Scenario.pushedBody, PhyxObj2D.isKinematic, PhyxObj2D.AddForce]⟩

/-- Static resolution in the scenario of the spec: the circles of radius 0.5
are 1.2 apart, the overlap is negative and the bodies are pulled together. -/
theorem StaticResolution_approaching (a0 a1 : dvec2 ℝ) :
    StaticResolution Real.sqrt
      [Scenario.pushedBody ⟨-0.6, 0⟩ ⟨1, 0⟩ a0 1, Scenario.pushedBody ⟨0.6, 0⟩ ⟨-1, 0⟩ a1 1]
      0 (Scenario.circleOn 0 0.5) 1 (Scenario.circleOn 1 0.5)
    = some [Scenario.pushedBody ⟨-0.499, 0⟩ ⟨1, 0⟩ a0 1,
        Scenario.pushedBody ⟨0.499, 0⟩ ⟨-1, 0⟩ a1 1] := by
  have h1 : Real.sqrt ((-0.6 - 0.6) * (-0.6 - 0.6)) = 1.2 :=
    sqrt_of_mul_self (by norm_num) (by norm_num)
  simp [StaticResolution, Scenario.circleOn, Scenario.pushedBody,
      Collider.worldPosition2D, GameObj.worldPosition2DAux, PhyxObj2D.isKinematic,
      PhyxObj2D.Move, glm.normalize, glm.inversesqrt, glm.length, glm.dot, h1]
  norm_num

/-- Dynamic resolution in the scenario of the spec: the velocities are swapped. -/
theorem DynamicResolution_approaching (a0 a1 : dvec2 ℝ) (G : ℝ) (mode : GravityMode)
    (clip : Bool) (svc : Heap ℝ → Nat → Nat → Option (CollisionMsg ℝ)) :
    DynamicResolution Real.sqrt (Scenario.engine [0, 1] G mode clip 1 svc)
      [Scenario.pushedBody ⟨-0.499, 0⟩ ⟨1, 0⟩ a0 1, Scenario.pushedBody ⟨0.499, 0⟩ ⟨-1, 0⟩ a1 1]
      0 (Scenario.circleOn 0 0.5) 1 (Scenario.circleOn 1 0.5)
    = some [Scenario.pushedBody ⟨-0.499, 0⟩ ⟨-1, 0⟩ a0 1,
        Scenario.pushedBody ⟨0.499, 0⟩ ⟨1, 0⟩ a1 1] := by
  have h1 : Real.sqrt ((-0.499 - 0.499) * (-0.499 - 0.499)) = 0.998 :=
    sqrt_of_mul_self (by norm_num) (by norm_num)
  simp [DynamicResolution, Scenario.circleOn, Scenario.pushedBody, Scenario.engine,
      Collider.worldPosition2D, GameObj.worldPosition2DAux, PhyxObj2D.isKinematic,
      PhyxObj2D.getV, PhyxObj2D.getVAux, PhyxObj2D.setV, PhyxObj2D.setVAux,
      glm.normalize, glm.inversesqrt, glm.length, glm.dot, h1]
  norm_num

/-- The end of the turn of the first of two unparented, non-kinematic bodies
with elapsed time 0: only its acceleration is cleared. -/
theorem finishBody_first_zero (p0 v0 a0 p1 v1 a1 : dvec2 ℝ) (m0 m1 : ℝ) :
    finishBody [Scenario.pushedBody p0 v0 a0 m0, Scenario.pushedBody p1 v1 a1 m1] 0 0
      = some [Scenario.pushedBody p0 v0 ⟨0, 0⟩ m0, Scenario.pushedBody p1 v1 a1 m1] := by
  simp [finishBody, Scenario.pushedBody, PhyxObj2D.isKinematic, PhyxObj2D.Update, PhyxObj2D.dV,
    PhyxObj2D.dVAux, PhyxObj2D.Move, PhyxObj2D.ResetA]
  constructor <;> ext <;> simp

/-- The end of the turn of the second of two unparented, non-kinematic bodies
with elapsed time 0: only its acceleration is cleared. -/
theorem finishBody_second_zero (p0 v0 a0 p1 v1 a1 : dvec2 ℝ) (m0 m1 : ℝ) :
    finishBody [Scenario.pushedBody p0 v0 a0 m0, Scenario.pushedBody p1 v1 a1 m1] 1 0
      = some [Scenario.pushedBody p0 v0 a0 m0, Scenario.pushedBody p1 v1 ⟨0, 0⟩ m1] := by
  simp [finishBody, Scenario.pushedBody, PhyxObj2D.isKinematic, PhyxObj2D.Update, PhyxObj2D.dV,
    PhyxObj2D.dVAux, PhyxObj2D.Move, PhyxObj2D.ResetA]
  constructor <;> ext <;> simp

/-- One update step in the scenario of the spec, elapsed time 0, whatever the
gravitational constant and the gravity mode. -/
theorem Update_approaching (G : ℝ) (mode : GravityMode) :
    Update Real.sqrt (Scenario.engine [0, 1] G mode true 1 (Scenario.circleContact 0.5)) 0
        (Scenario.approaching : Heap ℝ)
      = some [Scenario.freeBody ⟨-0.499, 0⟩ ⟨-1, 0⟩ 1, Scenario.freeBody ⟨0.499, 0⟩ ⟨1, 0⟩ 1] := by
  obtain ⟨a0, a1, hg⟩ := gravityStep_pushed
    (Scenario.engine [0, 1] G mode true 1 (Scenario.circleContact 0.5))
    ⟨-0.6, 0⟩ ⟨1, 0⟩ ⟨0, 0⟩ ⟨0.6, 0⟩ ⟨-1, 0⟩ ⟨0, 0⟩ 1 1
  have hs := StaticResolution_approaching a0 a1
  have hd := DynamicResolution_approaching a0 a1 G mode true (Scenario.circleContact 0.5)
  have hc : contactStep Real.sqrt
      (Scenario.engine [0, 1] G mode true 1 (Scenario.circleContact 0.5))
      [Scenario.pushedBody ⟨-0.6, 0⟩ ⟨1, 0⟩ a0 1, Scenario.pushedBody ⟨0.6, 0⟩ ⟨-1, 0⟩ a1 1] 0 1
      = some [Scenario.pushedBody ⟨-0.499, 0⟩ ⟨-1, 0⟩ a0 1,
          Scenario.pushedBody ⟨0.499, 0⟩ ⟨1, 0⟩ a1 1] := by
    unfold contactStep
    simp only [Scenario.engine, Scenario.circleContact, if_true, hs, Option.some_bind]
    exact hd
  have hf0 := finishBody_first_zero ⟨-0.499, 0⟩ ⟨-1, 0⟩ a0 ⟨0.499, 0⟩ ⟨1, 0⟩ a1 (1 : ℝ) 1
  have hf1 := finishBody_second_zero ⟨-0.499, 0⟩ ⟨-1, 0⟩ ⟨0, 0⟩ ⟨0.499, 0⟩ ⟨1, 0⟩ a1 (1 : ℝ) 1
  have happ : (Scenario.approaching : Heap ℝ)
      = [Scenario.pushedBody ⟨-0.6, 0⟩ ⟨1, 0⟩ ⟨0, 0⟩ 1,
          Scenario.pushedBody ⟨0.6, 0⟩ ⟨-1, 0⟩ ⟨0, 0⟩ 1] := rfl
  unfold Update
  rw [happ]
  simp only [Scenario.engine, outerLoop, innerLoop] at hg hc ⊢
  rw [hg]
  simp only [Option.some_bind, hc, hf0, hf1]
  rfl

/-- The circle centres after the step of the scenario are 0.998 apart. -/
theorem approaching_distance :
    glm.length Real.sqrt ((⟨-0.499, 0⟩ : dvec2 ℝ) - ⟨0.499, 0⟩) = 0.998 := by
  simp only [glm.length, dot, dvec2.mk_sub_mk, sub_zero, mul_zero, add_zero]
  exact sqrt_of_mul_self (by norm_num) (by norm_num)

/-- Counterexample to C7 as stated: with `G = 1` and mode Everything the update
step of the scenario returns, and the two circle centres end 0.998 apart on
the x-axis, not 1.01. -/
theorem Update_approaching_distance_not_101 :
    ∃ h1 pw qw,
      Update Real.sqrt
          (Scenario.engine [0, 1] 1 GravityMode.Everything true 1 (Scenario.circleContact 0.5)) 0
          (Scenario.approaching : Heap ℝ) = some h1
      ∧ (Scenario.circleOn 0 0.5 : Collider ℝ).worldPosition2D h1 = some pw
      ∧ (Scenario.circleOn 1 0.5 : Collider ℝ).worldPosition2D h1 = some qw
      ∧ glm.length Real.sqrt (pw - qw) = 0.998
      ∧ glm.length Real.sqrt (pw - qw) ≠ 1.01 := by
  refine ⟨_, ⟨-0.499, 0⟩, ⟨0.499, 0⟩, Update_approaching 1 GravityMode.Everything, ?_, ?_,
    approaching_distance, ?_⟩
  · simp [Collider.worldPosition2D, GameObj.worldPosition2DAux, Scenario.circleOn,
      Scenario.freeBody]
  · simp [Collider.worldPosition2D, GameObj.worldPosition2DAux, Scenario.circleOn,
      Scenario.freeBody]
  · rw [approaching_distance]
    norm_num

/-- C7, as amended. The scenario of the spec: two unit-mass, non-kinematic,
unparented bodies with circles of radius 0.5 centred at `(-0.6, 0)` and
`(0.6, 0)`, velocities `(1, 0)` and `(-1, 0)`, restitution 1, resolution
enabled and a contact reported for the pair. One update step with elapsed time
0, whatever the gravitational constant and the gravity mode, returns and
leaves the bodies at `(-0.499, 0)` and `(0.499, 0)`, the circle centres on the
x-axis at distance 0.998, and the velocities exactly `(-1, 0)` and `(1, 0)`. -/
theorem Update_approaching_scenario (G : ℝ) (mode : GravityMode) :
    ∃ h1 op1 oq1 pw qw,
      Update Real.sqrt (Scenario.engine [0, 1] G mode true 1 (Scenario.circleContact 0.5)) 0
          (Scenario.approaching : Heap ℝ) = some h1
      ∧ h1[0]? = some op1 ∧ h1[1]? = some oq1
      ∧ op1.position = ⟨-0.499, 0⟩ ∧ oq1.position = ⟨0.499, 0⟩
      ∧ (Scenario.circleOn 0 0.5 : Collider ℝ).worldPosition2D h1 = some pw
      ∧ (Scenario.circleOn 1 0.5 : Collider ℝ).worldPosition2D h1 = some qw
      ∧ pw.y = 0 ∧ qw.y = 0
      ∧ glm.length Real.sqrt (pw - qw) = 0.998
      ∧ op1.v = ⟨-1, 0⟩ ∧ oq1.v = ⟨1, 0⟩ := by
  refine ⟨_, Scenario.freeBody ⟨-0.499, 0⟩ ⟨-1, 0⟩ 1, Scenario.freeBody ⟨0.499, 0⟩ ⟨1, 0⟩ 1,
    ⟨-0.499, 0⟩, ⟨0.499, 0⟩, Update_approaching G mode, rfl, rfl, rfl, rfl, ?_, ?_, rfl, rfl,
    approaching_distance, rfl, rfl⟩
  · simp [Collider.worldPosition2D, GameObj.worldPosition2DAux, Scenario.circleOn,
      Scenario.freeBody]
  · simp [Collider.worldPosition2D, GameObj.worldPosition2DAux, Scenario.circleOn,
      Scenario.freeBody]

end PhyxENG

/-! ## What an update leaves alone -/

namespace Heap
variable {K : Type}

/-- Every heap frames itself. -/
theorem Frame.refl (k : Nat) (h : Heap K) : Frame k h h :=
  ⟨rfl, fun _ => rfl, rfl⟩

/-- Frames compose. -/
theorem Frame.trans {k : Nat} {h h1 h2 : Heap K} (h01 : Frame k h h1) (h12 : Frame k h1 h2) :
    Frame k h h2 :=
  ⟨h12.1.trans h01.1, fun i => (h12.2.1 i).trans (h01.2.1 i), h12.2.2.trans h01.2.2⟩

/-- Writing back a body with the same skeleton, and with the same motion when
it is the body at `k`, frames the heap. -/
theorem Frame.of_set {k : Nat} {h : Heap K} {i : Nat} {b b1 : PhyxObj2D K}
    (hi : h[i]? = some b) (hs : skeleton b1 = skeleton b) (hm : i = k → motion b1 = motion b) :
    Frame k h (h.set i b1) := by
  refine ⟨List.length_set _ _ _, fun j => ?_, ?_⟩
  · by_cases hij : i = j
    · subst hij
      rw [get_set_self hi, hi]
      simp only [Option.map_some', hs]
    · rw [get_set_ne hij]
  · by_cases hik : i = k
    · subst hik
      rw [get_set_self hi, hi]
      simp only [Option.map_some', hm rfl]
    · rw [get_set_ne hik]

/-- A frame keeps the validity of pointers. -/
theorem Frame.get_some {k : Nat} {h h1 : Heap K} (hf : Frame k h h1) {i : Nat} {b : PhyxObj2D K}
    (hi : h[i]? = some b) : ∃ b1, h1[i]? = some b1 ∧ skeleton b1 = skeleton b := by
  have hs := hf.2.1 i
  rw [hi] at hs
  cases hb1 : h1[i]? with
  | none => rw [hb1] at hs; cases hs
  | some b1 =>
    rw [hb1] at hs
    exact ⟨b1, rfl, Option.some.inj hs⟩

/-- A frame keeps the parent pointers, read backwards. -/
theorem Frame.get_some_rev {k : Nat} {h h1 : Heap K} (hf : Frame k h h1) {i : Nat}
    {b1 : PhyxObj2D K} (hi : h1[i]? = some b1) :
    ∃ b, h[i]? = some b ∧ skeleton b1 = skeleton b := by
  have hs := hf.2.1 i
  rw [hi] at hs
  cases hb : h[i]? with
  | none => rw [hb] at hs; cases hs
  | some b =>
    rw [hb] at hs
    exact ⟨b, rfl, Option.some.inj hs⟩

/-- Whether the chain above a body ends depends on the skeletons only. -/
theorem holderAux_isSome_congr {h h1 : Heap K}
    (hs : ∀ i : Nat, (h1[i]?).map skeleton = (h[i]?).map skeleton) :
    ∀ (n i : Nat), (Chain.holderAux h1 n i).isSome = (Chain.holderAux h n i).isSome
  | 0, _ => rfl
  | n + 1, i => by
    have hi := hs i
    unfold Chain.holderAux
    cases hb : h[i]? with
    | none =>
      rw [hb] at hi
      cases hb1 : h1[i]? with
      | none => rfl
      | some b1 => rw [hb1] at hi; cases hi
    | some b =>
      rw [hb] at hi
      cases hb1 : h1[i]? with
      | none => rw [hb1] at hi; cases hi
      | some b1 =>
        rw [hb1] at hi
        have hsk : skeleton b1 = skeleton b := Option.some.inj hi
        have hp : b1.parent = b.parent := congrArg Prod.fst hsk
        simp only [hp]
        cases hpar : b.parent with
        | phyx j => exact holderAux_isSome_congr hs n j
        | other w => rfl
        | null => rfl

/-- A frame keeps the heap well-formed. -/
theorem Frame.wellFormed {k : Nat} {h h1 : Heap K} (hf : Frame k h h1) (hw : WellFormed h) :
    WellFormed h1 := by
  intro i hi
  rw [hf.1] at hi ⊢
  rw [holderAux_isSome_congr hf.2.1]
  exact hw i hi

/-- A frame keeps the body at `k` childless. -/
theorem Frame.noChild {k : Nat} {h h1 : Heap K} (hf : Frame k h h1) (hn : NoChild h k) :
    NoChild h1 k := by
  intro i b1 hi
  obtain ⟨b, hb, hsk⟩ := hf.get_some_rev hi
  have hp : b1.parent = b.parent := congrArg Prod.fst hsk
  rw [hp]
  exact hn i b hb

/-- A frame keeps the kinematic flag of every body. -/
theorem Frame.kinematic {k : Nat} {h h1 : Heap K} (hf : Frame k h h1) {i : Nat}
    {b : PhyxObj2D K} (hi : h[i]? = some b) :
    ∃ b1, h1[i]? = some b1 ∧ b1.kinematic = b.kinematic := by
  obtain ⟨b1, hb1, hsk⟩ := hf.get_some hi
  exact ⟨b1, hb1, congrArg Prod.snd hsk⟩

end Heap

namespace Heap
variable {K : Type}

/-- A frame keeps a good heap good. -/
theorem Good.frame {k : Nat} {h h1 : Heap K} (hg : Good k h) (hf : Frame k h h1) : Good k h1 := by
  obtain ⟨hw, hn, bk, hbk, hkin⟩ := hg
  obtain ⟨bk1, hbk1, hkin1⟩ := hf.kinematic hbk
  exact ⟨hf.wellFormed hw, hf.noChild hn, bk1, hbk1, hkin1.trans hkin⟩

/-- In a good heap a non-kinematic body is not the body at `k`. -/
theorem Good.ne_of_not_kinematic {k : Nat} {h : Heap K} (hg : Good k h) {i : Nat}
    {b : PhyxObj2D K} (hi : h[i]? = some b) (hb : b.kinematic = false) : i ≠ k := by
  obtain ⟨_, _, bk, hbk, hkin⟩ := hg
  intro hik
  subst hik
  rw [hi] at hbk
  have := Option.some.inj hbk
  subst this
  rw [hb] at hkin
  cases hkin

/-- A pointer into the heap points at a body. -/
theorem get_of_lt {h : Heap K} {i : Nat} (hi : i < h.length) : ∃ b, h[i]? = some b :=
  ⟨h[i], List.getElem?_eq_getElem hi⟩

end Heap

namespace PhyxObj2D
variable {K : Type} [Field K]
open Heap

/-- `AddForce` through a valid pointer returns and frames the heap. -/
theorem AddForce_frame (k : Nat) {h : Heap K} {i : Nat} (hi : i < h.length) (_a : dvec2 K) :
    ∃ h1, AddForce h i _a = some h1 ∧ Frame k h h1 := by
  obtain ⟨b, hb⟩ := get_of_lt hi
  exact ⟨_, AddForce_of_get hb _a, Frame.of_set hb rfl (fun _ => rfl)⟩

/-- `ResetA` through a valid pointer zeroes the stored acceleration. -/
theorem ResetA_of_get {h : Heap K} {i : Nat} {b : PhyxObj2D K} (hi : h[i]? = some b) :
    ResetA h i = some (h.set i { b with a := ⟨0, 0⟩ }) := by
  simp [ResetA, hi]

/-- `ResetV` through a valid pointer zeroes the stored velocity. -/
theorem ResetV_of_get {h : Heap K} {i : Nat} {b : PhyxObj2D K} (hi : h[i]? = some b) :
    ResetV h i = some (h.set i { b with v := ⟨0, 0⟩ }) := by
  simp [ResetV, hi]

/-- `ResetA` through a valid pointer returns and frames the heap. -/
theorem ResetA_frame (k : Nat) {h : Heap K} {i : Nat} (hi : i < h.length) :
    ∃ h1, ResetA h i = some h1 ∧ Frame k h h1 := by
  obtain ⟨b, hb⟩ := get_of_lt hi
  exact ⟨_, ResetA_of_get hb, Frame.of_set hb rfl (fun _ => rfl)⟩

/-- `Move` of a body other than `k` returns and frames the heap. -/
theorem Move_frame {k : Nat} {h : Heap K} {i : Nat} (hi : i < h.length) (hik : i ≠ k)
    (d : dvec2 K) : ∃ h1, Move h i d = some h1 ∧ Frame k h h1 := by
  obtain ⟨b, hb⟩ := get_of_lt hi
  exact ⟨_, Move_of_get hb d, Frame.of_set hb rfl (fun hc => absurd hc hik)⟩

/-- `ResetV` of a body other than `k` returns and frames the heap. -/
theorem ResetV_frame {k : Nat} {h : Heap K} {i : Nat} (hi : i < h.length) (hik : i ≠ k) :
    ∃ h1, ResetV h i = some h1 ∧ Frame k h h1 := by
  obtain ⟨b, hb⟩ := get_of_lt hi
  exact ⟨_, ResetV_of_get hb, Frame.of_set hb rfl (fun hc => absurd hc hik)⟩

omit [Field K] in
/-- The setter `V(_v)` issued through a body other than the childless `k`
returns and frames the heap. -/
theorem setVAux_frame {k : Nat} {h : Heap K} (hn : NoChild h k) (_v : dvec2 K) :
    ∀ (n i : Nat), i ≠ k → (Chain.holderAux h n i).isSome →
      ∃ h1, setVAux h _v n i = some h1 ∧ Frame k h h1
  | 0, _, _, hs => by simp [Chain.holderAux] at hs
  | n + 1, i, hik, hs => by
    unfold Chain.holderAux at hs
    unfold setVAux
    cases hb : h[i]? with
    | none => rw [hb] at hs; cases hs
    | some b =>
      rw [hb] at hs
      simp only at hs ⊢
      cases hp : b.parent with
      | phyx j =>
        rw [hp] at hs
        have hjk : j ≠ k := by
          intro hc
          subst hc
          exact hn i b hb hp
        exact setVAux_frame hn _v n j hjk hs
      | other w => exact ⟨h, rfl, Frame.refl k h⟩
      | null => exact ⟨_, rfl, Frame.of_set hb (by simp [skeleton, hp]) (fun hc => absurd hc hik)⟩

/-- `dV(_v)` issued through a body other than the childless `k` returns and
frames the heap. -/
theorem dVAux_frame {k : Nat} {h : Heap K} (hn : NoChild h k) (_v : dvec2 K) :
    ∀ (n i : Nat), i ≠ k → (Chain.holderAux h n i).isSome →
      ∃ h1, dVAux h _v n i = some h1 ∧ Frame k h h1
  | 0, _, _, hs => by simp [Chain.holderAux] at hs
  | n + 1, i, hik, hs => by
    unfold Chain.holderAux at hs
    unfold dVAux
    cases hb : h[i]? with
    | none => rw [hb] at hs; cases hs
    | some b =>
      rw [hb] at hs
      simp only at hs ⊢
      cases hp : b.parent with
      | phyx j =>
        rw [hp] at hs
        have hjk : j ≠ k := by
          intro hc
          subst hc
          exact hn i b hb hp
        exact dVAux_frame hn _v n j hjk hs
      | other w => exact ⟨h, rfl, Frame.refl k h⟩
      | null => exact ⟨_, rfl, Frame.of_set hb (by simp [skeleton, hp]) (fun hc => absurd hc hik)⟩

omit [Field K] in
/-- The getter `V()` returns wherever the chain above the body ends. -/
theorem getVAux_some {h : Heap K} (n i : Nat) (hs : (Chain.holderAux h n i).isSome) :
    ∃ v, getVAux h n i = some v := by
  obtain ⟨⟨r, root⟩, hr⟩ := Option.isSome_iff_exists.mp hs
  exact ⟨_, Chain.getVAux_of_holder n i hr⟩

end PhyxObj2D

namespace GameObj
variable {K : Type} [Field K]

/-- The world position of an object hanging on a body resolves wherever the
chain above that body ends. -/
theorem worldPosition2DAux_some {h : Heap K} : ∀ (n i : Nat) (pos : dvec2 K),
    (Chain.holderAux h n i).isSome → ∃ w, worldPosition2DAux h n (Parent.phyx i) pos = some w
  | 0, _, _, hs => by simp [Chain.holderAux] at hs
  | n + 1, i, pos, hs => by
    unfold Chain.holderAux at hs
    unfold worldPosition2DAux
    cases hb : h[i]? with
    | none => rw [hb] at hs; cases hs
    | some b =>
      rw [hb] at hs
      simp only at hs ⊢
      cases hp : b.parent with
      | phyx j =>
        rw [hp] at hs
        obtain ⟨w, hw⟩ := worldPosition2DAux_some n j b.position hs
        rw [hw]
        exact ⟨_, rfl⟩
      | other w =>
        cases n <;> simp [worldPosition2DAux]
      | null =>
        cases n <;> simp [worldPosition2DAux]

end GameObj

namespace Heap
variable {K : Type}

/-- A body above which the chain ends is a valid pointer. -/
theorem lt_length_of_holder {h : Heap K} {n i : Nat} (hs : (Chain.holderAux h n i).isSome) :
    i < h.length := by
  cases n with
  | zero => simp [Chain.holderAux] at hs
  | succ n =>
    unfold Chain.holderAux at hs
    cases hb : h[i]? with
    | none => rw [hb] at hs; cases hs
    | some b => exact lt_length_of_get hb

/-- In a well-formed heap the parent of a body is a body of the heap. -/
theorem WellFormed.parent_lt {h : Heap K} (hw : WellFormed h) {i j : Nat} {b : PhyxObj2D K}
    (hi : h[i]? = some b) (hp : b.parent = Parent.phyx j) : j < h.length := by
  have hs := hw i (lt_length_of_get hi)
  obtain ⟨n, hn⟩ := length_pos_of_get hi
  rw [hn] at hs
  unfold Chain.holderAux at hs
  rw [hi] at hs
  simp only [hp] at hs
  exact lt_length_of_holder hs

end Heap

namespace PhyxObj2D
variable {K : Type} [Field K]
open Heap

omit [Field K] in
/-- In a well-formed heap the getter `V()` returns for every body. -/
theorem getV_some {h : Heap K} (hw : WellFormed h) {i : Nat} (hi : i < h.length) :
    ∃ v, getV h i = some v :=
  getVAux_some h.length i (hw i hi)

omit [Field K] in
/-- In a good heap the setter `V(_v)` issued through a body other than `k`
returns and frames the heap. -/
theorem setV_frame {k : Nat} {h : Heap K} (hg : Good k h) {i : Nat} (hi : i < h.length)
    (hik : i ≠ k) (_v : dvec2 K) : ∃ h1, setV h i _v = some h1 ∧ Frame k h h1 :=
  setVAux_frame hg.2.1 _v h.length i hik (hg.1 i hi)

/-- In a good heap `dV(_v)` issued through a body other than `k` returns and
frames the heap. -/
theorem dV_frame {k : Nat} {h : Heap K} (hg : Good k h) {i : Nat} (hi : i < h.length)
    (hik : i ≠ k) (_v : dvec2 K) : ∃ h1, dV h i _v = some h1 ∧ Frame k h h1 :=
  dVAux_frame hg.2.1 _v h.length i hik (hg.1 i hi)

/-- In a well-formed heap the world position of every body resolves. -/
theorem worldPosition2D_some {h : Heap K} (hw : WellFormed h) {i : Nat} (hi : i < h.length) :
    ∃ w, worldPosition2D h i = some w := by
  obtain ⟨b, hb⟩ := get_of_lt hi
  unfold worldPosition2D
  rw [hb]
  simp only
  cases hp : b.parent with
  | phyx j =>
    exact GameObj.worldPosition2DAux_some h.length j b.position (hw j (hw.parent_lt hb hp))
  | other w => cases h.length <;> exact ⟨_, rfl⟩
  | null => cases h.length <;> exact ⟨_, rfl⟩

end PhyxObj2D

namespace Collider
variable {K : Type} [Field K]
open Heap

/-- In a well-formed heap the world position of an attached collider resolves. -/
theorem attached_resolves {h : Heap K} (hw : WellFormed h) {c : Collider K}
    (hc : c.Attached h.length) : ∃ w, c.worldPosition2D h = some w := by
  unfold worldPosition2D
  unfold Attached at hc
  cases hp : c.parent with
  | phyx j =>
    rw [hp] at hc
    exact GameObj.worldPosition2DAux_some h.length j c.position (hw j hc)
  | other w => cases h.length <;> exact ⟨_, rfl⟩
  | null => cases h.length <;> exact ⟨_, rfl⟩

end Collider

namespace PhyxENG
variable {K : Type} [Field K]
open Heap

/-- In a well-formed heap `Gravity2D` returns for every two bodies. -/
theorem Gravity2D_some (sqrt : K → K) (eng : PhyxENG K) {h : Heap K} (hw : WellFormed h)
    {a b : Nat} (ha : a < h.length) (hb : b < h.length) :
    ∃ g, Gravity2D sqrt eng h a b = some g := by
  obtain ⟨wa, hwa⟩ := PhyxObj2D.worldPosition2D_some hw ha
  obtain ⟨wb, hwb⟩ := PhyxObj2D.worldPosition2D_some hw hb
  obtain ⟨oa, hoa⟩ := get_of_lt ha
  obtain ⟨ob, hob⟩ := get_of_lt hb
  unfold Gravity2D
  rw [hwa, hwb, hoa, hob]
  exact ⟨_, rfl⟩

omit [Field K] in
/-- Two calls that return and frame the heap do so one after the other. -/
theorem bind_frame {k : Nat} {h : Heap K} {f : Option (Heap K)} {g : Heap K → Option (Heap K)}
    (hf : ∃ h1, f = some h1 ∧ Frame k h h1 ∧ ∃ h2, g h1 = some h2 ∧ Frame k h1 h2) :
    ∃ h2, f.bind g = some h2 ∧ Frame k h h2 := by
  obtain ⟨h1, hf1, hfr1, h2, hg2, hfr2⟩ := hf
  exact ⟨h2, by rw [hf1]; exact hg2, hfr1.trans hfr2⟩

/-- The gravity step returns and frames a good heap. -/
theorem gravityStep_frame (sqrt : K → K) (eng : PhyxENG K) {k : Nat} {h : Heap K}
    (hg : Good k h) {p q : Nat} (hp : p < h.length) (hq : q < h.length) :
    ∃ h1, gravityStep sqrt eng h p q = some h1 ∧ Frame k h h1 := by
  obtain ⟨g, hgr⟩ := Gravity2D_some sqrt eng hg.1 hp hq
  obtain ⟨op, hop⟩ := get_of_lt hp
  obtain ⟨oq, hoq⟩ := get_of_lt hq
  have hstep : ∀ (c : Bool) (i : Nat) (f : dvec2 K) (h0 : Heap K), i < h0.length →
      ∃ h1, (if c then PhyxObj2D.AddForce h0 i f else some h0) = some h1 ∧ Frame k h0 h1 := by
    intro c i f h0 hi
    cases c
    · exact ⟨h0, rfl, Frame.refl k h0⟩
    · exact PhyxObj2D.AddForce_frame k hi f
  unfold gravityStep
  rw [hgr, hop, hoq]
  simp only
  cases hpar : op.parent with
  | phyx j => exact ⟨h, rfl, Frame.refl k h⟩
  | other w => exact ⟨h, rfl, Frame.refl k h⟩
  | null =>
    simp only
    cases eng.gravitymode with
    | Everything =>
      simp only
      apply bind_frame
      obtain ⟨h1, e1, f1⟩ := hstep (!op.isKinematic) p g h hp
      refine ⟨h1, e1, f1, ?_⟩
      exact hstep (!oq.isKinematic) q (-g) h1 (by rw [f1.1]; exact hq)
    | Orbiting =>
      simp only
      apply bind_frame
      obtain ⟨h1, e1, f1⟩ := hstep (op.Orbiting q && !op.isKinematic) p g h hp
      refine ⟨h1, e1, f1, ?_⟩
      exact hstep (oq.Orbiting p && !oq.isKinematic) q (-g) h1 (by rw [f1.1]; exact hq)
    | Directional =>
      exact PhyxObj2D.AddForce_frame k hp _

end PhyxENG

namespace PhyxENG
variable {K : Type} [Field K]
open Heap

/-- `StaticResolution` returns and frames a good heap when the colliders are
attached and a contact of the body at `k` is a contact of two circles. -/
theorem StaticResolution_frame (sqrt : K → K) {k : Nat} {h : Heap K} (hg : Good k h)
    {p q : Nat} (hp : p < h.length) (hq : q < h.length) {pc qc : Collider K}
    (hpc : pc.Attached h.length) (hqc : qc.Attached h.length)
    (hcirc : p = k ∨ q = k → pc.Dim ≠ none ∧ qc.Dim ≠ none) :
    ∃ h1, StaticResolution sqrt h p pc q qc = some h1 ∧ Frame k h h1 := by
  obtain ⟨pw, hpw⟩ := Collider.attached_resolves hg.1 hpc
  obtain ⟨qw, hqw⟩ := Collider.attached_resolves hg.1 hqc
  obtain ⟨op, hop⟩ := get_of_lt hp
  obtain ⟨oq, hoq⟩ := get_of_lt hq
  have hfallback : pc.Dim = none ∨ qc.Dim = none → ∀ d e : dvec2 K,
      ∃ h1, ((PhyxObj2D.Move h p d).bind fun h0 => PhyxObj2D.Move h0 q e) = some h1
        ∧ Frame k h h1 := by
    intro hnone d e
    have hpk : p ≠ k := fun hc => by
      rcases hnone with hn | hn
      · exact (hcirc (Or.inl hc)).1 hn
      · exact (hcirc (Or.inl hc)).2 hn
    have hqk : q ≠ k := fun hc => by
      rcases hnone with hn | hn
      · exact (hcirc (Or.inr hc)).1 hn
      · exact (hcirc (Or.inr hc)).2 hn
    apply bind_frame
    obtain ⟨h1, e1, f1⟩ := PhyxObj2D.Move_frame hp hpk d
    exact ⟨h1, e1, f1, PhyxObj2D.Move_frame (by rw [f1.1]; exact hq) hqk e⟩
  unfold StaticResolution
  rw [hpw, hqw, hop, hoq]
  simp only
  cases hpd : pc.Dim with
  | none => exact hfallback (Or.inl hpd) _ _
  | some pDim =>
    cases hqd : qc.Dim with
    | none => exact hfallback (Or.inr hqd) _ _
    | some qDim =>
      simp only [PhyxObj2D.isKinematic]
      have hpcase : op.kinematic = false ∨ op.kinematic = true := by
        cases op.kinematic <;> simp
      have hqcase : oq.kinematic = false ∨ oq.kinematic = true := by
        cases oq.kinematic <;> simp
      rcases hpcase with hpkin | hpkin <;> rcases hqcase with hqkin | hqkin
      · simp only [hpkin, hqkin, Bool.not_false, Bool.and_self, if_true]
        apply bind_frame
        obtain ⟨h1, e1, f1⟩ := PhyxObj2D.Move_frame hp (hg.ne_of_not_kinematic hop hpkin)
          (normalize sqrt (pw - qw) * ((pDim + qDim - glm.length sqrt (pw - qw)) * 1.01)
            * (oq.mass / (op.mass + oq.mass)))
        exact ⟨h1, e1, f1, PhyxObj2D.Move_frame (by rw [f1.1]; exact hq)
          (hg.ne_of_not_kinematic hoq hqkin) _⟩
      · simp only [hpkin, hqkin, Bool.not_false, Bool.not_true, Bool.and_false, Bool.false_or,
          Bool.true_or, Bool.and_true, if_true, if_false, Bool.false_eq_true]
        exact PhyxObj2D.Move_frame hp (hg.ne_of_not_kinematic hop hpkin) _
      · simp only [hpkin, hqkin, Bool.not_false, Bool.not_true, Bool.and_false, Bool.false_and,
          Bool.true_or, Bool.and_true, if_true, if_false, Bool.false_eq_true]
        exact PhyxObj2D.Move_frame hq (hg.ne_of_not_kinematic hoq hqkin) _
      · simp only [hpkin, hqkin, Bool.not_true, Bool.and_false, Bool.false_and, Bool.true_or,
          if_false, Bool.false_eq_true]
        exact ⟨h, rfl, Frame.refl k h⟩

/-- `DynamicResolution` returns and frames a good heap when the colliders are
attached and a contact of the body at `k` is a contact of two circles. -/
theorem DynamicResolution_frame (sqrt : K → K) (eng : PhyxENG K) {k : Nat} {h : Heap K}
    (hg : Good k h) {p q : Nat} (hp : p < h.length) (hq : q < h.length) {pc qc : Collider K}
    (hpc : pc.Attached h.length) (hqc : qc.Attached h.length)
    (hcirc : p = k ∨ q = k → pc.Dim ≠ none ∧ qc.Dim ≠ none) :
    ∃ h1, DynamicResolution sqrt eng h p pc q qc = some h1 ∧ Frame k h h1 := by
  obtain ⟨pw, hpw⟩ := Collider.attached_resolves hg.1 hpc
  obtain ⟨qw, hqw⟩ := Collider.attached_resolves hg.1 hqc
  obtain ⟨op, hop⟩ := get_of_lt hp
  obtain ⟨oq, hoq⟩ := get_of_lt hq
  have hfallback : pc.Dim = none ∨ qc.Dim = none →
      ∃ h1, ((PhyxObj2D.ResetV h p).bind fun h1 =>
        (PhyxObj2D.ResetV h1 q).bind fun h2 =>
        (PhyxObj2D.ResetA h2 p).bind fun h3 =>
        PhyxObj2D.ResetA h3 q) = some h1 ∧ Frame k h h1 := by
    intro hnone
    have hpk : p ≠ k := fun hc => by
      rcases hnone with hn | hn
      · exact (hcirc (Or.inl hc)).1 hn
      · exact (hcirc (Or.inl hc)).2 hn
    have hqk : q ≠ k := fun hc => by
      rcases hnone with hn | hn
      · exact (hcirc (Or.inr hc)).1 hn
      · exact (hcirc (Or.inr hc)).2 hn
    apply bind_frame
    obtain ⟨h1, e1, f1⟩ := PhyxObj2D.ResetV_frame hp hpk
    refine ⟨h1, e1, f1, ?_⟩
    apply bind_frame
    obtain ⟨h2, e2, f2⟩ := PhyxObj2D.ResetV_frame (h := h1) (by rw [f1.1]; exact hq) hqk
    refine ⟨h2, e2, f2, ?_⟩
    apply bind_frame
    obtain ⟨h3, e3, f3⟩ := PhyxObj2D.ResetA_frame k (h := h2) (i := p)
      (by rw [f2.1, f1.1]; exact hp)
    exact ⟨h3, e3, f3, PhyxObj2D.ResetA_frame k (by rw [f3.1, f2.1, f1.1]; exact hq)⟩
  unfold DynamicResolution
  rw [hpw, hqw, hop, hoq]
  simp only
  cases hpd : pc.Dim with
  | none => exact hfallback (Or.inl hpd)
  | some pDim =>
    cases hqd : qc.Dim with
    | none => exact hfallback (Or.inr hqd)
    | some qDim =>
      obtain ⟨pV, hpV⟩ := PhyxObj2D.getV_some hg.1 hp
      obtain ⟨qV, hqV⟩ := PhyxObj2D.getV_some hg.1 hq
      simp only [hpV, hqV, PhyxObj2D.isKinematic]
      apply bind_frame
      have hpcase : op.kinematic = false ∨ op.kinematic = true := by
        cases op.kinematic <;> simp
      have hqcase : oq.kinematic = false ∨ oq.kinematic = true := by
        cases oq.kinematic <;> simp
      have h1 : ∀ v : dvec2 K, ∃ h1, (if (!op.kinematic) = true then PhyxObj2D.setV h p v
          else some h) = some h1 ∧ Frame k h h1 := by
        intro v
        rcases hpcase with hpkin | hpkin
        · simp only [hpkin, Bool.not_false, if_true]
          exact PhyxObj2D.setV_frame hg hp (hg.ne_of_not_kinematic hop hpkin) v
        · simp only [hpkin, Bool.not_true, if_false, Bool.false_eq_true]
          exact ⟨h, rfl, Frame.refl k h⟩
      obtain ⟨h1, e1, f1⟩ := h1
        ((({ x := (normalize sqrt (pw - qw)).y * -1, y := (normalize sqrt (pw - qw)).x } : dvec2 K)
            * dot pV { x := (normalize sqrt (pw - qw)).y * -1, y := (normalize sqrt (pw - qw)).x }
          + normalize sqrt (pw - qw)
            * ((dot pV (normalize sqrt (pw - qw)) * (op.mass - oq.mass)
                + 2 * oq.mass * dot qV (normalize sqrt (pw - qw))) / (op.mass + oq.mass)))
          * eng.colEl)
      refine ⟨h1, e1, f1, ?_⟩
      rcases hqcase with hqkin | hqkin
      · simp only [hqkin, Bool.not_false, if_true]
        have hg1 := hg.frame f1
        obtain ⟨oq1, hoq1, hk1⟩ := f1.kinematic hoq
        exact PhyxObj2D.setV_frame hg1 (by rw [f1.1]; exact hq)
          (hg1.ne_of_not_kinematic hoq1 (hk1.trans hqkin)) _
      · simp only [hqkin, Bool.not_true, if_false, Bool.false_eq_true]
        exact ⟨h1, rfl, Frame.refl k h1⟩

end PhyxENG

namespace PhyxObj2D
variable {K : Type} [Field K]
open Heap

/-- The integration step of a body other than `k` returns and frames a good heap. -/
theorem integrate_frame {k : Nat} {h : Heap K} (hg : Good k h) {i : Nat} (hi : i < h.length)
    (hik : i ≠ k) (dt : K) : ∃ h1, Update h i dt = some h1 ∧ Frame k h h1 := by
  obtain ⟨b, hb⟩ := get_of_lt hi
  obtain ⟨h1, e1, f1⟩ := dV_frame hg hi hik (b.a * dt)
  obtain ⟨b1, hb1⟩ := get_of_lt (h := h1) (i := i) (by rw [f1.1]; exact hi)
  unfold Update
  rw [hb]
  simp only [e1, hb1]
  cases hp : b1.parent with
  | phyx j => exact ⟨h1, rfl, f1⟩
  | other w => exact ⟨h1, rfl, f1⟩
  | null =>
    obtain ⟨h2, e2, f2⟩ := Move_frame (h := h1) (by rw [f1.1]; exact hi) hik (b1.v * dt)
    exact ⟨h2, e2, f1.trans f2⟩

end PhyxObj2D

namespace PhyxENG
variable {K : Type} [Field K]
open Heap

/-- The contact handling returns and frames a good heap. -/
theorem contactStep_frame (sqrt : K → K) (eng : PhyxENG K) {k : Nat} {h : Heap K}
    (hg : Good k h) {p q : Nat} (hp : p < h.length) (hq : q < h.length)
    (hatt : eng.ServiceAttached h.length) (hcirc : eng.CircleContactsOf k) :
    ∃ h1, contactStep sqrt eng h p q = some h1 ∧ Frame k h h1 := by
  unfold contactStep
  cases hmsg : eng.CollisionBetween h p q with
  | none => exact ⟨h, rfl, Frame.refl k h⟩
  | some pqData =>
    simp only
    have hclip : eng.clipping = false ∨ eng.clipping = true := by
      cases eng.clipping <;> simp
    rcases hclip with hclip | hclip
    · simp only [hclip, if_false, Bool.false_eq_true]
      exact ⟨h, rfl, Frame.refl k h⟩
    · simp only [hclip, if_true]
      obtain ⟨hap, haq⟩ := hatt h p q pqData rfl hp hq hmsg
      have hc : p = k ∨ q = k → pqData.P.2.Dim ≠ none ∧ pqData.Q.2.Dim ≠ none :=
        fun hpq => hcirc hclip h p q pqData hpq hmsg
      apply bind_frame
      obtain ⟨h1, e1, f1⟩ := StaticResolution_frame sqrt hg hp hq hap haq hc
      refine ⟨h1, e1, f1, ?_⟩
      exact DynamicResolution_frame sqrt eng (hg.frame f1) (by rw [f1.1]; exact hp)
        (by rw [f1.1]; exact hq) (by rw [f1.1]; exact hap) (by rw [f1.1]; exact haq) hc

/-- The inner loop returns and frames a good heap. -/
theorem innerLoop_frame (sqrt : K → K) (eng : PhyxENG K) {k : Nat} (p : Nat)
    (hcirc : eng.CircleContactsOf k) :
    ∀ (qs : List Nat) (h : Heap K), Good k h → p < h.length → (∀ q ∈ qs, q < h.length) →
      eng.ServiceAttached h.length →
      ∃ h1, innerLoop sqrt eng p qs h = some h1 ∧ Frame k h h1
  | [], h, _, _, _, _ => ⟨h, rfl, Frame.refl k h⟩
  | q :: qs, h, hg, hp, hqs, hatt => by
    have hq : q < h.length := hqs q (List.mem_cons_self q qs)
    unfold innerLoop
    apply bind_frame
    obtain ⟨h1, e1, f1⟩ := gravityStep_frame sqrt eng hg hp hq
    refine ⟨h1, e1, f1, ?_⟩
    apply bind_frame
    obtain ⟨h2, e2, f2⟩ := contactStep_frame sqrt eng (hg.frame f1) (p := p) (q := q)
      (by rw [f1.1]; exact hp) (by rw [f1.1]; exact hq) (by rw [f1.1]; exact hatt) hcirc
    refine ⟨h2, e2, f2, ?_⟩
    have hlen : h2.length = h.length := f2.1.trans f1.1
    exact innerLoop_frame sqrt eng p hcirc qs h2 ((hg.frame f1).frame f2)
      (by rw [hlen]; exact hp)
      (fun x hx => by rw [hlen]; exact hqs x (List.mem_cons_of_mem q hx))
      (by rw [hlen]; exact hatt)

/-- The end of a turn of the outer loop returns and frames a good heap. -/
theorem finishBody_frame {k : Nat} {h : Heap K} (hg : Good k h) {p : Nat} (hp : p < h.length)
    (dd : K) : ∃ h1, finishBody h p dd = some h1 ∧ Frame k h h1 := by
  obtain ⟨op, hop⟩ := get_of_lt hp
  unfold finishBody
  rw [hop]
  simp only [PhyxObj2D.isKinematic]
  apply bind_frame
  have hcase : op.kinematic = false ∨ op.kinematic = true := by
    cases op.kinematic <;> simp
  have h1 : ∃ h1, (if (!op.kinematic) = true then PhyxObj2D.Update h p dd else some h) = some h1
      ∧ Frame k h h1 := by
    rcases hcase with hkin | hkin
    · simp only [hkin, Bool.not_false, if_true]
      exact PhyxObj2D.integrate_frame hg hp (hg.ne_of_not_kinematic hop hkin) dd
    · simp only [hkin, Bool.not_true, if_false, Bool.false_eq_true]
      exact ⟨h, rfl, Frame.refl k h⟩
  obtain ⟨h1, e1, f1⟩ := h1
  exact ⟨h1, e1, f1, PhyxObj2D.ResetA_frame k (by rw [f1.1]; exact hp)⟩

/-- The outer loop returns and frames a good heap. -/
theorem outerLoop_frame (sqrt : K → K) (eng : PhyxENG K) {k : Nat} (dd : K)
    (hcirc : eng.CircleContactsOf k) :
    ∀ (ps : List Nat) (h : Heap K), Good k h → (∀ p ∈ ps, p < h.length) →
      eng.ServiceAttached h.length →
      ∃ h1, outerLoop sqrt eng dd ps h = some h1 ∧ Frame k h h1
  | [], h, _, _, _ => ⟨h, rfl, Frame.refl k h⟩
  | p :: rest, h, hg, hps, hatt => by
    have hp : p < h.length := hps p (List.mem_cons_self p rest)
    have hrest : ∀ x ∈ rest, x < h.length := fun x hx => hps x (List.mem_cons_of_mem p hx)
    unfold outerLoop
    apply bind_frame
    obtain ⟨h1, e1, f1⟩ := innerLoop_frame sqrt eng p hcirc rest h hg hp hrest hatt
    refine ⟨h1, e1, f1, ?_⟩
    apply bind_frame
    obtain ⟨h2, e2, f2⟩ := finishBody_frame (hg.frame f1) (p := p) (by rw [f1.1]; exact hp) dd
    refine ⟨h2, e2, f2, ?_⟩
    have hlen : h2.length = h.length := f2.1.trans f1.1
    exact outerLoop_frame sqrt eng dd hcirc rest h2 ((hg.frame f1).frame f2)
      (fun x hx => by rw [hlen]; exact hrest x hx) (by rw [hlen]; exact hatt)

/-- One update call returns and frames a good heap. -/
theorem Update_frame (sqrt : K → K) (eng : PhyxENG K) {k : Nat} (dd : K) {h : Heap K}
    (hg : Good k h) (hm : ∀ p ∈ eng.managed, p < h.length)
    (hatt : eng.ServiceAttached h.length) (hcirc : eng.CircleContactsOf k) :
    ∃ h1, Update sqrt eng dd h = some h1 ∧ Frame k h h1 :=
  outerLoop_frame sqrt eng dd hcirc eng.managed h hg hm hatt

/-- A run of update calls returns and frames a good heap. -/
theorem Updates_frame (sqrt : K → K) {k : Nat} :
    ∀ (frames : List (PhyxENG K × K)) (h : Heap K), Good k h →
      (∀ f ∈ frames, (∀ p ∈ f.1.managed, p < h.length) ∧ f.1.ServiceAttached h.length
        ∧ f.1.CircleContactsOf k) →
      ∃ h1, Updates sqrt frames h = some h1 ∧ Frame k h h1
  | [], h, _, _ => ⟨h, rfl, Frame.refl k h⟩
  | (eng, dd) :: rest, h, hg, hall => by
    obtain ⟨hm, hatt, hcirc⟩ := hall (eng, dd) (List.mem_cons_self _ _)
    unfold Updates
    apply bind_frame
    obtain ⟨h1, e1, f1⟩ := Update_frame sqrt eng dd hg hm hatt hcirc
    refine ⟨h1, e1, f1, ?_⟩
    refine Updates_frame sqrt rest h1 (hg.frame f1) (fun f hf => ?_)
    rw [f1.1]
    exact hall f (List.mem_cons_of_mem _ hf)

omit [Field K] in
/-- What a frame says of the body at `k`. -/
theorem kept_of_frame {k : Nat} {h h1 : Heap K} (hf : Frame k h h1) {bk : PhyxObj2D K}
    (hk : h[k]? = some bk) :
    ∃ bk1, h1[k]? = some bk1 ∧ bk1.position = bk.position ∧ bk1.v = bk.v := by
  have hm := hf.2.2
  rw [hk] at hm
  cases hb1 : h1[k]? with
  | none => rw [hb1] at hm; cases hm
  | some bk1 =>
    rw [hb1] at hm
    have hmo : motion bk1 = motion bk := Option.some.inj hm
    exact ⟨bk1, rfl, congrArg Prod.fst hmo, congrArg Prod.snd hmo⟩

end PhyxENG

/-! ## Kinematic bodies under an update -/

namespace PhyxENG

/-- Counterexample to C3 as stated. First, a kinematic body in a reported
contact of colliders that are not circles: one update call moves it from
`(0, 0)` to `(-1, 0)` and resets its velocity `(1, 0)` to zero. Second, a
kinematic carrier with a non-kinematic body welded to it, no contact at all:
the gravity accumulated by the welded body is integrated into the carrier's
velocity, which goes from `(0, 0)` to `(-2, 0)`. -/
theorem Update_changes_kinematic_body :
    ((Scenario.wall : Heap ℝ)[0]?.map (fun b => (b.kinematic, b.position, b.v))
        = some (true, ⟨0, 0⟩, ⟨1, 0⟩)
      ∧ Update Real.sqrt
          (Scenario.engine [0, 1] 1 GravityMode.Everything true 1 Scenario.boxContact) 1
          (Scenario.wall : Heap ℝ)
        = some [Scenario.kinematicBody ⟨-1, 0⟩ ⟨0, 0⟩ 1, Scenario.freeBody ⟨2, 0⟩ ⟨0, 0⟩ 1])
    ∧ ((Scenario.carried : Heap ℝ)[0]?.map (fun b => (b.kinematic, b.position, b.v))
        = some (true, ⟨0, 0⟩, ⟨0, 0⟩)
      ∧ Update Real.sqrt
          (Scenario.engine [0, 1] 1 GravityMode.Everything true 1 Scenario.noContact) 1
          (Scenario.carried : Heap ℝ)
        = some [Scenario.kinematicBody ⟨0, 0⟩ ⟨-2, 0⟩ 1,
            Scenario.childBody 0 ⟨2, 0⟩ ⟨0, 0⟩ 1]) := by
  have h4 : Real.sqrt (2 * 2) = 2 := sqrt_of_mul_self (by norm_num) (by norm_num)
  refine ⟨⟨rfl, ?_⟩, ⟨rfl, ?_⟩⟩
  · simp [Update, outerLoop, innerLoop, gravityStep, contactStep, finishBody, Gravity2D,
      StaticResolution, DynamicResolution, Scenario.engine, Scenario.wall, Scenario.freeBody,
      Scenario.kinematicBody, Scenario.boxContact, Scenario.boxOn,
      PhyxObj2D.worldPosition2D, Collider.worldPosition2D, GameObj.worldPosition2DAux,
      PhyxObj2D.isKinematic, PhyxObj2D.Move, PhyxObj2D.AddForce, PhyxObj2D.Update,
      PhyxObj2D.dV, PhyxObj2D.dVAux, PhyxObj2D.ResetA, PhyxObj2D.ResetV, PhyxObj2D.Mass,
      glm.normalize, glm.inversesqrt, glm.length, glm.dot]
    norm_num
  · simp [Update, outerLoop, innerLoop, gravityStep, contactStep, finishBody, Gravity2D,
      Scenario.engine, Scenario.carried, Scenario.freeBody, Scenario.kinematicBody,
      Scenario.childBody, Scenario.noContact,
      PhyxObj2D.worldPosition2D, Collider.worldPosition2D, GameObj.worldPosition2DAux,
      PhyxObj2D.isKinematic, PhyxObj2D.Move, PhyxObj2D.AddForce, PhyxObj2D.Update,
      PhyxObj2D.dV, PhyxObj2D.dVAux, PhyxObj2D.ResetA, PhyxObj2D.Mass, glm.length, glm.dot, h4]
    norm_num

/-- C3, as amended. Kinematic immutability: in a well-formed heap (valid
pointers, acyclic parent chains), for every registry of valid pointers, every
gravity mode, resolution flag, restitution, gravitational constant and elapsed
time, and every collision service whose colliders are attached to the heap, a
body `k` whose kinematic flag is set, that is the parent of no body, and whose
reported contacts (while resolution is enabled) are contacts of two circles,
has the same stored position and the same stored velocity after
`PhyxENG::Update` as before it; the call returns. The same holds after any run
of further update calls, each with its own configuration. -/
theorem Update_keeps_kinematic {K : Type} [Field K] (sqrt : K → K) (eng : PhyxENG K) (dd : K)
    (more : List (PhyxENG K × K)) (h : Heap K) (k : Nat) (bk : PhyxObj2D K)
    (hk : h[k]? = some bk) (hkin : bk.kinematic = true)
    (hw : Heap.WellFormed h) (hn : Heap.NoChild h k)
    (hm : ∀ p ∈ eng.managed, p < h.length)
    (hatt : eng.ServiceAttached h.length) (hcirc : eng.CircleContactsOf k)
    (hmore : ∀ f ∈ more, (∀ p ∈ f.1.managed, p < h.length) ∧ f.1.ServiceAttached h.length
      ∧ f.1.CircleContactsOf k) :
    (∃ h1 bk1, Update sqrt eng dd h = some h1
      ∧ h1[k]? = some bk1 ∧ bk1.position = bk.position ∧ bk1.v = bk.v)
    ∧ ∃ h2 bk2, Updates sqrt ((eng, dd) :: more) h = some h2
      ∧ h2[k]? = some bk2 ∧ bk2.position = bk.position ∧ bk2.v = bk.v := by
  have hg : Heap.Good k h := ⟨hw, hn, bk, hk, hkin⟩
  constructor
  · obtain ⟨h1, e1, f1⟩ := Update_frame sqrt eng dd hg hm hatt hcirc
    obtain ⟨bk1, hb1, hpos, hv⟩ := kept_of_frame f1 hk
    exact ⟨h1, bk1, e1, hb1, hpos, hv⟩
  · obtain ⟨h2, e2, f2⟩ := Updates_frame sqrt ((eng, dd) :: more) h hg (by
      intro f hf
      rcases List.mem_cons.mp hf with hf | hf
      · subst hf
        exact ⟨hm, hatt, hcirc⟩
      · exact hmore f hf)
    obtain ⟨bk2, hb2, hpos, hv⟩ := kept_of_frame f2 hk
    exact ⟨h2, bk2, e2, hb2, hpos, hv⟩

/-- Witness of C3 as amended: the kinematic body of `Scenario.wall` in circle
contact with the free body, two update calls in two gravity modes. -/
theorem Update_keeps_kinematic_witness :
    (∃ h1 bk1,
      Update Real.sqrt
          (Scenario.engine [0, 1] 1 GravityMode.Everything true 1 (Scenario.circleContact 1)) 1
          (Scenario.wall : Heap ℝ) = some h1
      ∧ h1[0]? = some bk1
      ∧ bk1.position = (Scenario.kinematicBody (⟨0, 0⟩ : dvec2 ℝ) ⟨1, 0⟩ 1).position
      ∧ bk1.v = (Scenario.kinematicBody (⟨0, 0⟩ : dvec2 ℝ) ⟨1, 0⟩ 1).v)
    ∧ ∃ h2 bk2,
      Updates Real.sqrt
          [(Scenario.engine [0, 1] 1 GravityMode.Everything true 1 (Scenario.circleContact 1), 1),
           (Scenario.engine [1, 0] 2 GravityMode.Directional true 1 (Scenario.circleContact 1), 2)]
          (Scenario.wall : Heap ℝ) = some h2
      ∧ h2[0]? = some bk2
      ∧ bk2.position = (Scenario.kinematicBody (⟨0, 0⟩ : dvec2 ℝ) ⟨1, 0⟩ 1).position
      ∧ bk2.v = (Scenario.kinematicBody (⟨0, 0⟩ : dvec2 ℝ) ⟨1, 0⟩ 1).v :=
  Update_keeps_kinematic Real.sqrt
    (Scenario.engine [0, 1] 1 GravityMode.Everything true 1 (Scenario.circleContact 1)) 1
    [(Scenario.engine [1, 0] 2 GravityMode.Directional true 1 (Scenario.circleContact 1), 2)]
    Scenario.wall 0 (Scenario.kinematicBody ⟨0, 0⟩ ⟨1, 0⟩ 1) rfl rfl
    (by
      intro i hi
      simp only [Scenario.wall, List.length_cons, List.length_nil] at hi
      interval_cases i <;>
        simp [Chain.holderAux, Scenario.wall, Scenario.kinematicBody, Scenario.freeBody])
    (by
      intro i b hb
      have hi := Heap.lt_length_of_get hb
      simp only [Scenario.wall, List.length_cons, List.length_nil] at hi
      interval_cases i <;>
        simp [Scenario.wall, Scenario.kinematicBody, Scenario.freeBody] at hb <;>
        subst hb <;> simp)
    (by simp [Scenario.engine, Scenario.wall])
    (by
      intro h p q pqData _ hp hq hmsg
      simp only [Scenario.engine, Scenario.circleContact, Option.some.injEq] at hmsg
      subst hmsg
      exact ⟨hp, hq⟩)
    (by
      intro _ h p q pqData _ hmsg
      simp only [Scenario.engine, Scenario.circleContact, Option.some.injEq] at hmsg
      subst hmsg
      simp [Scenario.circleOn])
    (by
      intro f hf
      rw [List.mem_singleton] at hf
      subst hf
      refine ⟨by simp [Scenario.engine, Scenario.wall], ?_, ?_⟩
      · intro h p q pqData _ hp hq hmsg
        simp only [Scenario.engine, Scenario.circleContact, Option.some.injEq] at hmsg
        subst hmsg
        exact ⟨hp, hq⟩
      · intro _ h p q pqData _ hmsg
        simp only [Scenario.engine, Scenario.circleContact, Option.some.injEq] at hmsg
        subst hmsg
        simp [Scenario.circleOn])

end PhyxENG

/-! ## Kinetic energy under restitution -/

namespace PhyxENG

/-- The squared norm of a velocity recombined from a tangential part `a` and a
normal part `b` and scaled by `e`. -/
theorem recombined_norm (n : dvec2 ℝ) (a b e : ℝ) (hn : n.x * n.x + n.y * n.y = 1) :
    dot (((⟨n.y * (-1), n.x⟩ : dvec2 ℝ) * a + n * b) * e)
        (((⟨n.y * (-1), n.x⟩ : dvec2 ℝ) * a + n * b) * e)
      = e ^ 2 * (a * a + b * b) := by
  simp only [dvec2.add_x, dvec2.add_y, dvec2.mul_x, dvec2.mul_y, dot]
  linear_combination (e ^ 2 * (a * a + b * b)) * hn

/-- The squared norm of a velocity is the sum of the squares of its tangential
and normal components. -/
theorem norm_decomposed (n v : dvec2 ℝ) (hn : n.x * n.x + n.y * n.y = 1) :
    dot v v = dot v ⟨n.y * (-1), n.x⟩ * dot v ⟨n.y * (-1), n.x⟩ + dot v n * dot v n := by
  simp only [dot]
  linear_combination (-(v.x * v.x + v.y * v.y)) * hn

/-- The one-dimensional elastic formula keeps the kinetic energy of the normal
components. -/
theorem elastic_normal_energy (b d mp mq : ℝ) (hm : mp + mq ≠ 0) :
    mp * (((b * (mp - mq) + 2 * mq * d) / (mp + mq)) * ((b * (mp - mq) + 2 * mq * d) / (mp + mq)))
      + mq * (((d * (mq - mp) + 2 * mp * b) / (mp + mq))
        * ((d * (mq - mp) + 2 * mp * b) / (mp + mq)))
      = mp * (b * b) + mq * (d * d) := by
  field_simp
  ring

/-- The kinetic energy of the two velocities a circle contact gives: pure
algebra on the formula of `DynamicResolution`. -/
theorem energy_algebra (n vp vq : dvec2 ℝ) (mp mq e : ℝ) (hm : mp + mq ≠ 0)
    (hn : n.x * n.x + n.y * n.y = 1) :
    mp * dot (((⟨n.y * (-1), n.x⟩ : dvec2 ℝ) * dot vp ⟨n.y * (-1), n.x⟩
          + n * ((dot vp n * (mp - mq) + 2 * mq * dot vq n) / (mp + mq))) * e)
        (((⟨n.y * (-1), n.x⟩ : dvec2 ℝ) * dot vp ⟨n.y * (-1), n.x⟩
          + n * ((dot vp n * (mp - mq) + 2 * mq * dot vq n) / (mp + mq))) * e)
      + mq * dot (((⟨n.y * (-1), n.x⟩ : dvec2 ℝ) * dot vq ⟨n.y * (-1), n.x⟩
          + n * ((dot vq n * (mq - mp) + 2 * mp * dot vp n) / (mp + mq))) * e)
        (((⟨n.y * (-1), n.x⟩ : dvec2 ℝ) * dot vq ⟨n.y * (-1), n.x⟩
          + n * ((dot vq n * (mq - mp) + 2 * mp * dot vp n) / (mp + mq))) * e)
      = e ^ 2 * (mp * dot vp vp + mq * dot vq vq) := by
  rw [recombined_norm n _ _ e hn, recombined_norm n _ _ e hn, norm_decomposed n vp hn,
    norm_decomposed n vq hn]
  have hel := elastic_normal_energy (dot vp n) (dot vq n) mp mq hm
  linear_combination (e ^ 2) * hel

/-- C14. Kinetic energy under restitution: for two distinct, non-kinematic,
unparented bodies with positive masses whose contact colliders are circles at
distinct world positions, and restitution `colEl = e`, `DynamicResolution`
returns and keeps both masses; the total kinetic energy
`mass_p * |V_p|^2 + mass_q * |V_q|^2` after it is `e^2` times the one before it
(so it is conserved for `e = 1`); and each velocity after it is `e` times the
velocity the same call gives with restitution 1. -/
theorem DynamicResolution_energy_scaled (eng : PhyxENG ℝ) (h : Heap ℝ) (p q : Nat)
    (pc qc : Collider ℝ) (op oq : PhyxObj2D ℝ) (pw qw : dvec2 ℝ) (rp rq : ℝ)
    (hpq : p ≠ q) (hp : h[p]? = some op) (hq : h[q]? = some oq)
    (hpk : op.kinematic = false) (hqk : oq.kinematic = false)
    (hpp : op.parent = Parent.null) (hqp : oq.parent = Parent.null)
    (hmp : 0 < op.mass) (hmq : 0 < oq.mass)
    (hpc : pc.Dim = some rp) (hqc : qc.Dim = some rq)
    (hpw : pc.worldPosition2D h = some pw) (hqw : qc.worldPosition2D h = some qw)
    (hne : pw ≠ qw) :
    ∃ h1 op1 oq1 h2 op2 oq2,
      DynamicResolution Real.sqrt eng h p pc q qc = some h1
      ∧ h1[p]? = some op1 ∧ h1[q]? = some oq1
      ∧ DynamicResolution Real.sqrt { eng with colEl := 1 } h p pc q qc = some h2
      ∧ h2[p]? = some op2 ∧ h2[q]? = some oq2
      ∧ op1.mass = op.mass ∧ oq1.mass = oq.mass
      ∧ op1.mass * dot op1.v op1.v + oq1.mass * dot oq1.v oq1.v
        = eng.colEl ^ 2 * (op.mass * dot op.v op.v + oq.mass * dot oq.v oq.v)
      ∧ op1.v = op2.v * eng.colEl ∧ oq1.v = oq2.v * eng.colEl := by
  have hq1 : ∀ c, (h.set p c)[q]? = some oq := fun c => (Heap.get_set_ne hpq c).trans hq
  refine ⟨_, _, _, _, _, _,
    DynamicResolution_circle_free eng h p q pc qc op oq pw qw rp rq hpq hp hq
      hpk hqk hpp hqp hpc hqc hpw hqw,
    (Heap.get_set_ne (Ne.symm hpq) _).trans (Heap.get_set_self hp _),
    Heap.get_set_self (hq1 _) _,
    DynamicResolution_circle_free { eng with colEl := 1 } h p q pc qc op oq pw qw rp rq hpq hp hq
      hpk hqk hpp hqp hpc hqc hpw hqw,
    (Heap.get_set_ne (Ne.symm hpq) _).trans (Heap.get_set_self hp _),
    Heap.get_set_self (hq1 _) _, rfl, rfl, ?_, ?_, ?_⟩
  · exact energy_algebra _ _ _ _ _ _ (by positivity) (normalize_unit (sub_ne_zero_of_ne hne))
  · ext <;> simp
  · ext <;> simp

/-- Witness of C14: a unit mass meets a mass 3, the circle centres three apart
on the x-axis, restitution one half. -/
theorem DynamicResolution_energy_scaled_witness :
    ∃ (h1 : Heap ℝ) (op1 oq1 : PhyxObj2D ℝ) (h2 : Heap ℝ) (op2 oq2 : PhyxObj2D ℝ),
      DynamicResolution Real.sqrt
          (Scenario.engine [0, 1] 1 GravityMode.Everything true (1 / 2) Scenario.noContact)
          [Scenario.freeBody ⟨0, 0⟩ ⟨2, 1⟩ 1, Scenario.freeBody ⟨3, 0⟩ ⟨-1, 0⟩ 3]
          0 (Scenario.circleOn 0 2) 1 (Scenario.circleOn 1 2) = some h1
      ∧ h1[0]? = some op1 ∧ h1[1]? = some oq1
      ∧ DynamicResolution Real.sqrt
          { Scenario.engine [0, 1] (1 : ℝ) GravityMode.Everything true (1 / 2) Scenario.noContact
            with colEl := 1 }
          [Scenario.freeBody ⟨0, 0⟩ ⟨2, 1⟩ 1, Scenario.freeBody ⟨3, 0⟩ ⟨-1, 0⟩ 3]
          0 (Scenario.circleOn 0 2) 1 (Scenario.circleOn 1 2) = some h2
      ∧ h2[0]? = some op2 ∧ h2[1]? = some oq2
      ∧ op1.mass = (Scenario.freeBody (⟨0, 0⟩ : dvec2 ℝ) ⟨2, 1⟩ 1).mass
      ∧ oq1.mass = (Scenario.freeBody (⟨3, 0⟩ : dvec2 ℝ) ⟨-1, 0⟩ 3).mass
      ∧ op1.mass * dot op1.v op1.v + oq1.mass * dot oq1.v oq1.v
        = (1 / 2 : ℝ) ^ 2
          * ((Scenario.freeBody (⟨0, 0⟩ : dvec2 ℝ) ⟨2, 1⟩ 1).mass
              * dot (Scenario.freeBody (⟨0, 0⟩ : dvec2 ℝ) ⟨2, 1⟩ 1).v
                (Scenario.freeBody (⟨0, 0⟩ : dvec2 ℝ) ⟨2, 1⟩ 1).v
            + (Scenario.freeBody (⟨3, 0⟩ : dvec2 ℝ) ⟨-1, 0⟩ 3).mass
              * dot (Scenario.freeBody (⟨3, 0⟩ : dvec2 ℝ) ⟨-1, 0⟩ 3).v
                (Scenario.freeBody (⟨3, 0⟩ : dvec2 ℝ) ⟨-1, 0⟩ 3).v)
      ∧ op1.v = op2.v * (1 / 2 : ℝ)
      ∧ oq1.v = oq2.v * (1 / 2 : ℝ) :=
  DynamicResolution_energy_scaled
    (Scenario.engine [0, 1] 1 GravityMode.Everything true (1 / 2) Scenario.noContact)
    [Scenario.freeBody ⟨0, 0⟩ ⟨2, 1⟩ 1, Scenario.freeBody ⟨3, 0⟩ ⟨-1, 0⟩ 3]
    0 1 (Scenario.circleOn 0 2) (Scenario.circleOn 1 2)
    (Scenario.freeBody ⟨0, 0⟩ ⟨2, 1⟩ 1) (Scenario.freeBody ⟨3, 0⟩ ⟨-1, 0⟩ 3)
    ⟨0, 0⟩ ⟨3, 0⟩ 2 2
    (by decide) rfl rfl rfl rfl rfl rfl
    (by norm_num [Scenario.freeBody]) (by norm_num [Scenario.freeBody]) rfl rfl
    (by simp [Collider.worldPosition2D, GameObj.worldPosition2DAux, Scenario.circleOn,
      Scenario.freeBody])
    (by simp [Collider.worldPosition2D, GameObj.worldPosition2DAux, Scenario.circleOn,
      Scenario.freeBody])
    (by simp [dvec2.ext_iff])

end PhyxENG

/-! ## The integration step along a parent chain -/

namespace PhyxObj2D
variable {K : Type} [Field K]

/-- `dV(_v)` of an unparented body adds to its own velocity. -/
theorem dV_of_null {h : Heap K} {i : Nat} {b : PhyxObj2D K} (hi : h[i]? = some b)
    (hb : b.parent = Parent.null) (_v : dvec2 K) :
    dV h i _v = some (h.set i { b with v := b.v + _v }) := by
  obtain ⟨n, hn⟩ := Heap.length_pos_of_get hi
  simp [dV, hn, dVAux, hi, hb]

/-- Counterexample to C11 as stated: the body at 1 is welded to the carrier at
0 and has accumulated the acceleration `(0, -1)`; its integration step with
`dt = 2` returns and changes the stored velocity of the carrier, a body of its
parent chain, from `(0, 0)` to `(0, -2)`. -/
theorem Update_of_child_changes_root :
    (Scenario.towed : Heap ℝ)[1]?.map (fun b => b.parent) = some (Parent.phyx 0)
    ∧ (Scenario.towed : Heap ℝ)[0]?.map (fun b => b.v) = some ⟨0, 0⟩
    ∧ ∃ h1, Update (Scenario.towed : Heap ℝ) 1 2 = some h1
      ∧ h1[0]?.map (fun b => b.v) = some ⟨0, -2⟩ := by
  refine ⟨rfl, rfl, [Scenario.freeBody ⟨0, 0⟩ ⟨0, -2⟩ 1,
    Scenario.pushedChild 0 ⟨1, 0⟩ ⟨0, 0⟩ ⟨0, -1⟩ 1], ?_, rfl⟩
  simp [Update, dV, dVAux, Scenario.towed, Scenario.freeBody, Scenario.pushedChild]

/-- C11, as amended. The integration step of a parented body moves no body and
writes one velocity, the root's: for a body `m` that has a parent `j`, in an
acyclic parent chain ending in the parentless root `r`, `PhyxObj2D::Update(dt)`
returns, adds `a_m * dt` (the acceleration `m` has accumulated, times the
elapsed time) to the stored velocity of the root and changes nothing else, so
no position and no other stored velocity. And for an unparented body `i` of
any heap, with or without parented bodies in it, `Update(dt)` returns, adds
`a * dt` to its own velocity, then that velocity times `dt` to its own
position, and changes no other body. -/
theorem Update_integrates_into_root (h : Heap K) (dt : K) :
    (∀ (m j r : Nat) (rest : List Nat) (bm root : PhyxObj2D K),
      Chain.IsChain h (m :: j :: rest) r → (m :: j :: rest).Nodup →
      h[m]? = some bm → h[r]? = some root →
      ∃ h1, Update h m dt = some h1
        ∧ h1[r]? = some { root with v := root.v + bm.a * dt }
        ∧ ∀ x, x ≠ r → h1[x]? = h[x]?)
    ∧ ∀ (i : Nat) (b : PhyxObj2D K), h[i]? = some b → b.parent = Parent.null →
      ∃ h2 b2, Update h i dt = some h2
        ∧ h2[i]? = some b2
        ∧ b2 = { b with v := b.v + b.a * dt, position := b.position + (b.v + b.a * dt) * dt }
        ∧ ∀ x, x ≠ i → h2[x]? = h[x]? := by
  constructor
  · intro m j r rest bm root hc hnd hm hr
    have hdv : dV h m (bm.a * dt) = some (h.set r { root with v := root.v + bm.a * dt }) :=
      Chain.VelocityCall.run_of_member (Chain.VelocityCall.dV (bm.a * dt)) hc hnd
        (List.mem_cons_self m _) hr
    have hpm : bm.parent = Parent.phyx j := by
      have hp := hc.1
      unfold Chain.parentOf at hp
      rw [hm] at hp
      exact Option.some.inj hp
    have hproot : root.parent = Parent.null := by
      have hp := Chain.IsChain.root_null hc
      unfold Chain.parentOf at hp
      rw [hr] at hp
      exact Option.some.inj hp
    have hrm : r ≠ m := by
      intro hc2
      subst hc2
      rw [hr] at hm
      have hbe := Option.some.inj hm
      subst hbe
      rw [hproot] at hpm
      cases hpm
    refine ⟨_, ?_, Heap.get_set_self hr _, fun x hx => Heap.get_set_ne (Ne.symm hx) _⟩
    unfold Update
    rw [hm]
    simp only [hdv, (Heap.get_set_ne hrm _).trans hm, hpm]
  · intro i b hi hb
    obtain ⟨bpos, bpar, bkin, borb, bv, ba, bmass⟩ := b
    simp only at hb
    subst hb
    have hdv := dV_of_null hi rfl (ba * dt)
    have h1i := Heap.get_set_self hi
      ({ position := bpos, parent := Parent.null, kinematic := bkin, orbiting := borb,
         v := bv + ba * dt, a := ba, mass := bmass } : PhyxObj2D K)
    refine ⟨_, _, ?_, Heap.get_set_self h1i _, rfl, fun x hx => ?_⟩
    · unfold Update
      rw [hi]
      simp only [hdv, h1i, Move_of_get h1i]
    · rw [Heap.get_set_ne (Ne.symm hx), Heap.get_set_ne (Ne.symm hx)]

/-- Witness of C11 as amended: the welded body at 1 of `Scenario.convoy`, and
the first of two unparented bodies in a heap without any parented body;
elapsed time 2. -/
theorem Update_integrates_into_root_witness :
    (∃ h1 : Heap ℝ, Update (Scenario.convoy : Heap ℝ) 1 2 = some h1
      ∧ h1[0]? = some { Scenario.pushedBody (⟨0, 0⟩ : dvec2 ℝ) ⟨1, 0⟩ ⟨0, -1⟩ 2 with
          v := (Scenario.pushedBody (⟨0, 0⟩ : dvec2 ℝ) ⟨1, 0⟩ ⟨0, -1⟩ 2).v
            + (Scenario.pushedChild 0 (⟨1, 0⟩ : dvec2 ℝ) ⟨0, 0⟩ ⟨3, 0⟩ 1).a * (2 : ℝ) }
      ∧ ∀ x, x ≠ 0 → h1[x]? = (Scenario.convoy : Heap ℝ)[x]?)
    ∧ ∃ (h2 : Heap ℝ) (b2 : PhyxObj2D ℝ),
      Update [Scenario.pushedBody (⟨0, 0⟩ : dvec2 ℝ) ⟨1, 0⟩ ⟨0, -1⟩ 2,
          Scenario.freeBody ⟨3, 0⟩ ⟨0, 0⟩ 1] 0 2 = some h2
      ∧ h2[0]? = some b2
      ∧ b2 = { Scenario.pushedBody (⟨0, 0⟩ : dvec2 ℝ) ⟨1, 0⟩ ⟨0, -1⟩ 2 with
          v := (Scenario.pushedBody (⟨0, 0⟩ : dvec2 ℝ) ⟨1, 0⟩ ⟨0, -1⟩ 2).v
            + (Scenario.pushedBody (⟨0, 0⟩ : dvec2 ℝ) ⟨1, 0⟩ ⟨0, -1⟩ 2).a * (2 : ℝ),
          position := (Scenario.pushedBody (⟨0, 0⟩ : dvec2 ℝ) ⟨1, 0⟩ ⟨0, -1⟩ 2).position
            + ((Scenario.pushedBody (⟨0, 0⟩ : dvec2 ℝ) ⟨1, 0⟩ ⟨0, -1⟩ 2).v
              + (Scenario.pushedBody (⟨0, 0⟩ : dvec2 ℝ) ⟨1, 0⟩ ⟨0, -1⟩ 2).a * (2 : ℝ))
              * (2 : ℝ) }
      ∧ ∀ x, x ≠ 0 →
        h2[x]? = [Scenario.pushedBody (⟨0, 0⟩ : dvec2 ℝ) ⟨1, 0⟩ ⟨0, -1⟩ 2,
          Scenario.freeBody ⟨3, 0⟩ ⟨0, 0⟩ 1][x]? :=
  ⟨(Update_integrates_into_root (Scenario.convoy : Heap ℝ) 2).1 1 0 0 []
      (Scenario.pushedChild 0 ⟨1, 0⟩ ⟨0, 0⟩ ⟨3, 0⟩ 1)
      (Scenario.pushedBody ⟨0, 0⟩ ⟨1, 0⟩ ⟨0, -1⟩ 2)
      (by simp [Chain.IsChain, Chain.parentOf, Scenario.convoy, Scenario.pushedBody,
        Scenario.pushedChild])
      (by decide) rfl rfl,
    (Update_integrates_into_root
        [Scenario.pushedBody (⟨0, 0⟩ : dvec2 ℝ) ⟨1, 0⟩ ⟨0, -1⟩ 2,
          Scenario.freeBody ⟨3, 0⟩ ⟨0, 0⟩ 1] 2).2 0
      (Scenario.pushedBody ⟨0, 0⟩ ⟨1, 0⟩ ⟨0, -1⟩ 2) rfl rfl⟩

end PhyxObj2D

/-! ## The hard-stop fallback of dynamic resolution -/

namespace PhyxENG

/-- The fallback branch of `DynamicResolution`: when a contact collider is not
a circle, the stored velocity and the acceleration of both bodies are zeroed. -/
theorem DynamicResolution_fallback {K : Type} [Field K] (sqrt : K → K) (eng : PhyxENG K)
    (h : Heap K) (p q : Nat) (pc qc : Collider K) (op oq : PhyxObj2D K) (pw qw : dvec2 K)
    (hpq : p ≠ q) (hp : h[p]? = some op) (hq : h[q]? = some oq)
    (hpw : pc.worldPosition2D h = some pw) (hqw : qc.worldPosition2D h = some qw)
    (hnc : pc.Dim = none ∨ qc.Dim = none) :
    DynamicResolution sqrt eng h p pc q qc
      = some ((((h.set p { op with v := ⟨0, 0⟩ }).set q { oq with v := ⟨0, 0⟩ }).set p
          { op with v := ⟨0, 0⟩, a := ⟨0, 0⟩ }).set q { oq with v := ⟨0, 0⟩, a := ⟨0, 0⟩ }) := by
  have h1p := Heap.get_set_self hp ({ op with v := ⟨0, 0⟩ } : PhyxObj2D K)
  have h1q : (h.set p { op with v := ⟨0, 0⟩ })[q]? = some oq :=
    (Heap.get_set_ne hpq _).trans hq
  have h2q := Heap.get_set_self h1q ({ oq with v := ⟨0, 0⟩ } : PhyxObj2D K)
  have h2p : ((h.set p { op with v := ⟨0, 0⟩ }).set q { oq with v := ⟨0, 0⟩ })[p]?
      = some { op with v := ⟨0, 0⟩ } := (Heap.get_set_ne (Ne.symm hpq) _).trans h1p
  have h3q : (((h.set p { op with v := ⟨0, 0⟩ }).set q { oq with v := ⟨0, 0⟩ }).set p
      { op with v := ⟨0, 0⟩, a := ⟨0, 0⟩ })[q]? = some { oq with v := ⟨0, 0⟩ } :=
    (Heap.get_set_ne hpq _).trans h2q
  have hfb : ((PhyxObj2D.ResetV h p).bind fun h1 =>
        (PhyxObj2D.ResetV h1 q).bind fun h2 =>
        (PhyxObj2D.ResetA h2 p).bind fun h3 =>
        PhyxObj2D.ResetA h3 q)
      = some ((((h.set p { op with v := ⟨0, 0⟩ }).set q { oq with v := ⟨0, 0⟩ }).set p
          { op with v := ⟨0, 0⟩, a := ⟨0, 0⟩ }).set q { oq with v := ⟨0, 0⟩, a := ⟨0, 0⟩ }) := by
    rw [PhyxObj2D.ResetV_of_get hp, Option.some_bind, PhyxObj2D.ResetV_of_get h1q,
      Option.some_bind, PhyxObj2D.ResetA_of_get h2p, Option.some_bind,
      PhyxObj2D.ResetA_of_get h3q]
  unfold DynamicResolution
  rw [hpw, hqw, hp, hq]
  simp only
  rcases hnc with hn | hn
  · rw [hn]
    exact hfb
  · rw [hn]
    cases pc.Dim <;> exact hfb

/-- `Speed()` of an unparented body is the length of its own velocity. -/
theorem Speed_of_null {K : Type} [Field K] (sqrt : K → K) {h : Heap K} {i : Nat}
    {b : PhyxObj2D K} (hi : h[i]? = some b) (hb : b.parent = Parent.null) :
    PhyxObj2D.Speed sqrt h i = some (glm.length sqrt b.v) := by
  obtain ⟨n, hn⟩ := Heap.length_pos_of_get hi
  simp [PhyxObj2D.Speed, hn, PhyxObj2D.SpeedAux, hi, hb]

/-- The hard stop on unparented bodies: when a contact collider is not a circle
and both bodies are unparented, `DynamicResolution` returns, and afterwards
`V()` and `Speed()` of both bodies report zero and both accelerations are zero. -/
theorem DynamicResolution_fallback_unparented (eng : PhyxENG ℝ) (h : Heap ℝ) (p q : Nat)
    (pc qc : Collider ℝ) (op oq : PhyxObj2D ℝ) (pw qw : dvec2 ℝ)
    (hpq : p ≠ q) (hp : h[p]? = some op) (hq : h[q]? = some oq)
    (hpp : op.parent = Parent.null) (hqp : oq.parent = Parent.null)
    (hpw : pc.worldPosition2D h = some pw) (hqw : qc.worldPosition2D h = some qw)
    (hnc : pc.Dim = none ∨ qc.Dim = none) :
    ∃ h1 op1 oq1, DynamicResolution Real.sqrt eng h p pc q qc = some h1
      ∧ h1[p]? = some op1 ∧ h1[q]? = some oq1
      ∧ op1.a = ⟨0, 0⟩ ∧ oq1.a = ⟨0, 0⟩
      ∧ PhyxObj2D.getV h1 p = some ⟨0, 0⟩ ∧ PhyxObj2D.getV h1 q = some ⟨0, 0⟩
      ∧ PhyxObj2D.Speed Real.sqrt h1 p = some 0 ∧ PhyxObj2D.Speed Real.sqrt h1 q = some 0 := by
  have hres := DynamicResolution_fallback Real.sqrt eng h p q pc qc op oq pw qw hpq hp hq
    hpw hqw hnc
  have h1q : (h.set p { op with v := ⟨0, 0⟩ })[q]? = some oq :=
    (Heap.get_set_ne hpq _).trans hq
  have h2p : ((h.set p { op with v := ⟨0, 0⟩ }).set q { oq with v := ⟨0, 0⟩ })[p]?
      = some { op with v := ⟨0, 0⟩ } :=
    (Heap.get_set_ne (Ne.symm hpq) _).trans (Heap.get_set_self hp _)
  have h3p := Heap.get_set_self h2p
    ({ op with v := ⟨0, 0⟩, a := ⟨0, 0⟩ } : PhyxObj2D ℝ)
  have h3q : (((h.set p { op with v := ⟨0, 0⟩ }).set q { oq with v := ⟨0, 0⟩ }).set p
      { op with v := ⟨0, 0⟩, a := ⟨0, 0⟩ })[q]? = some { oq with v := ⟨0, 0⟩ } :=
    (Heap.get_set_ne hpq _).trans (Heap.get_set_self h1q _)
  have h4q := Heap.get_set_self h3q
    ({ oq with v := ⟨0, 0⟩, a := ⟨0, 0⟩ } : PhyxObj2D ℝ)
  have h4p : ((((h.set p { op with v := ⟨0, 0⟩ }).set q { oq with v := ⟨0, 0⟩ }).set p
      { op with v := ⟨0, 0⟩, a := ⟨0, 0⟩ }).set q { oq with v := ⟨0, 0⟩, a := ⟨0, 0⟩ })[p]?
      = some { op with v := ⟨0, 0⟩, a := ⟨0, 0⟩ } :=
    (Heap.get_set_ne (Ne.symm hpq) _).trans h3p
  have hzero : glm.length Real.sqrt (⟨0, 0⟩ : dvec2 ℝ) = 0 := by
    simp [glm.length, dot]
  refine ⟨_, _, _, hres, h4p, h4q, rfl, rfl, PhyxObj2D.getV_of_null h4p hpp,
    PhyxObj2D.getV_of_null h4q hqp, ?_, ?_⟩
  · rw [Speed_of_null Real.sqrt h4p hpp]
    exact congrArg some hzero
  · rw [Speed_of_null Real.sqrt h4q hqp]
    exact congrArg some hzero

/-- C13, the code at the failing input: the body at 1 is welded to a carrier
moving at `(3, 4)` and meets the free body at 2 in a contact of colliders that
are not circles. `DynamicResolution` zeroes the stored velocity and the
acceleration of the welded body, but `V()` and `Speed()` of that body read the
carrier, which is untouched: they still report `(3, 4)` and `5`. -/
theorem DynamicResolution_fallback_parented_keeps_moving :
    ∃ h1 : Heap ℝ,
      DynamicResolution Real.sqrt
          (Scenario.engine [0, 1, 2] 1 GravityMode.Everything true 1 Scenario.boxContact)
          (Scenario.towing : Heap ℝ) 1 (Scenario.boxOn 1) 2 (Scenario.boxOn 2) = some h1
      ∧ h1[1]?.map (fun b => (b.v, b.a)) = some (⟨0, 0⟩, ⟨0, 0⟩)
      ∧ PhyxObj2D.getV h1 1 = some ⟨3, 4⟩
      ∧ PhyxObj2D.Speed Real.sqrt h1 1 = some 5
      ∧ PhyxObj2D.getV h1 2 = some ⟨0, 0⟩ := by
  have h25 : Real.sqrt (3 * 3 + 4 * 4) = 5 := sqrt_of_mul_self (by norm_num) (by norm_num)
  refine ⟨[Scenario.freeBody ⟨0, 0⟩ ⟨3, 4⟩ 5, Scenario.childBody 0 ⟨1, 0⟩ ⟨0, 0⟩ 1,
    Scenario.freeBody ⟨2, 0⟩ ⟨0, 0⟩ 1], ?_, rfl, ?_, ?_, ?_⟩
  · simp [DynamicResolution, Scenario.towing, Scenario.boxOn, Scenario.freeBody,
      Scenario.childBody, Collider.worldPosition2D, GameObj.worldPosition2DAux,
      PhyxObj2D.ResetV, PhyxObj2D.ResetA]
  · simp [PhyxObj2D.getV, PhyxObj2D.getVAux, Scenario.freeBody, Scenario.childBody]
  · simp [PhyxObj2D.Speed, PhyxObj2D.SpeedAux, Scenario.freeBody, Scenario.childBody,
      glm.length, dot, h25]
  · simp [PhyxObj2D.getV, PhyxObj2D.getVAux, Scenario.freeBody, Scenario.childBody]

end PhyxENG

/-! ## The acceleration accumulators under an update -/

namespace Heap
variable {K : Type}

/-- Every heap keeps its own accelerations. -/
theorem AccFrame.same (S : List Nat) (h : Heap K) : AccFrame S h h :=
  ⟨rfl, fun _ => rfl, fun _ _ => rfl⟩

/-- Acceleration frames compose. -/
theorem AccFrame.chain {S : List Nat} {h h1 h2 : Heap K} (h01 : AccFrame S h h1)
    (h12 : AccFrame S h1 h2) : AccFrame S h h2 :=
  ⟨h12.1.trans h01.1, fun i => (h12.2.1 i).trans (h01.2.1 i),
    fun i hi => (h12.2.2 i hi).trans (h01.2.2 i hi)⟩

/-- An acceleration frame for a list is one for every longer list. -/
theorem AccFrame.mono {S T : List Nat} {h h1 : Heap K} (hf : AccFrame S h h1)
    (hST : ∀ i ∈ S, i ∈ T) : AccFrame T h h1 :=
  ⟨hf.1, hf.2.1, fun i hi => hf.2.2 i (fun hc => hi (hST i hc))⟩

/-- Writing back a body with the same skeleton, and with the same acceleration
unless it is listed, gives an acceleration frame. -/
theorem AccFrame.of_write {S : List Nat} {h : Heap K} {i : Nat} {b b1 : PhyxObj2D K}
    (hi : h[i]? = some b) (hs : skeleton b1 = skeleton b) (ha : i ∉ S → b1.a = b.a) :
    AccFrame S h (h.set i b1) := by
  refine ⟨List.length_set _ _ _, fun j => ?_, fun j hj => ?_⟩
  · by_cases hij : i = j
    · subst hij
      rw [get_set_self hi, hi]
      simp only [Option.map_some', hs]
    · rw [get_set_ne hij]
  · by_cases hij : i = j
    · subst hij
      rw [get_set_self hi, hi]
      simp only [Option.map_some', ha hj]
    · rw [get_set_ne hij]

/-- An acceleration frame keeps the heap well-formed. -/
theorem AccFrame.keeps_wellFormed {S : List Nat} {h h1 : Heap K} (hf : AccFrame S h h1)
    (hw : WellFormed h) : WellFormed h1 := by
  intro i hi
  rw [hf.1] at hi ⊢
  rw [holderAux_isSome_congr hf.2.1]
  exact hw i hi

/-- An acceleration frame keeps the kinematic flag and the parent of every body. -/
theorem AccFrame.lookup {S : List Nat} {h h1 : Heap K} (hf : AccFrame S h h1) {i : Nat}
    {b : PhyxObj2D K} (hi : h[i]? = some b) :
    ∃ b1, h1[i]? = some b1 ∧ skeleton b1 = skeleton b := by
  have hs := hf.2.1 i
  rw [hi] at hs
  cases hb1 : h1[i]? with
  | none => rw [hb1] at hs; cases hs
  | some b1 =>
    rw [hb1] at hs
    exact ⟨b1, rfl, Option.some.inj hs⟩

end Heap

namespace PhyxObj2D
variable {K : Type} [Field K]
open Heap

/-- `AddForce` on a listed body returns with an acceleration frame. -/
theorem AddForce_acc {S : List Nat} {h : Heap K} {i : Nat} (hi : i < h.length) (hS : i ∈ S)
    (_a : dvec2 K) : ∃ h1, AddForce h i _a = some h1 ∧ AccFrame S h h1 := by
  obtain ⟨b, hb⟩ := get_of_lt hi
  exact ⟨_, AddForce_of_get hb _a, AccFrame.of_write hb rfl (fun hc => absurd hS hc)⟩

/-- `ResetA` on a listed body returns with an acceleration frame. -/
theorem ResetA_acc {S : List Nat} {h : Heap K} {i : Nat} (hi : i < h.length) (hS : i ∈ S) :
    ∃ h1, ResetA h i = some h1 ∧ AccFrame S h h1 := by
  obtain ⟨b, hb⟩ := get_of_lt hi
  exact ⟨_, ResetA_of_get hb, AccFrame.of_write hb rfl (fun hc => absurd hS hc)⟩

/-- `Move` returns and keeps every acceleration. -/
theorem Move_acc (S : List Nat) {h : Heap K} {i : Nat} (hi : i < h.length) (d : dvec2 K) :
    ∃ h1, Move h i d = some h1 ∧ AccFrame S h h1 := by
  obtain ⟨b, hb⟩ := get_of_lt hi
  exact ⟨_, Move_of_get hb d, AccFrame.of_write hb rfl (fun _ => rfl)⟩

/-- `ResetV` returns and keeps every acceleration. -/
theorem ResetV_acc (S : List Nat) {h : Heap K} {i : Nat} (hi : i < h.length) :
    ∃ h1, ResetV h i = some h1 ∧ AccFrame S h h1 := by
  obtain ⟨b, hb⟩ := get_of_lt hi
  exact ⟨_, ResetV_of_get hb, AccFrame.of_write hb rfl (fun _ => rfl)⟩

omit [Field K] in
/-- The setter `V(_v)` returns wherever the chain ends, and keeps every
acceleration. -/
theorem setVAux_acc (S : List Nat) {h : Heap K} (_v : dvec2 K) :
    ∀ (n i : Nat), (Chain.holderAux h n i).isSome →
      ∃ h1, setVAux h _v n i = some h1 ∧ AccFrame S h h1
  | 0, _, hs => by simp [Chain.holderAux] at hs
  | n + 1, i, hs => by
    unfold Chain.holderAux at hs
    unfold setVAux
    cases hb : h[i]? with
    | none => rw [hb] at hs; cases hs
    | some b =>
      rw [hb] at hs
      simp only at hs ⊢
      cases hp : b.parent with
      | phyx j =>
        rw [hp] at hs
        exact setVAux_acc S _v n j hs
      | other w => exact ⟨h, rfl, AccFrame.same S h⟩
      | null => exact ⟨_, rfl, AccFrame.of_write hb (by simp [skeleton, hp]) (fun _ => rfl)⟩

/-- `dV(_v)` returns wherever the chain ends, and keeps every acceleration. -/
theorem dVAux_acc (S : List Nat) {h : Heap K} (_v : dvec2 K) :
    ∀ (n i : Nat), (Chain.holderAux h n i).isSome →
      ∃ h1, dVAux h _v n i = some h1 ∧ AccFrame S h h1
  | 0, _, hs => by simp [Chain.holderAux] at hs
  | n + 1, i, hs => by
    unfold Chain.holderAux at hs
    unfold dVAux
    cases hb : h[i]? with
    | none => rw [hb] at hs; cases hs
    | some b =>
      rw [hb] at hs
      simp only at hs ⊢
      cases hp : b.parent with
      | phyx j =>
        rw [hp] at hs
        exact dVAux_acc S _v n j hs
      | other w => exact ⟨h, rfl, AccFrame.same S h⟩
      | null => exact ⟨_, rfl, AccFrame.of_write hb (by simp [skeleton, hp]) (fun _ => rfl)⟩

/-- The integration step returns on a well-formed heap and keeps every
acceleration. -/
theorem integrate_acc (S : List Nat) {h : Heap K} (hw : WellFormed h) {i : Nat}
    (hi : i < h.length) (dt : K) : ∃ h1, Update h i dt = some h1 ∧ AccFrame S h h1 := by
  obtain ⟨b, hb⟩ := get_of_lt hi
  obtain ⟨h1, e1, f1⟩ := dVAux_acc S (b.a * dt) h.length i (hw i hi)
  obtain ⟨b1, hb1⟩ := get_of_lt (h := h1) (i := i) (by rw [f1.1]; exact hi)
  unfold Update
  rw [hb]
  simp only [dV, e1, hb1]
  cases hp : b1.parent with
  | phyx j => exact ⟨h1, rfl, f1⟩
  | other w => exact ⟨h1, rfl, f1⟩
  | null =>
    obtain ⟨h2, e2, f2⟩ := Move_acc S (h := h1) (by rw [f1.1]; exact hi) (b1.v * dt)
    exact ⟨h2, e2, f1.chain f2⟩

end PhyxObj2D

namespace PhyxENG
variable {K : Type} [Field K]
open Heap

omit [Field K] in
/-- Two calls that return with an acceleration frame do so one after the other. -/
theorem bind_acc {S : List Nat} {h : Heap K} {f : Option (Heap K)}
    {g : Heap K → Option (Heap K)}
    (hf : ∃ h1, f = some h1 ∧ AccFrame S h h1 ∧ ∃ h2, g h1 = some h2 ∧ AccFrame S h1 h2) :
    ∃ h2, f.bind g = some h2 ∧ AccFrame S h h2 := by
  obtain ⟨h1, hf1, hfr1, h2, hg2, hfr2⟩ := hf
  exact ⟨h2, by rw [hf1]; exact hg2, hfr1.chain hfr2⟩

/-- The gravity step returns on a well-formed heap and writes no acceleration
but those of the pair. -/
theorem gravityStep_acc (sqrt : K → K) (eng : PhyxENG K) {S : List Nat} {h : Heap K}
    (hw : WellFormed h) {p q : Nat} (hp : p < h.length) (hq : q < h.length)
    (hpS : p ∈ S) (hqS : q ∈ S) :
    ∃ h1, gravityStep sqrt eng h p q = some h1 ∧ AccFrame S h h1 := by
  obtain ⟨g, hgr⟩ := Gravity2D_some sqrt eng hw hp hq
  obtain ⟨op, hop⟩ := get_of_lt hp
  obtain ⟨oq, hoq⟩ := get_of_lt hq
  have hstep : ∀ (c : Bool) (i : Nat) (f : dvec2 K) (h0 : Heap K), i < h0.length → i ∈ S →
      ∃ h1, (if c then PhyxObj2D.AddForce h0 i f else some h0) = some h1 ∧ AccFrame S h0 h1 := by
    intro c i f h0 hi hiS
    cases c
    · exact ⟨h0, rfl, AccFrame.same S h0⟩
    · exact PhyxObj2D.AddForce_acc hi hiS f
  unfold gravityStep
  rw [hgr, hop, hoq]
  simp only
  cases hpar : op.parent with
  | phyx j => exact ⟨h, rfl, AccFrame.same S h⟩
  | other w => exact ⟨h, rfl, AccFrame.same S h⟩
  | null =>
    simp only
    cases eng.gravitymode with
    | Everything =>
      simp only
      apply bind_acc
      obtain ⟨h1, e1, f1⟩ := hstep (!op.isKinematic) p g h hp hpS
      refine ⟨h1, e1, f1, ?_⟩
      exact hstep (!oq.isKinematic) q (-g) h1 (by rw [f1.1]; exact hq) hqS
    | Orbiting =>
      simp only
      apply bind_acc
      obtain ⟨h1, e1, f1⟩ := hstep (op.Orbiting q && !op.isKinematic) p g h hp hpS
      refine ⟨h1, e1, f1, ?_⟩
      exact hstep (oq.Orbiting p && !oq.isKinematic) q (-g) h1 (by rw [f1.1]; exact hq) hqS
    | Directional =>
      exact PhyxObj2D.AddForce_acc hp hpS _

/-- `StaticResolution` returns on a well-formed heap with attached colliders and
keeps every acceleration. -/
theorem StaticResolution_acc (sqrt : K → K) (S : List Nat) {h : Heap K} (hw : WellFormed h)
    {p q : Nat} (hp : p < h.length) (hq : q < h.length) {pc qc : Collider K}
    (hpc : pc.Attached h.length) (hqc : qc.Attached h.length) :
    ∃ h1, StaticResolution sqrt h p pc q qc = some h1 ∧ AccFrame S h h1 := by
  obtain ⟨pw, hpw⟩ := Collider.attached_resolves hw hpc
  obtain ⟨qw, hqw⟩ := Collider.attached_resolves hw hqc
  obtain ⟨op, hop⟩ := get_of_lt hp
  obtain ⟨oq, hoq⟩ := get_of_lt hq
  have hboth : ∀ d e : dvec2 K,
      ∃ h1, ((PhyxObj2D.Move h p d).bind fun h0 => PhyxObj2D.Move h0 q e) = some h1
        ∧ AccFrame S h h1 := by
    intro d e
    apply bind_acc
    obtain ⟨h1, e1, f1⟩ := PhyxObj2D.Move_acc S hp d
    exact ⟨h1, e1, f1, PhyxObj2D.Move_acc S (by rw [f1.1]; exact hq) e⟩
  unfold StaticResolution
  rw [hpw, hqw, hop, hoq]
  simp only
  cases hpd : pc.Dim with
  | none => exact hboth _ _
  | some pDim =>
    cases hqd : qc.Dim with
    | none => exact hboth _ _
    | some qDim =>
      simp only
      split
      · exact hboth _ _
      · split
        · exact PhyxObj2D.Move_acc S hq _
        · split
          · exact PhyxObj2D.Move_acc S hp _
          · exact ⟨h, rfl, AccFrame.same S h⟩

/-- `DynamicResolution` returns on a well-formed heap with attached colliders
and writes no acceleration but those of the pair. -/
theorem DynamicResolution_acc (sqrt : K → K) (eng : PhyxENG K) {S : List Nat} {h : Heap K}
    (hw : WellFormed h) {p q : Nat} (hp : p < h.length) (hq : q < h.length)
    (hpS : p ∈ S) (hqS : q ∈ S) {pc qc : Collider K}
    (hpc : pc.Attached h.length) (hqc : qc.Attached h.length) :
    ∃ h1, DynamicResolution sqrt eng h p pc q qc = some h1 ∧ AccFrame S h h1 := by
  obtain ⟨pw, hpw⟩ := Collider.attached_resolves hw hpc
  obtain ⟨qw, hqw⟩ := Collider.attached_resolves hw hqc
  obtain ⟨op, hop⟩ := get_of_lt hp
  obtain ⟨oq, hoq⟩ := get_of_lt hq
  have hfallback :
      ∃ h1, ((PhyxObj2D.ResetV h p).bind fun h1 =>
        (PhyxObj2D.ResetV h1 q).bind fun h2 =>
        (PhyxObj2D.ResetA h2 p).bind fun h3 =>
        PhyxObj2D.ResetA h3 q) = some h1 ∧ AccFrame S h h1 := by
    apply bind_acc
    obtain ⟨h1, e1, f1⟩ := PhyxObj2D.ResetV_acc S hp
    refine ⟨h1, e1, f1, ?_⟩
    apply bind_acc
    obtain ⟨h2, e2, f2⟩ := PhyxObj2D.ResetV_acc S (h := h1) (i := q) (by rw [f1.1]; exact hq)
    refine ⟨h2, e2, f2, ?_⟩
    apply bind_acc
    obtain ⟨h3, e3, f3⟩ := PhyxObj2D.ResetA_acc (h := h2) (i := p)
      (by rw [f2.1, f1.1]; exact hp) hpS
    exact ⟨h3, e3, f3, PhyxObj2D.ResetA_acc (by rw [f3.1, f2.1, f1.1]; exact hq) hqS⟩
  unfold DynamicResolution
  rw [hpw, hqw, hop, hoq]
  simp only
  cases hpd : pc.Dim with
  | none => exact hfallback
  | some pDim =>
    cases hqd : qc.Dim with
    | none => exact hfallback
    | some qDim =>
      obtain ⟨pV, hpV⟩ := PhyxObj2D.getV_some hw hp
      obtain ⟨qV, hqV⟩ := PhyxObj2D.getV_some hw hq
      simp only [hpV, hqV]
      apply bind_acc
      have hset : ∀ (c : Bool) (i : Nat) (v : dvec2 K) (h0 : Heap K), WellFormed h0 →
          i < h0.length →
          ∃ h1, (if c then PhyxObj2D.setV h0 i v else some h0) = some h1 ∧ AccFrame S h0 h1 := by
        intro c i v h0 hw0 hi
        cases c
        · exact ⟨h0, rfl, AccFrame.same S h0⟩
        · exact PhyxObj2D.setVAux_acc S v h0.length i (hw0 i hi)
      obtain ⟨h1, e1, f1⟩ := hset (!op.isKinematic) p
        ((({ x := (normalize sqrt (pw - qw)).y * -1, y := (normalize sqrt (pw - qw)).x } : dvec2 K)
            * dot pV { x := (normalize sqrt (pw - qw)).y * -1, y := (normalize sqrt (pw - qw)).x }
          + normalize sqrt (pw - qw)
            * ((dot pV (normalize sqrt (pw - qw)) * (op.mass - oq.mass)
                + 2 * oq.mass * dot qV (normalize sqrt (pw - qw))) / (op.mass + oq.mass)))
          * eng.colEl) h hw hp
      refine ⟨h1, e1, f1, ?_⟩
      exact hset (!oq.isKinematic) q _ h1 (f1.keeps_wellFormed hw) (by rw [f1.1]; exact hq)

/-- The contact handling returns on a well-formed heap and writes no
acceleration but those of the pair. -/
theorem contactStep_acc (sqrt : K → K) (eng : PhyxENG K) {S : List Nat} {h : Heap K}
    (hw : WellFormed h) {p q : Nat} (hp : p < h.length) (hq : q < h.length)
    (hpS : p ∈ S) (hqS : q ∈ S) (hatt : eng.ServiceAttached h.length) :
    ∃ h1, contactStep sqrt eng h p q = some h1 ∧ AccFrame S h h1 := by
  unfold contactStep
  cases hmsg : eng.CollisionBetween h p q with
  | none => exact ⟨h, rfl, AccFrame.same S h⟩
  | some pqData =>
    simp only
    split
    · obtain ⟨hap, haq⟩ := hatt h p q pqData rfl hp hq hmsg
      apply bind_acc
      obtain ⟨h1, e1, f1⟩ := StaticResolution_acc sqrt S hw hp hq hap haq
      refine ⟨h1, e1, f1, ?_⟩
      exact DynamicResolution_acc sqrt eng (f1.keeps_wellFormed hw) (by rw [f1.1]; exact hp)
        (by rw [f1.1]; exact hq) hpS hqS (by rw [f1.1]; exact hap) (by rw [f1.1]; exact haq)
    · exact ⟨h, rfl, AccFrame.same S h⟩

/-- The inner loop returns on a well-formed heap and writes no acceleration but
those of the bodies it visits. -/
theorem innerLoop_acc (sqrt : K → K) (eng : PhyxENG K) {S : List Nat} (p : Nat) (hpS : p ∈ S) :
    ∀ (qs : List Nat) (h : Heap K), WellFormed h → p < h.length →
      (∀ q ∈ qs, q < h.length ∧ q ∈ S) → eng.ServiceAttached h.length →
      ∃ h1, innerLoop sqrt eng p qs h = some h1 ∧ AccFrame S h h1
  | [], h, _, _, _, _ => ⟨h, rfl, AccFrame.same S h⟩
  | q :: qs, h, hw, hp, hqs, hatt => by
    obtain ⟨hq, hqS⟩ := hqs q (List.mem_cons_self q qs)
    unfold innerLoop
    apply bind_acc
    obtain ⟨h1, e1, f1⟩ := gravityStep_acc sqrt eng hw hp hq hpS hqS
    refine ⟨h1, e1, f1, ?_⟩
    apply bind_acc
    obtain ⟨h2, e2, f2⟩ := contactStep_acc sqrt eng (f1.keeps_wellFormed hw) (p := p) (q := q)
      (by rw [f1.1]; exact hp) (by rw [f1.1]; exact hq) hpS hqS (by rw [f1.1]; exact hatt)
    refine ⟨h2, e2, f2, ?_⟩
    have hlen : h2.length = h.length := f2.1.trans f1.1
    exact innerLoop_acc sqrt eng p hpS qs h2 (f2.keeps_wellFormed (f1.keeps_wellFormed hw))
      (by rw [hlen]; exact hp)
      (fun x hx => by rw [hlen]; exact hqs x (List.mem_cons_of_mem q hx))
      (by rw [hlen]; exact hatt)

/-- The end of a turn returns on a well-formed heap, writes no acceleration but
that of its body, and leaves that one zero. -/
theorem finishBody_acc {S : List Nat} {h : Heap K} (hw : WellFormed h) {p : Nat}
    (hp : p < h.length) (hpS : p ∈ S) (dd : K) :
    ∃ h1, finishBody h p dd = some h1 ∧ AccFrame S h h1
      ∧ ∃ b : PhyxObj2D K, h1[p]? = some b ∧ b.a = ⟨0, 0⟩ := by
  obtain ⟨op, hop⟩ := get_of_lt hp
  have h1 : ∃ h1, (if (!op.isKinematic) = true then PhyxObj2D.Update h p dd else some h) = some h1
      ∧ AccFrame S h h1 := by
    split
    · exact PhyxObj2D.integrate_acc S hw hp dd
    · exact ⟨h, rfl, AccFrame.same S h⟩
  obtain ⟨h1, e1, f1⟩ := h1
  obtain ⟨b1, hb1⟩ := get_of_lt (h := h1) (i := p) (by rw [f1.1]; exact hp)
  unfold finishBody
  rw [hop]
  simp only [e1, Option.some_bind, PhyxObj2D.ResetA_of_get hb1]
  exact ⟨_, rfl, f1.chain (AccFrame.of_write hb1 rfl (fun hc => absurd hpS hc)),
    _, get_set_self hb1 _, rfl⟩

end PhyxENG

namespace PhyxENG
variable {K : Type} [Field K]
open Heap

/-- The outer loop returns on a well-formed heap, writes no acceleration but
those of the bodies of its list, and leaves those zero. -/
theorem outerLoop_acc (sqrt : K → K) (eng : PhyxENG K) (dd : K) :
    ∀ (ps : List Nat) (h : Heap K), WellFormed h → (∀ p ∈ ps, p < h.length) →
      eng.ServiceAttached h.length →
      ∃ h1, outerLoop sqrt eng dd ps h = some h1 ∧ AccFrame ps h h1 ∧ Cleared ps h1
  | [], h, _, _, _ => ⟨h, rfl, AccFrame.same [] h, fun _ hi => absurd hi (List.not_mem_nil _)⟩
  | p :: rest, h, hw, hps, hatt => by
    have hp : p < h.length := hps p (List.mem_cons_self p rest)
    have hrest : ∀ x ∈ rest, x < h.length := fun x hx => hps x (List.mem_cons_of_mem p hx)
    obtain ⟨h1, e1, f1⟩ := innerLoop_acc sqrt eng (S := p :: rest) p (List.mem_cons_self p rest)
      rest h hw hp (fun x hx => ⟨hrest x hx, List.mem_cons_of_mem p hx⟩) hatt
    obtain ⟨h2, e2, f2, b2, hb2, ha2⟩ := finishBody_acc (S := p :: rest) (f1.keeps_wellFormed hw)
      (p := p) (by rw [f1.1]; exact hp) (List.mem_cons_self p rest) dd
    have hlen : h2.length = h.length := f2.1.trans f1.1
    obtain ⟨h3, e3, f3, c3⟩ := outerLoop_acc sqrt eng dd rest h2
      (f2.keeps_wellFormed (f1.keeps_wellFormed hw)) (fun x hx => by rw [hlen]; exact hrest x hx)
      (by rw [hlen]; exact hatt)
    refine ⟨h3, ?_, (f1.chain f2).chain (f3.mono (fun i hi => List.mem_cons_of_mem p hi)), ?_⟩
    · unfold outerLoop
      rw [e1, Option.some_bind, e2, Option.some_bind, e3]
    · intro x hx
      rcases List.mem_cons.mp hx with hxp | hxr
      · subst hxp
        by_cases hin : x ∈ rest
        · exact c3 x hin
        · have hacc := f3.2.2 x hin
          rw [hb2] at hacc
          cases hb3 : h3[x]? with
          | none => rw [hb3] at hacc; cases hacc
          | some b3 =>
            rw [hb3] at hacc
            have hb := Option.some.inj hacc
            exact ⟨b3, rfl, hb.trans ha2⟩
      · exact c3 x hxr

/-- C12. Acceleration accumulators are cleared every frame: on a well-formed
heap (valid pointers, acyclic parent chains), for every registry of valid
pointers, every configuration and elapsed time and every collision service
whose colliders are attached to the heap, `PhyxENG::Update` returns and
afterwards every tracked body, kinematic or not, parented or not, whatever its
index, has the acceleration `(0, 0)`. -/
theorem Update_clears_accelerations (sqrt : K → K) (eng : PhyxENG K) (dd : K) (h : Heap K)
    (hw : WellFormed h) (hm : ∀ p ∈ eng.managed, p < h.length)
    (hatt : eng.ServiceAttached h.length) :
    ∃ h1, Update sqrt eng dd h = some h1
      ∧ ∀ p ∈ eng.managed, ∃ b : PhyxObj2D K, h1[p]? = some b ∧ b.a = ⟨0, 0⟩ := by
  obtain ⟨h1, e1, _, c1⟩ := outerLoop_acc sqrt eng dd eng.managed h hw hm hatt
  exact ⟨h1, e1, c1⟩

/-- Witness of C12: the welded pair of `Scenario.convoy`, both with accumulated
accelerations, in circle contact under mutual gravity. -/
theorem Update_clears_accelerations_witness :
    ∃ h1 : Heap ℝ,
      Update Real.sqrt
          (Scenario.engine [0, 1] 1 GravityMode.Everything true 1 (Scenario.circleContact 1)) 2
          (Scenario.convoy : Heap ℝ) = some h1
      ∧ ∀ p ∈ (Scenario.engine [0, 1] (1 : ℝ) GravityMode.Everything true 1
            (Scenario.circleContact 1)).managed,
          ∃ b : PhyxObj2D ℝ, h1[p]? = some b ∧ b.a = ⟨0, 0⟩ :=
  Update_clears_accelerations Real.sqrt
    (Scenario.engine [0, 1] 1 GravityMode.Everything true 1 (Scenario.circleContact 1)) 2
    (Scenario.convoy : Heap ℝ)
    (by
      intro i hi
      simp only [Scenario.convoy, List.length_cons, List.length_nil] at hi
      interval_cases i <;>
        simp [Chain.holderAux, Scenario.convoy, Scenario.pushedBody, Scenario.pushedChild])
    (by simp [Scenario.engine, Scenario.convoy])
    (by
      intro h p q pqData _ hp hq hmsg
      simp only [Scenario.engine, Scenario.circleContact, Option.some.injEq] at hmsg
      subst hmsg
      exact ⟨hp, hq⟩)

end PhyxENG

/-! ## Pairwise gravity under an update -/

namespace Heap
variable {K : Type}

/-- Writing back the object a pointer already holds changes nothing. -/
theorem set_same {h : Heap K} {i : Nat} {b : PhyxObj2D K} (hi : h[i]? = some b) :
    h.set i b = h := by
  apply List.ext_getElem?
  intro n
  by_cases hn : i = n
  · subst hn
    rw [get_set_self hi, hi]
  · rw [get_set_ne hn]

end Heap

namespace glm
variable {K : Type} [Field K]

/-- Adding the zero vector changes nothing. -/
theorem dvec2.add_zero_right (u : dvec2 K) : u + (⟨0, 0⟩ : dvec2 K) = u := by
  ext <;> simp

/-- Adding to the zero vector changes nothing. -/
theorem dvec2.zero_add_left (u : dvec2 K) : (⟨0, 0⟩ : dvec2 K) + u = u := by
  ext <;> simp

/-- Two gains behind the same gate add up behind it. -/
theorem dvec2.add_gated (k : Bool) (a x y : dvec2 K) :
    a + (if k = true then ⟨0, 0⟩ else x) + (if k = true then ⟨0, 0⟩ else y)
      = a + (if k = true then ⟨0, 0⟩ else x + y) := by
  cases k
  · simp only [Bool.false_eq_true, if_false]
    ext <;> simp [add_assoc]
  · simp only [if_true, dvec2.add_zero_right]

end glm

namespace PhyxENG
variable {K : Type} [Field K]

/-- `Gravity2D` between two unparented bodies reads their own positions. -/
theorem Gravity2D_free (sqrt : K → K) (eng : PhyxENG K) {h : Heap K} {a b : Nat}
    {oa ob : PhyxObj2D K} (ha : h[a]? = some oa) (hb : h[b]? = some ob)
    (hap : oa.parent = Parent.null) (hbp : ob.parent = Parent.null) :
    Gravity2D sqrt eng h a b
      = some ((ob.position - oa.position) * (eng.G * (oa.mass * ob.mass
          / (glm.length sqrt (ob.position - oa.position)
            * glm.length sqrt (ob.position - oa.position) / 4)))) := by
  unfold Gravity2D PhyxObj2D.worldPosition2D
  simp only [ha, hb, hap, hbp, GameObj.worldPosition2DAux, PhyxObj2D.Mass]

/-- The force of `a` on `b` is the opposite of the force of `b` on `a`. -/
theorem Gravity2D_free_swap (sqrt : K → K) (eng : PhyxENG K) {h : Heap K} {a b : Nat}
    {oa ob : PhyxObj2D K} (ha : h[a]? = some oa) (hb : h[b]? = some ob)
    (hap : oa.parent = Parent.null) (hbp : ob.parent = Parent.null) :
    (Gravity2D sqrt eng h b a).getD ⟨0, 0⟩ = -((Gravity2D sqrt eng h a b).getD ⟨0, 0⟩) := by
  rw [Gravity2D_free sqrt eng ha hb hap hbp, Gravity2D_free sqrt eng hb ha hbp hap]
  have hd : dot (oa.position - ob.position) (oa.position - ob.position)
      = dot (ob.position - oa.position) (ob.position - oa.position) := by
    simp only [dot, dvec2.sub_x, dvec2.sub_y]
    ring
  simp only [Option.getD_some, glm.length, hd]
  ext
  · simp only [dvec2.mul_x, dvec2.sub_x, dvec2.neg_x]
    ring
  · simp only [dvec2.mul_y, dvec2.sub_y, dvec2.neg_y]
    ring

/-- The gravity step of mode Everything on two unparented bodies: each body that
is not kinematic gains the pull of the other. -/
theorem gravityStep_unparented (sqrt : K → K) (eng : PhyxENG K)
    (hmode : eng.gravitymode = GravityMode.Everything) {h : Heap K} {p q : Nat}
    {op oq : PhyxObj2D K} (hpq : p ≠ q) (hp : h[p]? = some op) (hq : h[q]? = some oq)
    (hpp : op.parent = Parent.null) (hqp : oq.parent = Parent.null) :
    gravityStep sqrt eng h p q
      = some ((h.set p { op with a := op.a + (if op.kinematic = true then ⟨0, 0⟩
            else (Gravity2D sqrt eng h p q).getD ⟨0, 0⟩ / op.mass) }).set q
          { oq with a := oq.a + (if oq.kinematic = true then ⟨0, 0⟩
            else (-((Gravity2D sqrt eng h p q).getD ⟨0, 0⟩)) / oq.mass) }) := by
  obtain ⟨g, hgg⟩ : ∃ g : dvec2 K, Gravity2D sqrt eng h p q = some g :=
    ⟨_, Gravity2D_free sqrt eng hp hq hpp hqp⟩
  have hq1 : ∀ c, (h.set p c)[q]? = some oq := fun c => (Heap.get_set_ne hpq c).trans hq
  obtain ⟨ppos, ppar, pkin, porb, pv, pa, pm⟩ := op
  obtain ⟨qpos, qpar, qkin, qorb, qv, qa, qm⟩ := oq
  simp only at hpp hqp
  subst hpp
  subst hqp
  unfold gravityStep
  rw [hgg, hp, hq]
  simp only [hmode, Option.getD_some]
  cases pkin <;> cases qkin
  · simp only [PhyxObj2D.isKinematic, Bool.not_false, Bool.false_eq_true, if_false, if_true,
      Option.some_bind, PhyxObj2D.AddForce_of_get hp, PhyxObj2D.AddForce_of_get (hq1 _)]
  · simp only [PhyxObj2D.isKinematic, Bool.not_false, Bool.not_true, Bool.false_eq_true,
      if_false, if_true, Option.some_bind, PhyxObj2D.AddForce_of_get hp,
      dvec2.add_zero_right]
    rw [Heap.set_same (hq1 _)]
  · simp only [PhyxObj2D.isKinematic, Bool.not_false, Bool.not_true, Bool.false_eq_true,
      if_false, if_true, Option.some_bind, PhyxObj2D.AddForce_of_get hq,
      dvec2.add_zero_right]
    rw [Heap.set_same hp]
  · simp only [PhyxObj2D.isKinematic, Bool.not_true, Bool.false_eq_true,
      if_false, if_true, Option.some_bind, dvec2.add_zero_right]
    rw [Heap.set_same hp, Heap.set_same hq]

/-- The sum of pulls reads the forces only. -/
theorem netPull_congr (sqrt : K → K) (eng : PhyxENG K) {h h2 : Heap K} (a : Nat) (m : K) :
    ∀ qs : List Nat,
    (∀ q ∈ qs, q ≠ a → Gravity2D sqrt eng h2 a q = Gravity2D sqrt eng h a q) →
    netPull sqrt eng h2 a m qs = netPull sqrt eng h a m qs := by
  intro qs
  induction qs with
  | nil => intro _; rfl
  | cons q qs ih =>
    intro hq
    simp only [netPull]
    rw [ih (fun r hr => hq r (List.mem_cons_of_mem _ hr))]
    by_cases hqa : q = a
    · simp only [hqa, if_true]
    · simp only [hqa, if_false, hq q (List.mem_cons_self _ _) hqa]

end PhyxENG

namespace PhyxENG
variable {K : Type} [Field K]

/-- The inner loop of an update in mode Everything on unparented bodies, when no
contact is resolved: the body of the turn, unless kinematic, gains the pulls of
all the later bodies, and each later body that is not kinematic gains the
opposite pull. -/
theorem innerLoop_unparented (sqrt : K → K) (eng : PhyxENG K)
    (hmode : eng.gravitymode = GravityMode.Everything)
    (hnc : ∀ (h : Heap K) (p q : Nat), contactStep sqrt eng h p q = some h) (p : Nat) :
    ∀ (qs : List Nat) (h : Heap K) (op : PhyxObj2D K), h[p]? = some op →
    op.parent = Parent.null → p ∉ qs → qs.Nodup →
    (∀ q ∈ qs, ∃ oq, h[q]? = some oq ∧ oq.parent = Parent.null) →
    ∃ h1, innerLoop sqrt eng p qs h = some h1
      ∧ h1[p]? = some { op with a := op.a + (if op.kinematic = true then ⟨0, 0⟩
          else netPull sqrt eng h p op.mass qs) }
      ∧ (∀ q ∈ qs, ∀ oq, h[q]? = some oq →
          h1[q]? = some { oq with a := oq.a + (if oq.kinematic = true then ⟨0, 0⟩
            else (-((Gravity2D sqrt eng h p q).getD ⟨0, 0⟩)) / oq.mass) })
      ∧ ∀ x, x ≠ p → x ∉ qs → h1[x]? = h[x]? := by
  intro qs
  induction qs with
  | nil =>
    intro h op hp _ _ _ _
    refine ⟨h, rfl, ?_, fun q hq => absurd hq (List.not_mem_nil q), fun _ _ _ => rfl⟩
    simp only [netPull, ite_self, dvec2.add_zero_right]
    exact hp
  | cons q qs ih =>
    intro h op hp hpp hpn hnd hfree
    have hpq : p ≠ q := fun e => hpn (e ▸ List.mem_cons_self _ _)
    have hpqs : p ∉ qs := fun e => hpn (List.mem_cons_of_mem _ e)
    have hqqs : q ∉ qs := (List.nodup_cons.mp hnd).1
    have hnds : qs.Nodup := (List.nodup_cons.mp hnd).2
    obtain ⟨oq, hq, hqp⟩ := hfree q (List.mem_cons_self _ _)
    have hstep := gravityStep_unparented sqrt eng hmode hpq hp hq hpp hqp
    obtain ⟨g, hg⟩ : ∃ g : dvec2 K, (Gravity2D sqrt eng h p q).getD ⟨0, 0⟩ = g := ⟨_, rfl⟩
    rw [hg] at hstep
    obtain ⟨P1, hP1⟩ : ∃ P1 : PhyxObj2D K, P1 = { op with a := op.a
        + (if op.kinematic = true then ⟨0, 0⟩ else g / op.mass) } := ⟨_, rfl⟩
    obtain ⟨Q1, hQ1⟩ : ∃ Q1 : PhyxObj2D K, Q1 = { oq with a := oq.a
        + (if oq.kinematic = true then ⟨0, 0⟩ else (-g) / oq.mass) } := ⟨_, rfl⟩
    rw [← hP1, ← hQ1] at hstep
    have hp1 : ((h.set p P1).set q Q1)[p]? = some P1 :=
      (Heap.get_set_ne (Ne.symm hpq) _).trans (Heap.get_set_self hp _)
    have hq1 : ((h.set p P1).set q Q1)[q]? = some Q1 :=
      Heap.get_set_self ((Heap.get_set_ne hpq _).trans hq) _
    have hx1 : ∀ x, x ≠ p → x ≠ q → ((h.set p P1).set q Q1)[x]? = h[x]? :=
      fun x hxp hxq =>
        (Heap.get_set_ne (Ne.symm hxq) _).trans (Heap.get_set_ne (Ne.symm hxp) _)
    have hP1p : P1.parent = Parent.null := by rw [hP1]; exact hpp
    have hfree1 : ∀ r ∈ qs, ∃ or1, ((h.set p P1).set q Q1)[r]? = some or1
        ∧ or1.parent = Parent.null := by
      intro r hr
      obtain ⟨or1, hr1, hr2⟩ := hfree r (List.mem_cons_of_mem _ hr)
      refine ⟨or1, ?_, hr2⟩
      rw [hx1 r (fun e => hpqs (e ▸ hr)) (fun e => hqqs (e ▸ hr))]
      exact hr1
    obtain ⟨h2, hres, h2p, h2q, h2x⟩ := ih _ _ hp1 hP1p hpqs hnds hfree1
    have hgrav : ∀ r ∈ qs, Gravity2D sqrt eng ((h.set p P1).set q Q1) p r
        = Gravity2D sqrt eng h p r := by
      intro r hr
      obtain ⟨or1, hr1, hr2⟩ := hfree r (List.mem_cons_of_mem _ hr)
      have hr0 := (hx1 r (fun e => hpqs (e ▸ hr)) (fun e => hqqs (e ▸ hr))).trans hr1
      rw [Gravity2D_free sqrt eng hp1 hr0 hP1p hr2, Gravity2D_free sqrt eng hp hr1 hpp hr2, hP1]
    refine ⟨h2, ?_, ?_, ?_, ?_⟩
    · simp only [innerLoop, hstep, Option.some_bind, hnc]
      exact hres
    · rw [h2p, netPull_congr sqrt eng p _ qs (fun r hr _ => hgrav r hr), hP1]
      simp only [netPull, Ne.symm hpq, if_false, hg, dvec2.add_gated]
    · intro r hr or1 hr1
      rcases List.mem_cons.mp hr with e | hrs
      · subst e
        rw [hq] at hr1
        have e2 := Option.some.inj hr1
        subst e2
        rw [h2x r (Ne.symm hpq) hqqs, hq1, hQ1, hg]
      · have hr0 := (hx1 r (fun e => hpqs (e ▸ hrs)) (fun e => hqqs (e ▸ hrs))).trans hr1
        rw [h2q r hrs or1 hr0, hgrav r hrs]
    · intro x hxp hxn
      have hxq : x ≠ q := fun e => hxn (e ▸ List.mem_cons_self _ _)
      have hxs : x ∉ qs := fun e => hxn (List.mem_cons_of_mem _ e)
      rw [h2x x hxp hxs]
      exact hx1 x hxp hxq

end PhyxENG

namespace PhyxENG
variable {K : Type} [Field K]

/-- The end of the turn of an unparented, non-kinematic body: its acceleration
goes into its velocity, its velocity into its position, and the acceleration is
cleared. -/
theorem finishBody_free {h : Heap K} {p : Nat} {op : PhyxObj2D K} (hp : h[p]? = some op)
    (hpp : op.parent = Parent.null) (hpk : op.kinematic = false) (dd : K) :
    finishBody h p dd
      = some (h.set p { op with v := op.v + op.a * dd,
                                position := op.position + (op.v + op.a * dd) * dd,
                                a := ⟨0, 0⟩ }) := by
  obtain ⟨B1, hB1⟩ : ∃ B1 : PhyxObj2D K, B1 = { op with v := op.v + op.a * dd } := ⟨_, rfl⟩
  have hdv : PhyxObj2D.dV h p (op.a * dd) = some (h.set p B1) := by
    rw [hB1]
    exact PhyxObj2D.dV_of_null hp hpp _
  have h1p : (h.set p B1)[p]? = some B1 := Heap.get_set_self hp _
  have hB1p : B1.parent = Parent.null := by rw [hB1]; exact hpp
  obtain ⟨B2, hB2⟩ : ∃ B2 : PhyxObj2D K, B2 = { B1 with position := B1.position + B1.v * dd } :=
    ⟨_, rfl⟩
  have hmv : PhyxObj2D.Move (h.set p B1) p (B1.v * dd) = some ((h.set p B1).set p B2) := by
    rw [hB2]
    exact PhyxObj2D.Move_of_get h1p _
  have h2p : ((h.set p B1).set p B2)[p]? = some B2 := Heap.get_set_self h1p _
  have hup : PhyxObj2D.Update h p dd = some ((h.set p B1).set p B2) := by
    unfold PhyxObj2D.Update
    simp only [hp, hdv, h1p, hB1p, hmv]
  have hk : (!op.isKinematic) = true := by simp [PhyxObj2D.isKinematic, hpk]
  unfold finishBody
  simp only [hp, hk, if_true, hup, Option.some_bind]
  rw [PhyxObj2D.ResetA_of_get h2p, List.set_set, List.set_set]
  subst hB2
  subst hB1
  rfl

/-- The end of the turn of a kinematic body: its acceleration is cleared. -/
theorem finishBody_kinematic {h : Heap K} {p : Nat} {op : PhyxObj2D K} (hp : h[p]? = some op)
    (hpk : op.kinematic = true) (dd : K) :
    finishBody h p dd = some (h.set p { op with a := ⟨0, 0⟩ }) := by
  have hk : (!op.isKinematic) = false := by simp [PhyxObj2D.isKinematic, hpk]
  unfold finishBody
  simp only [hp, hk, Bool.false_eq_true, if_false, Option.some_bind,
    PhyxObj2D.ResetA_of_get hp]

/-- An update in mode Everything on unparented bodies, when no contact is
resolved: every body that is not kinematic is advanced under its own
acceleration and the pulls of all the other bodies, and a kinematic body has
its acceleration cleared. -/
theorem outerLoop_unparented (sqrt : K → K) (eng : PhyxENG K)
    (hmode : eng.gravitymode = GravityMode.Everything)
    (hnc : ∀ (h : Heap K) (p q : Nat), contactStep sqrt eng h p q = some h) (dd : K) :
    ∀ (rest : List Nat) (h : Heap K), rest.Nodup →
    (∀ p ∈ rest, ∃ op, h[p]? = some op ∧ op.parent = Parent.null) →
    ∃ h1, outerLoop sqrt eng dd rest h = some h1
      ∧ (∀ p ∈ rest, ∀ op, h[p]? = some op →
          (op.kinematic = false →
            h1[p]? = some { op with
              v := op.v + (op.a + netPull sqrt eng h p op.mass rest) * dd,
              position := op.position
                + (op.v + (op.a + netPull sqrt eng h p op.mass rest) * dd) * dd,
              a := ⟨0, 0⟩ })
          ∧ (op.kinematic = true → h1[p]? = some { op with a := ⟨0, 0⟩ }))
      ∧ ∀ x, x ∉ rest → h1[x]? = h[x]? := by
  intro rest
  induction rest with
  | nil =>
    intro h _ _
    exact ⟨h, rfl, fun p hp => absurd hp (List.not_mem_nil p), fun _ _ => rfl⟩
  | cons p rest ih =>
    intro h hnd hfree
    have hpn : p ∉ rest := (List.nodup_cons.mp hnd).1
    have hnds : rest.Nodup := (List.nodup_cons.mp hnd).2
    obtain ⟨op, hp, hpp⟩ := hfree p (List.mem_cons_self _ _)
    obtain ⟨h1, hIL, h1p, h1q, h1x⟩ := innerLoop_unparented sqrt eng hmode hnc p rest h op hp hpp
      hpn hnds (fun q hq => hfree q (List.mem_cons_of_mem _ hq))
    obtain ⟨N, hN⟩ : ∃ N : dvec2 K, netPull sqrt eng h p op.mass rest = N := ⟨_, rfl⟩
    rw [hN] at h1p
    obtain ⟨F, hFB, hF0, hF1⟩ : ∃ F : PhyxObj2D K, finishBody h1 p dd = some (h1.set p F)
        ∧ (op.kinematic = false → F = { op with
            v := op.v + (op.a + N) * dd,
            position := op.position + (op.v + (op.a + N) * dd) * dd,
            a := ⟨0, 0⟩ })
        ∧ (op.kinematic = true → F = { op with a := ⟨0, 0⟩ }) := by
      rcases Bool.eq_false_or_eq_true op.kinematic with hk | hk
      · refine ⟨_, finishBody_kinematic h1p hk dd, fun e => ?_, fun _ => rfl⟩
        rw [hk] at e
        cases e
      · refine ⟨_, finishBody_free h1p hpp hk dd, fun _ => ?_, fun e => ?_⟩
        · simp only [hk, Bool.false_eq_true, if_false]
        · rw [hk] at e
          cases e
    have h2p : (h1.set p F)[p]? = some F := Heap.get_set_self h1p _
    have h2x : ∀ x, x ≠ p → (h1.set p F)[x]? = h1[x]? :=
      fun x hx => Heap.get_set_ne (Ne.symm hx) _
    have h2q : ∀ q ∈ rest, ∀ oq, h[q]? = some oq → (h1.set p F)[q]?
        = some { oq with a := oq.a + (if oq.kinematic = true then ⟨0, 0⟩
            else (-((Gravity2D sqrt eng h p q).getD ⟨0, 0⟩)) / oq.mass) } :=
      fun q hq oq hoq => (h2x q (fun e => hpn (e ▸ hq))).trans (h1q q hq oq hoq)
    have hfree2 : ∀ q ∈ rest, ∃ oq, (h1.set p F)[q]? = some oq ∧ oq.parent = Parent.null := by
      intro q hq
      obtain ⟨oq, hoq, hoqp⟩ := hfree q (List.mem_cons_of_mem _ hq)
      exact ⟨_, h2q q hq oq hoq, hoqp⟩
    obtain ⟨h3, hOL, h3q, h3x⟩ := ih (h1.set p F) hnds hfree2
    have hgrav : ∀ q ∈ rest, ∀ r ∈ rest, Gravity2D sqrt eng (h1.set p F) q r
        = Gravity2D sqrt eng h q r := by
      intro q hq r hr
      obtain ⟨oq, hoq, hoqp⟩ := hfree q (List.mem_cons_of_mem _ hq)
      obtain ⟨or1, hor, horp⟩ := hfree r (List.mem_cons_of_mem _ hr)
      rw [Gravity2D_free sqrt eng (h2q q hq oq hoq) (h2q r hr or1 hor) hoqp horp,
        Gravity2D_free sqrt eng hoq hor hoqp horp]
    refine ⟨h3, ?_, ?_, ?_⟩
    · simp only [outerLoop, hIL, Option.some_bind, hFB]
      exact hOL
    · intro r hr or1 hor
      rcases List.mem_cons.mp hr with e | hrs
      · subst e
        rw [hp] at hor
        have e2 := Option.some.inj hor
        subst e2
        rw [h3x r hpn, h2p]
        refine ⟨fun hk => ?_, fun hk => ?_⟩
        · rw [hF0 hk]
          simp only [netPull, if_true, dvec2.zero_add_left, hN]
        · rw [hF1 hk]
      · have hrp : r ≠ p := fun e => hpn (e ▸ hrs)
        have horp : or1.parent = Parent.null := by
          obtain ⟨o2, ho2, ho2p⟩ := hfree r hr
          rw [hor] at ho2
          rw [Option.some.inj ho2]
          exact ho2p
        obtain ⟨i0, i1⟩ := h3q r hrs _ (h2q r hrs or1 hor)
        refine ⟨fun hk => ?_, fun hk => ?_⟩
        · rw [i0 hk, netPull_congr sqrt eng r _ rest (fun s hs _ => hgrav r hrs s hs)]
          simp only [netPull, Ne.symm hrp, hk, Bool.false_eq_true, if_false,
            dvec2.add_right_assoc, Gravity2D_free_swap sqrt eng hp hor hpp horp]
        · rw [i1 hk]
    · intro x hx
      have hxp : x ≠ p := fun e => hx (e ▸ List.mem_cons_self _ _)
      have hxs : x ∉ rest := fun e => hx (List.mem_cons_of_mem _ e)
      rw [h3x x hxs, h2x x hxp]
      exact h1x x hxp hxs

end PhyxENG

namespace PhyxENG

/-- When resolution is disabled or the collision service reports nothing, the
contact handling of a pair leaves the heap as it is. -/
theorem contactStep_idle {K : Type} [Field K] (sqrt : K → K) (eng : PhyxENG K)
    (hnc : eng.clipping = false ∨ ∀ (h : Heap K) (p q : Nat), eng.CollisionBetween h p q = none)
    (h : Heap K) (p q : Nat) : contactStep sqrt eng h p q = some h := by
  unfold contactStep
  rcases hnc with hc | hc
  · rw [hc]
    cases eng.CollisionBetween h p q <;> simp
  · rw [hc]

/-- C8. Pairwise gravity. For two bodies `a`, `b` at distinct world positions
`pos_a`, `pos_b`, `PhyxENG::Gravity2D(a, b)` is the separation vector
`pos_b - pos_a` scaled by `G * (mass_a * mass_b) / (d^2 / 4)` with
`d = |pos_b - pos_a|`, and `Gravity2D(b, a)` is its exact negation; when `a` is
unparented and neither body is kinematic, the gravity lines of
`PhyxENG::Update` for the pair in mode Everything are `AddForce` of that force
on `a` followed by `AddForce` of its negation on `b` (the two forces sum to
zero). And the update step applies it once to every pair: in mode Everything,
on a registry without repetition of unparented bodies at pairwise distinct
positions, with no contact resolved during the step, `PhyxENG::Update` returns;
a tracked body `a` that is not kinematic ends with the velocity
`v + (acc + sum of Gravity2D(a, b) / mass_a over the other tracked bodies b) * dd`,
every force evaluated on the positions before the step, with its position
advanced by that velocity times `dd` and its acceleration cleared; a kinematic
tracked body only has its acceleration cleared. -/
theorem Update_applies_pairwise_gravity (eng : PhyxENG ℝ) (dd : ℝ) (h : Heap ℝ) :
    (∀ (a b : Nat) (oa ob : PhyxObj2D ℝ) (wa wb : dvec2 ℝ),
        h[a]? = some oa → h[b]? = some ob →
        PhyxObj2D.worldPosition2D h a = some wa → PhyxObj2D.worldPosition2D h b = some wb →
        wa ≠ wb →
        Gravity2D Real.sqrt eng h a b
          = some ((wb - wa) * (eng.G * (oa.mass * ob.mass)
              / (glm.length Real.sqrt (wb - wa) ^ 2 / 4)))
        ∧ Gravity2D Real.sqrt eng h b a
          = some (-((wb - wa) * (eng.G * (oa.mass * ob.mass)
              / (glm.length Real.sqrt (wb - wa) ^ 2 / 4))))
        ∧ (eng.gravitymode = GravityMode.Everything → oa.parent = Parent.null →
            oa.kinematic = false → ob.kinematic = false →
            ∃ g h1 oa1 ob1, Gravity2D Real.sqrt eng h a b = some g
              ∧ gravityStep Real.sqrt eng h a b = some h1
              ∧ (PhyxObj2D.AddForce h a g).bind (fun h0 => PhyxObj2D.AddForce h0 b (-g))
                = some h1
              ∧ g + -g = 0
              ∧ h1[a]? = some oa1 ∧ h1[b]? = some ob1
              ∧ oa1.a = oa.a + g / oa.mass ∧ ob1.a = ob.a + -g / ob.mass))
    ∧ (eng.gravitymode = GravityMode.Everything → eng.managed.Nodup →
        (∀ p ∈ eng.managed, ∃ op, h[p]? = some op ∧ op.parent = Parent.null) →
        (∀ p ∈ eng.managed, ∀ q ∈ eng.managed, p ≠ q → ∀ (op oq : PhyxObj2D ℝ),
          h[p]? = some op → h[q]? = some oq → op.position ≠ oq.position) →
        (eng.clipping = false
          ∨ ∀ (h1 : Heap ℝ) (p q : Nat), eng.CollisionBetween h1 p q = none) →
        ∃ h1, Update Real.sqrt eng dd h = some h1
          ∧ ∀ a ∈ eng.managed, ∀ oa, h[a]? = some oa →
            (oa.kinematic = false →
              h1[a]? = some { oa with
                v := oa.v + (oa.a + netPull Real.sqrt eng h a oa.mass eng.managed) * dd,
                position := oa.position
                  + (oa.v + (oa.a + netPull Real.sqrt eng h a oa.mass eng.managed) * dd) * dd,
                a := ⟨0, 0⟩ })
            ∧ (oa.kinematic = true → h1[a]? = some { oa with a := ⟨0, 0⟩ })) := by
  constructor
  · intro a b oa ob wa wb ha hb hwa hwb hne
    have hab : a ≠ b := by
      intro e
      subst e
      rw [hwa] at hwb
      exact hne (Option.some.inj hwb)
    have hg := Gravity2D_eq eng h a b oa ob wa wb ha hb hwa hwb
    refine ⟨hg, ?_, ?_⟩
    · rw [Gravity2D_eq eng h b a ob oa wb wa hb ha hwb hwa, length_sub_comm wa wb]
      congr 1
      ext
      · simp only [dvec2.mul_x, dvec2.sub_x, dvec2.neg_x]
        ring
      · simp only [dvec2.mul_y, dvec2.sub_y, dvec2.neg_y]
        ring
    · intro hmode hpar hak hbk
      obtain ⟨g, hgdef⟩ : ∃ g : dvec2 ℝ, g = (wb - wa) * (eng.G * (oa.mass * ob.mass)
          / (glm.length Real.sqrt (wb - wa) ^ 2 / 4)) := ⟨_, rfl⟩
      rw [← hgdef] at hg
      have hb1 : ∀ c, (h.set a c)[b]? = some ob := fun c => (Heap.get_set_ne hab c).trans hb
      have hforce : (PhyxObj2D.AddForce h a g).bind (fun h0 => PhyxObj2D.AddForce h0 b (-g))
          = some ((h.set a { oa with a := oa.a + g / oa.mass }).set b
              { ob with a := ob.a + -g / ob.mass }) := by
        simp only [PhyxObj2D.AddForce_of_get ha, Option.some_bind,
          PhyxObj2D.AddForce_of_get (hb1 _)]
      have hstep : gravityStep Real.sqrt eng h a b
          = (PhyxObj2D.AddForce h a g).bind (fun h0 => PhyxObj2D.AddForce h0 b (-g)) := by
        unfold gravityStep
        simp only [hg, ha, hb, hpar, hmode, PhyxObj2D.isKinematic, hak, hbk, Bool.not_false,
          if_true]
      refine ⟨g, _, { oa with a := oa.a + g / oa.mass }, { ob with a := ob.a + -g / ob.mass },
        hg, hstep.trans hforce, hforce, ?_,
        (Heap.get_set_ne (Ne.symm hab) _).trans (Heap.get_set_self ha _),
        Heap.get_set_self (hb1 _) _, rfl, rfl⟩
      ext <;> simp
  · intro hmode hnd hfree _ hnc
    obtain ⟨h1, hres, hall, _⟩ := outerLoop_unparented Real.sqrt eng hmode
      (contactStep_idle Real.sqrt eng hnc) dd eng.managed h hnd hfree
    exact ⟨h1, hres, hall⟩

/-- The three bodies of `Scenario.row` are unparented. -/
theorem row_unparented :
    (∀ p ∈ (Scenario.engine [0, 1, 2] (1 : ℝ) GravityMode.Everything true 1
        Scenario.noContact).managed,
      ∃ op, (Scenario.row : Heap ℝ)[p]? = some op ∧ op.parent = Parent.null) := by
  intro p hp
  simp only [Scenario.engine, List.mem_cons, List.mem_singleton, List.not_mem_nil, or_false] at hp
  rcases hp with rfl | rfl | rfl <;> exact ⟨_, rfl, rfl⟩

/-- The three bodies of `Scenario.row` are at distinct places. -/
theorem row_distinct :
    ∀ p ∈ (Scenario.engine [0, 1, 2] (1 : ℝ) GravityMode.Everything true 1
        Scenario.noContact).managed,
    ∀ q ∈ (Scenario.engine [0, 1, 2] (1 : ℝ) GravityMode.Everything true 1
        Scenario.noContact).managed, p ≠ q → ∀ (op oq : PhyxObj2D ℝ),
      (Scenario.row : Heap ℝ)[p]? = some op → (Scenario.row : Heap ℝ)[q]? = some oq →
      op.position ≠ oq.position := by
  intro p hp q hq hpq op oq hop hoq
  simp only [Scenario.engine, List.mem_cons, List.mem_singleton, List.not_mem_nil, or_false]
    at hp hq
  rcases hp with rfl | rfl | rfl <;> rcases hq with rfl | rfl | rfl <;>
    first
    | exact absurd rfl hpq
    | (simp only [Scenario.row, Scenario.freeBody, List.getElem?_cons_zero,
        List.getElem?_cons_succ, Option.some.injEq] at hop hoq
       subst hop
       subst hoq
       norm_num [dvec2.ext_iff])

end PhyxENG

namespace PhyxENG

/-- The six pulls between the three bodies of `Scenario.row`, for `G = 1`. -/
theorem row_pulls :
    Gravity2D Real.sqrt (Scenario.engine [0, 1, 2] (1 : ℝ) GravityMode.Everything true 1
        Scenario.noContact) Scenario.row 0 1 = some ⟨4 / 3, 0⟩
    ∧ Gravity2D Real.sqrt (Scenario.engine [0, 1, 2] (1 : ℝ) GravityMode.Everything true 1
        Scenario.noContact) Scenario.row 0 2 = some ⟨2 / 3, 0⟩
    ∧ Gravity2D Real.sqrt (Scenario.engine [0, 1, 2] (1 : ℝ) GravityMode.Everything true 1
        Scenario.noContact) Scenario.row 1 0 = some ⟨-(4 / 3), 0⟩
    ∧ Gravity2D Real.sqrt (Scenario.engine [0, 1, 2] (1 : ℝ) GravityMode.Everything true 1
        Scenario.noContact) Scenario.row 1 2 = some ⟨4 / 3, 0⟩
    ∧ Gravity2D Real.sqrt (Scenario.engine [0, 1, 2] (1 : ℝ) GravityMode.Everything true 1
        Scenario.noContact) Scenario.row 2 0 = some ⟨-(2 / 3), 0⟩
    ∧ Gravity2D Real.sqrt (Scenario.engine [0, 1, 2] (1 : ℝ) GravityMode.Everything true 1
        Scenario.noContact) Scenario.row 2 1 = some ⟨-(4 / 3), 0⟩ := by
  refine ⟨?_, ?_, ?_, ?_, ?_, ?_⟩ <;>
  · simp only [Gravity2D, PhyxObj2D.worldPosition2D, GameObj.worldPosition2DAux, Scenario.row,
      Scenario.freeBody, Scenario.engine, PhyxObj2D.Mass, glm.length_mul_self, dot,
      List.getElem?_cons_zero, List.getElem?_cons_succ, dvec2.mk_sub_mk, dvec2.mk_mul,
      Option.some.injEq, dvec2.mk.injEq]
    norm_num

/-- Witness of C8: the three unit masses of `Scenario.row`, at rest at `(0, 0)`,
`(3, 0)` and `(6, 0)`, with `G = 1`, mode Everything and elapsed time 1. The
pulls are `4/3` between neighbours and `2/3` between the outer bodies: the
first body ends with velocity `(2, 0)`, the last with `(-2, 0)`, and the middle
one, pulled equally from both sides, stays at rest. -/
theorem Update_applies_pairwise_gravity_witness :
    Gravity2D Real.sqrt (Scenario.engine [0, 1, 2] (1 : ℝ) GravityMode.Everything true 1 Scenario.noContact)
        (Scenario.row : Heap ℝ) 0 1
      = some (((⟨3, 0⟩ : dvec2 ℝ) - ⟨0, 0⟩)
          * ((Scenario.engine [0, 1, 2] (1 : ℝ) GravityMode.Everything true 1 Scenario.noContact).G
            * ((Scenario.freeBody (⟨0, 0⟩ : dvec2 ℝ) ⟨0, 0⟩ 1).mass
              * (Scenario.freeBody (⟨3, 0⟩ : dvec2 ℝ) ⟨0, 0⟩ 1).mass)
            / (glm.length Real.sqrt ((⟨3, 0⟩ : dvec2 ℝ) - ⟨0, 0⟩) ^ 2 / 4)))
    ∧ Gravity2D Real.sqrt (Scenario.engine [0, 1, 2] (1 : ℝ) GravityMode.Everything true 1 Scenario.noContact)
        (Scenario.row : Heap ℝ) 1 0
      = some (-(((⟨3, 0⟩ : dvec2 ℝ) - ⟨0, 0⟩)
          * ((Scenario.engine [0, 1, 2] (1 : ℝ) GravityMode.Everything true 1 Scenario.noContact).G
            * ((Scenario.freeBody (⟨0, 0⟩ : dvec2 ℝ) ⟨0, 0⟩ 1).mass
              * (Scenario.freeBody (⟨3, 0⟩ : dvec2 ℝ) ⟨0, 0⟩ 1).mass)
            / (glm.length Real.sqrt ((⟨3, 0⟩ : dvec2 ℝ) - ⟨0, 0⟩) ^ 2 / 4))))
    ∧ (∃ g h0 oa1 ob1,
        Gravity2D Real.sqrt (Scenario.engine [0, 1, 2] (1 : ℝ) GravityMode.Everything true 1 Scenario.noContact)
          (Scenario.row : Heap ℝ) 0 1 = some g
        ∧ gravityStep Real.sqrt (Scenario.engine [0, 1, 2] (1 : ℝ) GravityMode.Everything true 1 Scenario.noContact)
          (Scenario.row : Heap ℝ) 0 1 = some h0
        ∧ (PhyxObj2D.AddForce (Scenario.row : Heap ℝ) 0 g).bind
            (fun h2 => PhyxObj2D.AddForce h2 1 (-g)) = some h0
        ∧ g + -g = 0
        ∧ h0[0]? = some oa1 ∧ h0[1]? = some ob1
        ∧ oa1.a = (Scenario.freeBody (⟨0, 0⟩ : dvec2 ℝ) ⟨0, 0⟩ 1).a
            + g / (Scenario.freeBody (⟨0, 0⟩ : dvec2 ℝ) ⟨0, 0⟩ 1).mass
        ∧ ob1.a = (Scenario.freeBody (⟨3, 0⟩ : dvec2 ℝ) ⟨0, 0⟩ 1).a
            + -g / (Scenario.freeBody (⟨3, 0⟩ : dvec2 ℝ) ⟨0, 0⟩ 1).mass)
    ∧ ∃ h1 : Heap ℝ,
      Update Real.sqrt (Scenario.engine [0, 1, 2] (1 : ℝ) GravityMode.Everything true 1 Scenario.noContact) 1
          Scenario.row = some h1
      ∧ h1[0]? = some (Scenario.freeBody ⟨2, 0⟩ ⟨2, 0⟩ 1 : PhyxObj2D ℝ)
      ∧ h1[1]? = some (Scenario.freeBody ⟨3, 0⟩ ⟨0, 0⟩ 1 : PhyxObj2D ℝ)
      ∧ h1[2]? = some (Scenario.freeBody ⟨4, 0⟩ ⟨-2, 0⟩ 1 : PhyxObj2D ℝ) := by
  have t := Update_applies_pairwise_gravity
    (Scenario.engine [0, 1, 2] (1 : ℝ) GravityMode.Everything true 1 Scenario.noContact) 1
    Scenario.row
  have pr := t.1 0 1 (Scenario.freeBody ⟨0, 0⟩ ⟨0, 0⟩ 1) (Scenario.freeBody ⟨3, 0⟩ ⟨0, 0⟩ 1)
    ⟨0, 0⟩ ⟨3, 0⟩ rfl rfl
    (by simp [PhyxObj2D.worldPosition2D, GameObj.worldPosition2DAux, Scenario.freeBody,
      Scenario.row])
    (by simp [PhyxObj2D.worldPosition2D, GameObj.worldPosition2DAux, Scenario.freeBody,
      Scenario.row])
    (by norm_num [dvec2.ext_iff])
  refine ⟨pr.1, pr.2.1, pr.2.2 rfl rfl rfl rfl, ?_⟩
  obtain ⟨h1, hres, hall⟩ := t.2 rfl (by decide) row_unparented row_distinct (Or.inr fun _ _ _ => rfl)
  have hm : (Scenario.engine [0, 1, 2] (1 : ℝ) GravityMode.Everything true 1
      Scenario.noContact).managed = [0, 1, 2] := rfl
  have e0 := (hall 0 (by simp [Scenario.engine]) (Scenario.freeBody ⟨0, 0⟩ ⟨0, 0⟩ 1) rfl).1 rfl
  have e1 := (hall 1 (by simp [Scenario.engine]) (Scenario.freeBody ⟨3, 0⟩ ⟨0, 0⟩ 1) rfl).1 rfl
  have e2 := (hall 2 (by simp [Scenario.engine]) (Scenario.freeBody ⟨6, 0⟩ ⟨0, 0⟩ 1) rfl).1 rfl
  rw [hm] at e0 e1 e2
  obtain ⟨p01, p02, p10, p12, p20, p21⟩ := row_pulls
  refine ⟨h1, hres, ?_, ?_, ?_⟩
  · rw [e0]
    simp only [netPull, p01, p02, Option.getD_some]
    norm_num [Scenario.freeBody]
  · rw [e1]
    simp only [netPull, p10, p12, Option.getD_some]
    norm_num [Scenario.freeBody]
  · rw [e2]
    simp only [netPull, p20, p21, Option.getD_some]
    norm_num [Scenario.freeBody]

end PhyxENG
